import Mathlib

/-!
# tiny_gb: a shallow embedding of the emulator core

The C program keeps one process-wide aggregate `gb`.  Here every C function
that reads or writes `gb` becomes a Lean function from `gameboy_t` to
`gameboy_t` (paired with the returned value where the C function returns one).

Machine integers are natural numbers; every place where the C code truncates
(`uint8_t`, `uint16_t` assignments) carries an explicit `% 256` / `% 65536`.
One-bit bitfields are `Bool`.
-/

namespace TinyGB

/-! ## Data model -/

/-- The bitfield `register_flags_t`: the low nibble of F (`invalid`), then the
flags c (bit 4), h (bit 5), n (bit 6), z (bit 7). -/
structure register_flags_t where
  invalid : Nat
  c : Bool
  h : Bool
  n : Bool
  z : Bool

/-- The struct `registers_t`.  The C unions overlay `af`, `bc`, `de`, `hl` on the
byte pairs; the 16-bit views are the functions `af`, `bc`, `de`, `hl` below. -/
structure registers_t where
  f : register_flags_t
  a : Nat
  c : Nat
  b : Nat
  e : Nat
  d : Nat
  l : Nat
  h : Nat
  sp : Nat
  pc : Nat

/-- The bitfield `state_t`. -/
structure state_t where
  stop : Bool
  pending_ime : Bool
  ime : Bool
  ram : Bool
  mbc1_mode : Bool
  dma_transfer : Bool
  no_vram_access : Bool
  no_oam_access : Bool

/-- The struct `cycles_t` (four `uint16_t` accumulators). -/
structure cycles_t where
  div : Nat
  tac : Nat
  dma : Nat
  dots : Nat

/-- The struct `sprite_attribute_t`; `flags` is the byte holding `sprite_flags_t`. -/
structure sprite_attribute_t where
  py : Nat
  px : Nat
  tile : Nat
  flags : Nat

/-- The aggregate `gameboy_t`.  The pointer members `memory`, `rom`, `ram` and
`framebuffer` are the arrays they point to, as functions from index to cell.
The typed views `cartridge_header`, `joypad`, `lcd`, `timer`, `interrupt_e`,
`interrupt_f` are overlays on `memory` (at 0x100, 0xFF00, 0xFF40, 0xFF04, 0xFFFF,
0xFF0F) and appear below as accessors; `rom_banks[i]` is `rom + i*0x4000` and
`ram_banks[i]` is `ram + i*0x2000`.

Two members are not part of the C struct: `rom_path_set` stands for
`strlen(rom_path) > 0` of the file-scope `rom_path`, and `key_down vk` stands for
the host call `(GetKeyState(vk) & 0x8000) != 0`. -/
structure gameboy_t where
  registers : registers_t
  state : state_t
  op_cycles : Nat
  cycles : cycles_t
  memory : Nat → Nat
  rom : Nat → Nat
  ram : Nat → Nat
  framebuffer : Nat → Nat
  rom_bank : Nat
  ram_bank : Nat
  scanline_sprites : Nat → sprite_attribute_t
  num_scanline_sprites : Nat
  rom_path_set : Bool
  key_down : Nat → Bool

/-- The enum `lcd_mode_e`. -/
inductive lcd_mode_e where
  | LCD_MODE_HBLANK
  | LCD_MODE_VBLANK
  | LCD_MODE_SCAN_OAM
  | LCD_MODE_PIXEL_TRANSFER
  deriving DecidableEq, Repr

/-- The numeric value of an `lcd_mode_e`. -/
def lcd_mode_e.val : lcd_mode_e → Nat
  | .LCD_MODE_HBLANK => 0
  | .LCD_MODE_VBLANK => 1
  | .LCD_MODE_SCAN_OAM => 2
  | .LCD_MODE_PIXEL_TRANSFER => 3

/-- The table `gb_colors`. -/
def gb_colors (i : Nat) : Nat :=
  if i = 0 then 0xFFE0F8D0 else if i = 1 then 0xFF88C070 else if i = 2 then 0xFF345856 else 0xFF081820

def SCREEN_W : Nat := 160

def SCREEN_H : Nat := 144

/-! ## Macros and bit helpers -/

/-- The macro `LOW(value)`. -/
def LOW (value : Nat) : Nat := value &&& 0xFF

/-- The macro `HIGH(value)`. -/
def HIGH (value : Nat) : Nat := (value >>> 8) &&& 0xFF

/-- The macro `COMBINE(high, low)`. -/
def COMBINE (high low : Nat) : Nat := (high <<< 8) ||| low

/-- Read of a one-bit bitfield at bit position `i` of a byte. -/
def get_bit (v i : Nat) : Bool := Nat.testBit v i

/-- Write of a one-bit bitfield at bit position `i` of a byte. -/
def set_bit (v i : Nat) (b : Bool) : Nat :=
  if b then v ||| (1 <<< i) else v &&& (0xFF ^^^ (1 <<< i))

/-- Store to one cell of an array. -/
def store (m : Nat → Nat) (address value : Nat) : Nat → Nat :=
  fun x => if x = address then value else m x

/-- The conversion `(int8_t)` of a byte, as an integer. -/
def int8 (v : Nat) : Int := if v < 128 then (v : Int) else (v : Int) - 256

/-- A `uint16_t` plus a signed quantity, truncated to 16 bits. -/
def add16 (v : Nat) (d : Int) : Nat := (((v : Int) + d) % 65536).toNat

/-! ## Register views -/

/-- The byte F as stored: z n h c in bits 7..4 over the `invalid` nibble. -/
def register_flags_t.byte (f : register_flags_t) : Nat :=
  (f.z.toNat <<< 7) ||| (f.n.toNat <<< 6) ||| (f.h.toNat <<< 5) ||| (f.c.toNat <<< 4) ||| (f.invalid &&& 0x0F)

/-- The bitfield record held by a byte F. -/
def register_flags_t.ofByte (v : Nat) : register_flags_t :=
  { invalid := v &&& 0x0F, c := get_bit v 4, h := get_bit v 5, n := get_bit v 6, z := get_bit v 7 }

def registers_t.af (r : registers_t) : Nat := COMBINE r.a r.f.byte

def registers_t.bc (r : registers_t) : Nat := COMBINE r.b r.c

def registers_t.de (r : registers_t) : Nat := COMBINE r.d r.e

def registers_t.hl (r : registers_t) : Nat := COMBINE r.h r.l

def registers_t.set_af (r : registers_t) (v : Nat) : registers_t :=
  { r with a := HIGH v, f := register_flags_t.ofByte (LOW v) }

def registers_t.set_bc (r : registers_t) (v : Nat) : registers_t :=
  { r with b := HIGH v, c := LOW v }

def registers_t.set_de (r : registers_t) (v : Nat) : registers_t :=
  { r with d := HIGH v, e := LOW v }

def registers_t.set_hl (r : registers_t) (v : Nat) : registers_t :=
  { r with h := HIGH v, l := LOW v }

/-! ## Overlays on the memory image -/

/-- The field `gb.cartridge_header->rom_size` (the header overlays `memory + 0x100`). -/
def header_rom_size (gb : gameboy_t) : Nat := gb.memory 0x148

/-- The field `gb.cartridge_header->ram_size`. -/
def header_ram_size (gb : gameboy_t) : Nat := gb.memory 0x149

/-- The field `gb.cartridge_header->type`. -/
def header_type (gb : gameboy_t) : Nat := gb.memory 0x147

/-- Assignment to a one-bit bitfield of the byte at `address`. -/
def set_mem_bit (gb : gameboy_t) (address i : Nat) (b : Bool) : gameboy_t :=
  { gb with memory := store gb.memory address (set_bit (gb.memory address) i b) }

/-- The field `gb.lcd->control.enable` (LCDC bit 7). -/
def lcd_enable (gb : gameboy_t) : Bool := get_bit (gb.memory 0xFF40) 7

/-- The field `gb.lcd->control.obj_size` (LCDC bit 2). -/
def lcd_obj_size (gb : gameboy_t) : Bool := get_bit (gb.memory 0xFF40) 2

/-- The field `gb.lcd->status.mode` (STAT bits 1..0). -/
def lcd_status_mode (gb : gameboy_t) : Nat := gb.memory 0xFF41 &&& 0x03

/-- The field `gb.lcd->ly`. -/
def lcd_ly (gb : gameboy_t) : Nat := gb.memory 0xFF44

/-- The field `gb.lcd->lyc`. -/
def lcd_lyc (gb : gameboy_t) : Nat := gb.memory 0xFF45

/-! ## Framebuffer, PPU mode and LY -/

/-- The C function `clear_pixels`: `memset` converts its fill value to `unsigned char`, so each of
the four bytes of every pixel receives the low byte of `color`. -/
def clear_pixels (framebuffer : Nat → Nat) (color : Nat) : Nat → Nat :=
  fun i => if i < SCREEN_W * SCREEN_H then (color % 256) * 0x01010101 else framebuffer i

/-- The C function `set_pixel`. -/
def set_pixel (framebuffer : Nat → Nat) (x y : Int) (color : Nat) : Nat → Nat :=
  if 0 ≤ x ∧ x < SCREEN_W ∧ 0 ≤ y ∧ y < SCREEN_H then
    store framebuffer (y * SCREEN_W + x).toNat color
  else framebuffer

/-- The C function `get_pixel`. -/
def get_pixel (framebuffer : Nat → Nat) (x y : Int) : Nat :=
  if 0 ≤ x ∧ x < SCREEN_W ∧ 0 ≤ y ∧ y < SCREEN_H then
    framebuffer (y * SCREEN_W + x).toNat
  else 0

/-- The C function `set_mode`. -/
def set_mode (mode : lcd_mode_e) (gb : gameboy_t) : gameboy_t :=
  let gb :=
    match mode with
    | .LCD_MODE_HBLANK =>
      let gb := { gb with state.no_oam_access := false }
      let gb := { gb with state.no_vram_access := false }
      if get_bit (gb.memory 0xFF41) 3 then set_mem_bit gb 0xFF0F 1 true else gb
    | .LCD_MODE_PIXEL_TRANSFER =>
      let gb := { gb with state.no_oam_access := true }
      { gb with state.no_vram_access := true }
    | .LCD_MODE_SCAN_OAM =>
      let gb := { gb with state.no_oam_access := true }
      let gb := { gb with state.no_vram_access := false }
      if get_bit (gb.memory 0xFF41) 5 then set_mem_bit gb 0xFF0F 1 true else gb
    | .LCD_MODE_VBLANK =>
      let gb := { gb with state.no_oam_access := false }
      let gb := { gb with state.no_vram_access := false }
      set_mem_bit gb 0xFF0F 0 true
  { gb with memory := store gb.memory 0xFF41 ((gb.memory 0xFF41 &&& 0xFC) ||| mode.val) }

/-- The C function `set_ly`; `value` is the `uint8_t` argument. -/
def set_ly (value : Nat) (gb : gameboy_t) : gameboy_t :=
  if lcd_ly gb ≠ value then
    let gb := { gb with memory := store gb.memory 0xFF44 value }
    let gb := set_mem_bit gb 0xFF41 2 (decide (lcd_ly gb = lcd_lyc gb))
    if get_bit (gb.memory 0xFF41) 2 ∧ get_bit (gb.memory 0xFF41) 6 then
      set_mem_bit gb 0xFF0F 1 true
    else gb
  else gb

/-! ## Cartridge banking -/

/-- The C function `rom_kib`: `uint16_t size = 32*(1 << rom_size)`.  The shift and the product
are done on the 32-bit `int`, and the result is truncated to 16 bits.  For a count of 32 or
more C leaves the shift undefined; the x86 build takes the count modulo 32 (a ROM size code
of 33 gives `1 << 1`, so 64 KiB), and so does this definition. -/
def rom_kib (gb : gameboy_t) : Nat := (32 * 2 ^ (header_rom_size gb % 32)) % 65536

/-- The C function `ram_kib`. -/
def ram_kib (gb : gameboy_t) : Nat :=
  let r := header_ram_size gb
  if r = 0x2 then 8 else if r = 0x3 then 32 else if r = 0x4 then 128 else if r = 0x5 then 64 else 0

/-- The C function `set_rom_bank`.  `num` is a `uint8_t`, `min`/`max` are the `windows.h` macros
evaluated on `int`, and the result is truncated to the `uint8_t rom_bank`. -/
def set_rom_bank (bank : Nat) (gb : gameboy_t) : gameboy_t :=
  if bank ≠ gb.rom_bank then
    let size := rom_kib gb
    let num := (size / 16) % 256
    let rom_bank := ((min (max (bank : Int) 1) ((num : Int) - 1)) % 256).toNat
    { gb with
      rom_bank := rom_bank
      memory := fun x =>
        if 0x4000 ≤ x ∧ x < 0x8000 then gb.rom (rom_bank * 0x4000 + (x - 0x4000)) else gb.memory x }
  else gb

/-- The C function `set_ram_bank`: flush the 0xA000 window to the current bank, then load `bank`. -/
def set_ram_bank (bank : Nat) (gb : gameboy_t) : gameboy_t :=
  if bank ≠ gb.ram_bank then
    let ram : Nat → Nat := fun x =>
      if gb.ram_bank * 0x2000 ≤ x ∧ x < gb.ram_bank * 0x2000 + 0x2000 then
        gb.memory (0xA000 + (x - gb.ram_bank * 0x2000))
      else gb.ram x
    { gb with
      ram := ram
      memory := fun x =>
        if 0xA000 ≤ x ∧ x < 0xC000 then ram (bank * 0x2000 + (x - 0xA000)) else gb.memory x
      ram_bank := bank }
  else gb

/-! ## Bus -/

/-- The joypad poll inside `mem_w` for 0xFF00: the four key bits of the joypad
byte are refreshed from the host according to the select bits. -/
def joypad_poll (gb : gameboy_t) : gameboy_t :=
  if get_bit (gb.memory 0xFF00) 4 = false then
    let gb := set_mem_bit gb 0xFF00 0 (!gb.key_down 0x27)
    let gb := set_mem_bit gb 0xFF00 1 (!gb.key_down 0x25)
    let gb := set_mem_bit gb 0xFF00 2 (!gb.key_down 0x26)
    set_mem_bit gb 0xFF00 3 (!gb.key_down 0x28)
  else if get_bit (gb.memory 0xFF00) 5 = false then
    let gb := set_mem_bit gb 0xFF00 0 (!gb.key_down 0x53)
    let gb := set_mem_bit gb 0xFF00 1 (!gb.key_down 0x41)
    let gb := set_mem_bit gb 0xFF00 2 (!gb.key_down 0x10)
    set_mem_bit gb 0xFF00 3 (!gb.key_down 0x0D)
  else gb

/-- The side effects of `mem_w` on an I/O cell (the inner `switch(address)`),
entered after `gb.memory[address] = value`. -/
def io_w (address value old_value : Nat) (gb : gameboy_t) : gameboy_t :=
  if address = 0xFF00 then
    let gb := { gb with memory := store gb.memory address (0xC0 ||| (value &&& 0x30) ||| (old_value &&& 0x0F)) }
    let gb := joypad_poll gb
    [0, 1, 2, 3].foldl
      (fun gb i =>
        if (old_value &&& (1 <<< i)) ≠ 0 ∧ (gb.memory address &&& (1 <<< i)) = 0 then
          set_mem_bit gb 0xFF0F 4 true
        else gb)
      gb
  else if address = 0xFF04 then
    let gb := { gb with memory := store gb.memory address 0 }
    { gb with cycles.div := 0 }
  else if address = 0xFF40 then
    if get_bit value 7 = false ∧ get_bit old_value 7 = true then
      let gb := { gb with framebuffer := clear_pixels gb.framebuffer (gb_colors 0) }
      let gb := set_mode .LCD_MODE_HBLANK gb
      let gb := set_ly 0 gb
      { gb with cycles.dots := 0 }
    else gb
  else if address = 0xFF41 then
    { gb with memory := store gb.memory address (0x80 ||| value) }
  else if address = 0xFF46 then
    let gb := { gb with state.dma_transfer := true }
    { gb with cycles.dma := 0 }
  else if address = 0xFF0F then
    { gb with memory := store gb.memory address (0xE0 ||| value) }
  else gb

/-- The C function `mem_w`; `address` is the `uint16_t` and `value` the `uint8_t` argument. -/
def mem_w (address value : Nat) (gb : gameboy_t) : gameboy_t :=
  if gb.state.dma_transfer = false ∨ (address ≥ 0xFF80 ∧ address ≤ 0xFFFE) then
    if address ≥ 0x0000 ∧ address ≤ 0x1FFF then
      { gb with state.ram := decide ((value &&& 0x0F) = 0x0A) }
    else if address ≥ 0x2000 ∧ address ≤ 0x3FFF then
      let bank := (gb.rom_bank &&& 0xE0) ||| (value &&& 0x1F)
      set_rom_bank bank gb
    else if address ≥ 0x4000 ∧ address ≤ 0x5FFF then
      let bank := value &&& 0x3
      if gb.state.mbc1_mode then
        set_ram_bank bank gb
      else
        let bank := ((gb.rom_bank &&& 0x1F) ||| (bank <<< 5)) % 256
        set_rom_bank bank gb
    else if address ≥ 0x6000 ∧ address ≤ 0x7FFF then
      { gb with state.mbc1_mode := decide ((value &&& 0x1) ≠ 0) }
    else if address ≥ 0x8000 ∧ address ≤ 0x9FFF then
      if gb.state.no_vram_access = false then
        { gb with memory := store gb.memory address value }
      else gb
    else if address ≥ 0xA000 ∧ address ≤ 0xBFFF then
      if gb.state.ram then
        { gb with memory := store gb.memory address value }
      else gb
    else if address ≥ 0xC000 ∧ address ≤ 0xDFFF then
      let gb := { gb with memory := store gb.memory address value }
      if address ≤ 0xDDFF then
        { gb with memory := store gb.memory (address + 0x2000) value }
      else gb
    else if address ≥ 0xFE00 ∧ address ≤ 0xFE9F then
      if gb.state.no_oam_access = false then
        { gb with memory := store gb.memory address value }
      else gb
    else if address ≥ 0xFF00 ∧ address ≤ 0xFF7F then
      let old_value := gb.memory address
      let gb := { gb with memory := store gb.memory address value }
      io_w address value old_value gb
    else if address ≥ 0xFF80 ∧ address ≤ 0xFFFF then
      { gb with memory := store gb.memory address value }
    else gb
  else gb

/-- The C function `mem_r`. -/
def mem_r (address : Nat) (gb : gameboy_t) : Nat :=
  if ¬ (gb.state.no_oam_access = true ∧ (address ≥ 0xFE00 ∧ address ≤ 0xFE9F)) ∧
      ¬ (gb.state.no_vram_access = true ∧ (address ≥ 0x8000 ∧ address ≤ 0x9FFF)) ∧
      ¬ (gb.state.dma_transfer = true ∧ (address < 0xFF80 ∨ address > 0xFFFE)) then
    gb.memory address
  else 0xFF

/-- The `uint8_t` update `gb.op_cycles += n`. -/
def add_cycles (n : Nat) (gb : gameboy_t) : gameboy_t :=
  { gb with op_cycles := (gb.op_cycles + n) % 256 }

/-- The expression `mem_r(gb.registers.pc++)`: the byte at PC, and the state with
PC advanced (a `uint16_t`). -/
def fetch (gb : gameboy_t) : Nat × gameboy_t :=
  (mem_r gb.registers.pc gb, { gb with registers.pc := (gb.registers.pc + 1) % 65536 })

/-- The expression `mem_r(gb.registers.sp++)`. -/
def pop8 (gb : gameboy_t) : Nat × gameboy_t :=
  (mem_r gb.registers.sp gb, { gb with registers.sp := (gb.registers.sp + 1) % 65536 })

/-- The statement `mem_w(--gb.registers.sp, value)`. -/
def push8 (value : Nat) (gb : gameboy_t) : gameboy_t :=
  let gb := { gb with registers.sp := (gb.registers.sp + 65535) % 65536 }
  mem_w gb.registers.sp value gb

/-! ## Operand access -/

/-- The C function `r8_low_r`: the operand selected by the low nibble of `op`. -/
def r8_low_r (op : Nat) (gb : gameboy_t) : Nat × gameboy_t :=
  let k := op &&& 0x0F
  if k = 0x00 ∨ k = 0x08 then (gb.registers.b, gb)
  else if k = 0x01 ∨ k = 0x09 then (gb.registers.c, gb)
  else if k = 0x02 ∨ k = 0x0A then (gb.registers.d, gb)
  else if k = 0x03 ∨ k = 0x0B then (gb.registers.e, gb)
  else if k = 0x04 ∨ k = 0x0C then (gb.registers.h, gb)
  else if k = 0x05 ∨ k = 0x0D then (gb.registers.l, gb)
  else if k = 0x06 ∨ k = 0x0E then (mem_r gb.registers.hl gb, add_cycles 4 gb)
  else if k = 0x07 ∨ k = 0x0F then (gb.registers.a, gb)
  else (0xFF, gb)

/-- The C function `r8_low_w`. -/
def r8_low_w (op value : Nat) (gb : gameboy_t) : gameboy_t :=
  let k := op &&& 0x0F
  if k = 0x00 ∨ k = 0x08 then { gb with registers.b := value }
  else if k = 0x01 ∨ k = 0x09 then { gb with registers.c := value }
  else if k = 0x02 ∨ k = 0x0A then { gb with registers.d := value }
  else if k = 0x03 ∨ k = 0x0B then { gb with registers.e := value }
  else if k = 0x04 ∨ k = 0x0C then { gb with registers.h := value }
  else if k = 0x05 ∨ k = 0x0D then { gb with registers.l := value }
  else if k = 0x06 ∨ k = 0x0E then add_cycles 4 (mem_w gb.registers.hl value gb)
  else if k = 0x07 ∨ k = 0x0F then { gb with registers.a := value }
  else gb

/-- The C function `r8_high_r`: the operand selected by the high nibble of `op` and by which half
of the column the low nibble lies in. -/
def r8_high_r (op : Nat) (gb : gameboy_t) : Nat × gameboy_t :=
  let k := op &&& 0xF0
  if k = 0x00 ∨ k = 0x40 then ((if (op &&& 0x0F) ≤ 0x07 then gb.registers.b else gb.registers.c), gb)
  else if k = 0x10 ∨ k = 0x50 then ((if (op &&& 0x0F) ≤ 0x07 then gb.registers.d else gb.registers.e), gb)
  else if k = 0x20 ∨ k = 0x60 then ((if (op &&& 0x0F) ≤ 0x07 then gb.registers.h else gb.registers.l), gb)
  else if k = 0x30 ∨ k = 0x70 then
    if (op &&& 0x0F) ≤ 0x07 then (mem_r gb.registers.hl gb, add_cycles 4 gb)
    else (gb.registers.a, gb)
  else (0xFF, gb)

/-- The C function `r8_high_w`. -/
def r8_high_w (op value : Nat) (gb : gameboy_t) : gameboy_t :=
  let k := op &&& 0xF0
  if k = 0x00 ∨ k = 0x40 then
    if (op &&& 0x0F) ≤ 0x07 then { gb with registers.b := value } else { gb with registers.c := value }
  else if k = 0x10 ∨ k = 0x50 then
    if (op &&& 0x0F) ≤ 0x07 then { gb with registers.d := value } else { gb with registers.e := value }
  else if k = 0x20 ∨ k = 0x60 then
    if (op &&& 0x0F) ≤ 0x07 then { gb with registers.h := value } else { gb with registers.l := value }
  else if k = 0x30 ∨ k = 0x70 then
    if (op &&& 0x0F) ≤ 0x07 then add_cycles 4 (mem_w gb.registers.hl value gb)
    else { gb with registers.a := value }
  else gb

/-- The register pair selected by `r16_rw(op)`. -/
inductive r16_t where
  | bc
  | de
  | hl
  | sp
  | af
  deriving DecidableEq, Repr

/-- The C function `r16_rw`: which 16-bit register the returned pointer designates (`none` for
`NULL`). -/
def r16_rw (op : Nat) : Option r16_t :=
  let k := op &&& 0xF0
  if k = 0x00 ∨ k = 0xC0 then some .bc
  else if k = 0x10 ∨ k = 0xD0 then some .de
  else if k = 0x20 ∨ k = 0xE0 then some .hl
  else if k = 0x30 then some .sp
  else if k = 0xF0 then some .af
  else none

/-- The read `*r16_rw(op)`.  No caller passes an `op` for which the pointer is `NULL`;
that case reads as 0 here. -/
def r16_r (op : Nat) (gb : gameboy_t) : Nat :=
  match r16_rw op with
  | some .bc => gb.registers.bc
  | some .de => gb.registers.de
  | some .hl => gb.registers.hl
  | some .sp => gb.registers.sp
  | some .af => gb.registers.af
  | none => 0

/-- The write `*r16_rw(op) = value` of a `uint16_t`.  No caller passes an `op` for
which the pointer is `NULL`; that case leaves the state alone here. -/
def r16_w (op value : Nat) (gb : gameboy_t) : gameboy_t :=
  match r16_rw op with
  | some .bc => { gb with registers := gb.registers.set_bc value }
  | some .de => { gb with registers := gb.registers.set_de value }
  | some .hl => { gb with registers := gb.registers.set_hl value }
  | some .sp => { gb with registers.sp := value }
  | some .af => { gb with registers := gb.registers.set_af value }
  | none => gb

/-- The C function `condition`. -/
def condition (op : Nat) (gb : gameboy_t) : Bool :=
  if op = 0x20 ∨ op = 0xC0 ∨ op = 0xC2 ∨ op = 0xC4 then decide (gb.registers.f.z = false)
  else if op = 0x30 ∨ op = 0xD0 ∨ op = 0xD2 ∨ op = 0xD4 then decide (gb.registers.f.c = false)
  else if op = 0x28 ∨ op = 0xC8 ∨ op = 0xCA ∨ op = 0xCC then decide (gb.registers.f.z = true)
  else if op = 0x38 ∨ op = 0xD8 ∨ op = 0xDA ∨ op = 0xDC then decide (gb.registers.f.c = true)
  else false

/-! ## CB-prefixed instructions -/

/-- The four flag assignments that end every rotate and shift case. -/
def set_czhn (c z : Bool) (gb : gameboy_t) : gameboy_t :=
  let gb := { gb with registers.f.c := c }
  let gb := { gb with registers.f.h := false }
  let gb := { gb with registers.f.n := false }
  { gb with registers.f.z := z }

/-- The bit index computed by the BIT/RES/SET cases:
`((op >> 3) & 0x7) | ((op & 0x8) >> 3)`. -/
def cb_bit (op : Nat) : Nat := ((op >>> 3) &&& 0x7) ||| ((op &&& 0x8) >>> 3)

/-- The C function `execute_cb_op`.  The `switch` is on `op & 0xF0`; its `default` cannot be
reached and leaves the state alone here.  In RES, `value &= ~(1 << bit)` on a
`uint8_t` keeps the low eight bits of the complement, `0xFF ^ (1 << bit)`. -/
def execute_cb_op (op : Nat) (gb : gameboy_t) : gameboy_t :=
  let k := op &&& 0xF0
  if k = 0x00 then
    if (op &&& 0x0F) ≤ 0x07 then
      let (old_value, gb) := r8_low_r op gb
      let bit7 := decide ((old_value &&& 0x80) ≠ 0)
      let value := ((old_value <<< 1) ||| bit7.toNat) % 256
      let gb := r8_low_w op value gb
      let gb := set_czhn bit7 (decide (value = 0)) gb
      add_cycles 4 gb
    else
      let (old_value, gb) := r8_low_r op gb
      let bit0 := decide ((old_value &&& 0x01) ≠ 0)
      let value := ((old_value >>> 1) ||| (bit0.toNat <<< 7)) % 256
      let gb := r8_low_w op value gb
      let gb := set_czhn bit0 (decide (value = 0)) gb
      add_cycles 4 gb
  else if k = 0x10 then
    if (op &&& 0x0F) ≤ 0x07 then
      let (old_value, gb) := r8_low_r op gb
      let bit7 := decide ((old_value &&& 0x80) ≠ 0)
      let value := ((old_value <<< 1) ||| gb.registers.f.c.toNat) % 256
      let gb := r8_low_w op value gb
      let gb := set_czhn bit7 (decide (value = 0)) gb
      add_cycles 4 gb
    else
      let (old_value, gb) := r8_low_r op gb
      let bit0 := decide ((old_value &&& 0x01) ≠ 0)
      let value := ((old_value >>> 1) ||| (gb.registers.f.c.toNat <<< 7)) % 256
      let gb := r8_low_w op value gb
      let gb := set_czhn bit0 (decide (value = 0)) gb
      add_cycles 4 gb
  else if k = 0x20 then
    if (op &&& 0x0F) ≤ 0x07 then
      let (old_value, gb) := r8_low_r op gb
      let bit7 := decide ((old_value &&& 0x80) ≠ 0)
      let value := (old_value <<< 1) % 256
      let gb := r8_low_w op value gb
      let gb := set_czhn bit7 (decide (value = 0)) gb
      add_cycles 4 gb
    else
      let (old_value, gb) := r8_low_r op gb
      let bit0 := decide ((old_value &&& 0x01) ≠ 0)
      let bit7 := decide ((old_value &&& 0x80) ≠ 0)
      let value := ((old_value >>> 1) ||| (bit7.toNat <<< 7)) % 256
      let gb := r8_low_w op value gb
      let gb := set_czhn bit0 (decide (value = 0)) gb
      add_cycles 4 gb
  else if k = 0x30 then
    if (op &&& 0x0F) ≤ 0x07 then
      let (old_value, gb) := r8_low_r op gb
      let low := old_value &&& 0x0F
      let high := old_value >>> 4
      let value := ((low <<< 4) ||| high) % 256
      let gb := r8_low_w op value gb
      let gb := set_czhn false (decide (value = 0)) gb
      add_cycles 4 gb
    else
      let (old_value, gb) := r8_low_r op gb
      let bit0 := decide ((old_value &&& 0x01) ≠ 0)
      let value := (old_value >>> 1) % 256
      let gb := r8_low_w op value gb
      let gb := set_czhn bit0 (decide (value = 0)) gb
      add_cycles 4 gb
  else if k = 0x40 ∨ k = 0x50 ∨ k = 0x60 ∨ k = 0x70 then
    let (value, gb) := r8_low_r op gb
    let bit := cb_bit op
    let gb := { gb with registers.f.h := true }
    let gb := { gb with registers.f.n := false }
    let gb := { gb with registers.f.z := decide ((value &&& (1 <<< bit)) = 0) }
    add_cycles 4 gb
  else if k = 0x80 ∨ k = 0x90 ∨ k = 0xA0 ∨ k = 0xB0 then
    let (value, gb) := r8_low_r op gb
    let bit := cb_bit op
    let value := value &&& (0xFF ^^^ (1 <<< bit))
    let gb := r8_low_w op value gb
    add_cycles 4 gb
  else if k = 0xC0 ∨ k = 0xD0 ∨ k = 0xE0 ∨ k = 0xF0 then
    let (value, gb) := r8_low_r op gb
    let bit := cb_bit op
    let value := (value ||| (1 <<< bit)) % 256
    let gb := r8_low_w op value gb
    add_cycles 4 gb
  else gb

/-! ## Primary instructions -/

/-- The operand of the eight-bit ALU cases: `(op == imm) ? mem_r(pc++) : r8_low_r(op)`. -/
def alu_operand (op imm : Nat) (gb : gameboy_t) : Nat × gameboy_t :=
  if op = imm then fetch gb else r8_low_r op gb

/-- The cycle update of the eight-bit ALU cases: `op_cycles += (op == imm) ? 8 : 4`. -/
def alu_cycles (op imm : Nat) (gb : gameboy_t) : gameboy_t :=
  add_cycles (if op = imm then 8 else 4) gb

/-- The four flag assignments of an arithmetic case, in source order c, h, n, z. -/
def set_chnz (c h n z : Bool) (gb : gameboy_t) : gameboy_t :=
  let gb := { gb with registers.f.c := c }
  let gb := { gb with registers.f.h := h }
  let gb := { gb with registers.f.n := n }
  { gb with registers.f.z := z }

/-- The case DAA of `execute_op`. -/
def daa (gb : gameboy_t) : gameboy_t :=
  let gb :=
    if gb.registers.f.n then
      let gb := if gb.registers.f.c then { gb with registers.a := (gb.registers.a + 256 - 0x60) % 256 } else gb
      if gb.registers.f.h then { gb with registers.a := (gb.registers.a + 256 - 0x06) % 256 } else gb
    else
      let gb :=
        if gb.registers.f.c = true ∨ gb.registers.a > 0x99 then
          let gb := { gb with registers.a := (gb.registers.a + 0x60) % 256 }
          { gb with registers.f.c := true }
        else gb
      if gb.registers.f.h = true ∨ (gb.registers.a &&& 0x0F) > 0x09 then
        { gb with registers.a := (gb.registers.a + 0x06) % 256 }
      else gb
  let gb := { gb with registers.f.z := decide (gb.registers.a = 0) }
  let gb := { gb with registers.f.h := false }
  add_cycles 4 gb

/-- The case NOP of `execute_op`. -/
def op_nop (gb : gameboy_t) : gameboy_t :=
  add_cycles 4 gb

/-- The case STOP of `execute_op`. -/
def op_stop (gb : gameboy_t) : gameboy_t :=
  let gb := { gb with state.stop := !gb.state.stop }
  let gb := mem_w 0xFF04 0 gb
  add_cycles 4 gb

/-- The case HALT of `execute_op`. -/
def op_halt (gb : gameboy_t) : gameboy_t :=
  add_cycles 4 gb

/-- The case RLCA, RLA, RRCA, RRA of `execute_op`. -/
def op_rotate_a (op : Nat) (gb : gameboy_t) : gameboy_t :=
  let gb := execute_cb_op op gb
  { gb with registers.f.z := false }

/-- The case JR i8 of `execute_op`. -/
def op_jr (gb : gameboy_t) : gameboy_t :=
  let (v, gb) := fetch gb
  let value := int8 v
  let gb := { gb with registers.pc := add16 gb.registers.pc value }
  add_cycles 12 gb

/-- The case JR condition, i8 of `execute_op`. -/
def op_jr_cond (op : Nat) (gb : gameboy_t) : gameboy_t :=
  let (v, gb) := fetch gb
  let value := int8 v
  let gb :=
    if condition op gb then
      let gb := { gb with registers.pc := add16 gb.registers.pc value }
      add_cycles 4 gb
    else gb
  add_cycles 8 gb

/-- The case CPL of `execute_op`. -/
def op_cpl (gb : gameboy_t) : gameboy_t :=
  let gb := { gb with registers.a := 0xFF ^^^ gb.registers.a }
  let gb := { gb with registers.f.h := true }
  let gb := { gb with registers.f.n := true }
  add_cycles 4 gb

/-- The case SCF of `execute_op`. -/
def op_scf (gb : gameboy_t) : gameboy_t :=
  let gb := { gb with registers.f.c := true }
  let gb := { gb with registers.f.h := false }
  let gb := { gb with registers.f.n := false }
  add_cycles 4 gb

/-- The case CCF of `execute_op`. -/
def op_ccf (gb : gameboy_t) : gameboy_t :=
  let gb := { gb with registers.f.c := !gb.registers.f.c }
  let gb := { gb with registers.f.h := false }
  let gb := { gb with registers.f.n := false }
  add_cycles 4 gb

/-- The case INC r16 of `execute_op`. -/
def op_inc_r16 (op : Nat) (gb : gameboy_t) : gameboy_t :=
  let gb := r16_w op ((r16_r op gb + 1) % 65536) gb
  add_cycles 8 gb

/-- The case INC r8 of `execute_op`. -/
def op_inc_r8 (op : Nat) (gb : gameboy_t) : gameboy_t :=
  let (old_value, gb) := r8_high_r op gb
  let value := (old_value + 1) % 256
  let gb := r8_high_w op value gb
  let gb := { gb with registers.f.h := decide ((value &&& 0xF0) ≠ (old_value &&& 0xF0)) }
  let gb := { gb with registers.f.n := false }
  let gb := { gb with registers.f.z := decide (value = 0) }
  add_cycles 4 gb

/-- The case DEC r16 of `execute_op`. -/
def op_dec_r16 (op : Nat) (gb : gameboy_t) : gameboy_t :=
  let gb := r16_w op ((r16_r op gb + 65535) % 65536) gb
  add_cycles 8 gb

/-- The case DEC r8 of `execute_op`. -/
def op_dec_r8 (op : Nat) (gb : gameboy_t) : gameboy_t :=
  let (value, gb) := r8_high_r op gb
  let value := (value + 255) % 256
  let gb := r8_high_w op value gb
  let gb := { gb with registers.f.h := decide ((value &&& 0x0F) = 0x0F) }
  let gb := { gb with registers.f.n := true }
  let gb := { gb with registers.f.z := decide (value = 0) }
  add_cycles 4 gb

/-- The case LD r8, u8 of `execute_op`. -/
def op_ld_r8_u8 (op : Nat) (gb : gameboy_t) : gameboy_t :=
  let (value, gb) := fetch gb
  let gb := r8_high_w op value gb
  add_cycles 8 gb

/-- The cases of `execute_op` from NOP to LD r8, u8: which case an opcode selects. -/
def execute_op_misc (op : Nat) (gb : gameboy_t) : Option gameboy_t :=
  if op = 0x00 then some (op_nop gb)
  else if op = 0x10 then some (op_stop gb)
  else if op = 0x76 then some (op_halt gb)
  else if op ∈ [0x07, 0x17, 0x0F, 0x1F] then some (op_rotate_a op gb)
  else if op = 0x18 then some (op_jr gb)
  else if op ∈ [0x20, 0x28, 0x30, 0x38] then some (op_jr_cond op gb)
  else if op = 0x27 then some (daa gb)
  else if op = 0x2F then some (op_cpl gb)
  else if op = 0x37 then some (op_scf gb)
  else if op = 0x3F then some (op_ccf gb)
  else if op ∈ [0x03, 0x13, 0x23, 0x33] then some (op_inc_r16 op gb)
  else if op ∈ [0x04, 0x14, 0x24, 0x34, 0x0C, 0x1C, 0x2C, 0x3C] then some (op_inc_r8 op gb)
  else if op ∈ [0x0B, 0x1B, 0x2B, 0x3B] then some (op_dec_r16 op gb)
  else if op ∈ [0x05, 0x15, 0x25, 0x35, 0x0D, 0x1D, 0x2D, 0x3D] then some (op_dec_r8 op gb)
  else if op ∈ [0x06, 0x16, 0x26, 0x36, 0x0E, 0x1E, 0x2E, 0x3E] then some (op_ld_r8_u8 op gb)
  else none

/-- The list of opcodes of the LD r8, r8 case. -/
def ld_r8_r8_ops : List Nat :=
  [0x40, 0x41, 0x42, 0x43, 0x44, 0x45, 0x46, 0x47,
   0x48, 0x49, 0x4A, 0x4B, 0x4C, 0x4D, 0x4E, 0x4F,
   0x50, 0x51, 0x52, 0x53, 0x54, 0x55, 0x56, 0x57,
   0x58, 0x59, 0x5A, 0x5B, 0x5C, 0x5D, 0x5E, 0x5F,
   0x60, 0x61, 0x62, 0x63, 0x64, 0x65, 0x66, 0x67,
   0x68, 0x69, 0x6A, 0x6B, 0x6C, 0x6D, 0x6E, 0x6F,
   0x70, 0x71, 0x72, 0x73, 0x74, 0x75, 0x77,
   0x78, 0x79, 0x7A, 0x7B, 0x7C, 0x7D, 0x7E, 0x7F]

/-- The case LD (u16), SP of `execute_op`. -/
def op_ld_u16_sp (gb : gameboy_t) : gameboy_t :=
  let (low, gb) := fetch gb
  let (high, gb) := fetch gb
  let address := COMBINE high low
  let gb := mem_w address (LOW gb.registers.sp) gb
  let gb := mem_w ((address + 1) % 65536) (HIGH gb.registers.sp) gb
  add_cycles 20 gb

/-- The case LD A, (r16) of `execute_op`. -/
def op_ld_a_r16 (op : Nat) (gb : gameboy_t) : gameboy_t :=
  let value := r16_r op gb
  let gb := { gb with registers.a := mem_r value gb }
  add_cycles 8 gb

/-- The case LD A, (HL+) of `execute_op`. -/
def op_ld_a_hli (gb : gameboy_t) : gameboy_t :=
  let address := gb.registers.hl
  let gb := { gb with registers := gb.registers.set_hl ((address + 1) % 65536) }
  let gb := { gb with registers.a := mem_r address gb }
  add_cycles 8 gb

/-- The case LD A, (HL-) of `execute_op`. -/
def op_ld_a_hld (gb : gameboy_t) : gameboy_t :=
  let address := gb.registers.hl
  let gb := { gb with registers := gb.registers.set_hl ((address + 65535) % 65536) }
  let gb := { gb with registers.a := mem_r address gb }
  add_cycles 8 gb

/-- The case LD r16, u16 of `execute_op`. -/
def op_ld_r16_u16 (op : Nat) (gb : gameboy_t) : gameboy_t :=
  let (low, gb) := fetch gb
  let (high, gb) := fetch gb
  let gb := r16_w op (COMBINE high low) gb
  add_cycles 12 gb

/-- The case LD (r16), A of `execute_op`. -/
def op_ld_r16_a (op : Nat) (gb : gameboy_t) : gameboy_t :=
  let address := r16_r op gb
  let gb := mem_w address gb.registers.a gb
  add_cycles 8 gb

/-- The case LD (HL+), A of `execute_op`. -/
def op_ld_hli_a (gb : gameboy_t) : gameboy_t :=
  let address := gb.registers.hl
  let gb := { gb with registers := gb.registers.set_hl ((address + 1) % 65536) }
  let gb := mem_w address gb.registers.a gb
  add_cycles 8 gb

/-- The case LD (HL-), A of `execute_op`. -/
def op_ld_hld_a (gb : gameboy_t) : gameboy_t :=
  let address := gb.registers.hl
  let gb := { gb with registers := gb.registers.set_hl ((address + 65535) % 65536) }
  let gb := mem_w address gb.registers.a gb
  add_cycles 8 gb

/-- The case LD r8, r8 of `execute_op`. -/
def op_ld_r8_r8 (op : Nat) (gb : gameboy_t) : gameboy_t :=
  let (value, gb) := r8_low_r op gb
  let gb := r8_high_w op value gb
  add_cycles 4 gb

/-- The case LD (FF00+u8), A of `execute_op`. -/
def op_ldh_u8_a (gb : gameboy_t) : gameboy_t :=
  let (value, gb) := fetch gb
  let gb := mem_w (0xFF00 + value) gb.registers.a gb
  add_cycles 12 gb

/-- The case LD A, (FF00+u8) of `execute_op`. -/
def op_ldh_a_u8 (gb : gameboy_t) : gameboy_t :=
  let (value, gb) := fetch gb
  let gb := { gb with registers.a := mem_r (0xFF00 + value) gb }
  add_cycles 12 gb

/-- The case LD (FF00+C), A of `execute_op`. -/
def op_ldh_c_a (gb : gameboy_t) : gameboy_t :=
  let gb := mem_w (0xFF00 + gb.registers.c) gb.registers.a gb
  add_cycles 8 gb

/-- The case LD A, (FF00+C) of `execute_op`. -/
def op_ldh_a_c (gb : gameboy_t) : gameboy_t :=
  let gb := { gb with registers.a := mem_r (0xFF00 + gb.registers.c) gb }
  add_cycles 8 gb

/-- The case LD (u16), A of `execute_op`. -/
def op_ld_u16_a (gb : gameboy_t) : gameboy_t :=
  let (low, gb) := fetch gb
  let (high, gb) := fetch gb
  let address := COMBINE high low
  let gb := mem_w address gb.registers.a gb
  add_cycles 16 gb

/-- The case LD A, (u16) of `execute_op`. -/
def op_ld_a_u16 (gb : gameboy_t) : gameboy_t :=
  let (low, gb) := fetch gb
  let (high, gb) := fetch gb
  let address := COMBINE high low
  let gb := { gb with registers.a := mem_r address gb }
  add_cycles 16 gb

/-- The case LD SP, HL of `execute_op`. -/
def op_ld_sp_hl (gb : gameboy_t) : gameboy_t :=
  let gb := { gb with registers.sp := gb.registers.hl }
  add_cycles 8 gb

/-- The cases of `execute_op` from LD (u16), SP to LD SP, HL: which case an opcode selects. -/
def execute_op_load (op : Nat) (gb : gameboy_t) : Option gameboy_t :=
  if op = 0x08 then some (op_ld_u16_sp gb)
  else if op ∈ [0x0A, 0x1A] then some (op_ld_a_r16 op gb)
  else if op = 0x2A then some (op_ld_a_hli gb)
  else if op = 0x3A then some (op_ld_a_hld gb)
  else if op ∈ [0x01, 0x11, 0x21, 0x31] then some (op_ld_r16_u16 op gb)
  else if op ∈ [0x02, 0x12] then some (op_ld_r16_a op gb)
  else if op = 0x22 then some (op_ld_hli_a gb)
  else if op = 0x32 then some (op_ld_hld_a gb)
  else if op ∈ ld_r8_r8_ops then some (op_ld_r8_r8 op gb)
  else if op = 0xE0 then some (op_ldh_u8_a gb)
  else if op = 0xF0 then some (op_ldh_a_u8 gb)
  else if op = 0xE2 then some (op_ldh_c_a gb)
  else if op = 0xF2 then some (op_ldh_a_c gb)
  else if op = 0xEA then some (op_ld_u16_a gb)
  else if op = 0xFA then some (op_ld_a_u16 gb)
  else if op = 0xF9 then some (op_ld_sp_hl gb)
  else none

/-- The case ADD SP, i8 of `execute_op`. -/
def op_add_sp (gb : gameboy_t) : gameboy_t :=
  let old_value := gb.registers.sp
  let (v, gb) := fetch gb
  let value := int8 v
  let gb := { gb with registers.sp := add16 gb.registers.sp value }
  let gb := set_chnz (decide (gb.registers.sp < old_value))
    (decide ((gb.registers.sp &&& 0x0F) < (old_value &&& 0x0F))) false false gb
  add_cycles 16 gb

/-- The case LD HL, SP+i8 of `execute_op`. -/
def op_ld_hl_sp (gb : gameboy_t) : gameboy_t :=
  let (v, gb) := fetch gb
  let value := int8 v
  let gb := { gb with registers := gb.registers.set_hl (add16 gb.registers.sp value) }
  let gb := set_chnz (decide (gb.registers.hl < gb.registers.sp))
    (decide ((gb.registers.hl &&& 0x0F) < (gb.registers.sp &&& 0x0F))) false false gb
  add_cycles 12 gb

/-- The case ADD HL, r16 of `execute_op`. -/
def op_add_hl (op : Nat) (gb : gameboy_t) : gameboy_t :=
  let old_value := gb.registers.hl
  let gb := { gb with registers := gb.registers.set_hl ((gb.registers.hl + r16_r op gb) % 65536) }
  let gb := { gb with registers.f.c := decide (gb.registers.hl < old_value) }
  let gb := { gb with registers.f.h := decide ((gb.registers.hl &&& 0x00FF) < (old_value &&& 0x00FF)) }
  let gb := { gb with registers.f.n := false }
  add_cycles 8 gb

/-- The case ADD A, r8/u8 of `execute_op`. -/
def op_add (op : Nat) (gb : gameboy_t) : gameboy_t :=
  let old_value := gb.registers.a
  let (operand, gb) := alu_operand op 0xC6 gb
  let gb := { gb with registers.a := (gb.registers.a + operand) % 256 }
  let gb := set_chnz (decide (gb.registers.a < old_value))
    (decide ((gb.registers.a &&& 0x0F) < (old_value &&& 0x0F))) false (decide (gb.registers.a = 0)) gb
  alu_cycles op 0xC6 gb

/-- The case ADC A, r8/u8 of `execute_op`. -/
def op_adc (op : Nat) (gb : gameboy_t) : gameboy_t :=
  let (value, gb) := alu_operand op 0xCE gb
  let a := (gb.registers.a + value + gb.registers.f.c.toNat) % 65536
  let a_nibble := (gb.registers.a &&& 0x0F) + (value &&& 0x0F) + gb.registers.f.c.toNat
  let gb := { gb with registers.a := a % 256 }
  let gb := set_chnz (decide (a > 0xFF)) (decide (a_nibble > 0x0F)) false (decide (gb.registers.a = 0)) gb
  alu_cycles op 0xCE gb

/-- The case SUB A, r8/u8 of `execute_op`. -/
def op_sub (op : Nat) (gb : gameboy_t) : gameboy_t :=
  let old_value := gb.registers.a
  let (operand, gb) := alu_operand op 0xD6 gb
  let gb := { gb with registers.a := (((gb.registers.a : Int) - operand) % 256).toNat }
  let gb := set_chnz (decide (gb.registers.a > old_value))
    (decide ((gb.registers.a &&& 0x0F) > (old_value &&& 0x0F))) true (decide (gb.registers.a = 0)) gb
  alu_cycles op 0xD6 gb

/-- The case SBC A, r8/u8 of `execute_op`. -/
def op_sbc (op : Nat) (gb : gameboy_t) : gameboy_t :=
  let (value, gb) := alu_operand op 0xDE gb
  let a : Int := (gb.registers.a : Int) - value - gb.registers.f.c.toNat
  let a_nibble : Int := ((gb.registers.a &&& 0x0F : Nat) : Int) - ((value &&& 0x0F : Nat) : Int) - gb.registers.f.c.toNat
  let gb := { gb with registers.a := (a % 256).toNat }
  let gb := set_chnz (decide (a < 0)) (decide (a_nibble < 0)) true (decide (gb.registers.a = 0)) gb
  alu_cycles op 0xDE gb

/-- The case AND A, r8/u8 of `execute_op`. -/
def op_and (op : Nat) (gb : gameboy_t) : gameboy_t :=
  let (operand, gb) := alu_operand op 0xE6 gb
  let gb := { gb with registers.a := gb.registers.a &&& operand }
  let gb := set_chnz false true false (decide (gb.registers.a = 0)) gb
  alu_cycles op 0xE6 gb

/-- The case XOR A, r8/u8 of `execute_op`. -/
def op_xor (op : Nat) (gb : gameboy_t) : gameboy_t :=
  let (operand, gb) := alu_operand op 0xEE gb
  let gb := { gb with registers.a := gb.registers.a ^^^ operand }
  let gb := set_chnz false false false (decide (gb.registers.a = 0)) gb
  alu_cycles op 0xEE gb

/-- The case OR A, r8/u8 of `execute_op`. -/
def op_or (op : Nat) (gb : gameboy_t) : gameboy_t :=
  let (operand, gb) := alu_operand op 0xF6 gb
  let gb := { gb with registers.a := gb.registers.a ||| operand }
  let gb := set_chnz false false false (decide (gb.registers.a = 0)) gb
  alu_cycles op 0xF6 gb

/-- The case CP A, r8/u8 of `execute_op`. -/
def op_cp (op : Nat) (gb : gameboy_t) : gameboy_t :=
  let (value, gb) := alu_operand op 0xFE gb
  let gb := set_chnz (decide (gb.registers.a < value))
    (decide ((gb.registers.a &&& 0x0F) < (value &&& 0x0F))) true (decide (gb.registers.a = value)) gb
  alu_cycles op 0xFE gb

/-- The cases of `execute_op` from ADD SP, i8 to CP A: which case an opcode selects. -/
def execute_op_alu (op : Nat) (gb : gameboy_t) : Option gameboy_t :=
  if op = 0xE8 then some (op_add_sp gb)
  else if op = 0xF8 then some (op_ld_hl_sp gb)
  else if op ∈ [0x09, 0x19, 0x29, 0x39] then some (op_add_hl op gb)
  else if op ∈ [0x80, 0x81, 0x82, 0x83, 0x84, 0x85, 0x86, 0x87, 0xC6] then some (op_add op gb)
  else if op ∈ [0x88, 0x89, 0x8A, 0x8B, 0x8C, 0x8D, 0x8E, 0x8F, 0xCE] then some (op_adc op gb)
  else if op ∈ [0x90, 0x91, 0x92, 0x93, 0x94, 0x95, 0x96, 0x97, 0xD6] then some (op_sub op gb)
  else if op ∈ [0x98, 0x99, 0x9A, 0x9B, 0x9C, 0x9D, 0x9E, 0x9F, 0xDE] then some (op_sbc op gb)
  else if op ∈ [0xA0, 0xA1, 0xA2, 0xA3, 0xA4, 0xA5, 0xA6, 0xA7, 0xE6] then some (op_and op gb)
  else if op ∈ [0xA8, 0xA9, 0xAA, 0xAB, 0xAC, 0xAD, 0xAE, 0xAF, 0xEE] then some (op_xor op gb)
  else if op ∈ [0xB0, 0xB1, 0xB2, 0xB3, 0xB4, 0xB5, 0xB6, 0xB7, 0xF6] then some (op_or op gb)
  else if op ∈ [0xB8, 0xB9, 0xBA, 0xBB, 0xBC, 0xBD, 0xBE, 0xBF, 0xFE] then some (op_cp op gb)
  else none

/-- The case POP of `execute_op`. -/
def op_pop (op : Nat) (gb : gameboy_t) : gameboy_t :=
  let (low, gb) := pop8 gb
  let (high, gb) := pop8 gb
  let gb := r16_w op (COMBINE high low) gb
  add_cycles 12 gb

/-- The case PUSH of `execute_op`. -/
def op_push (op : Nat) (gb : gameboy_t) : gameboy_t :=
  let value := r16_r op gb
  let gb := push8 (HIGH value) gb
  let gb := push8 (LOW value) gb
  add_cycles 16 gb

/-- The case JP u16 of `execute_op`. -/
def op_jp (gb : gameboy_t) : gameboy_t :=
  let (low, gb) := fetch gb
  let (high, gb) := fetch gb
  let gb := { gb with registers.pc := COMBINE high low }
  add_cycles 16 gb

/-- The case JP condition, u16 of `execute_op`. -/
def op_jp_cond (op : Nat) (gb : gameboy_t) : gameboy_t :=
  let (low, gb) := fetch gb
  let (high, gb) := fetch gb
  let gb :=
    if condition op gb then
      let gb := { gb with registers.pc := COMBINE high low }
      add_cycles 4 gb
    else gb
  add_cycles 12 gb

/-- The case JP HL of `execute_op`. -/
def op_jp_hl (gb : gameboy_t) : gameboy_t :=
  let gb := { gb with registers.pc := gb.registers.hl }
  add_cycles 4 gb

/-- The case RET of `execute_op`. -/
def op_ret (gb : gameboy_t) : gameboy_t :=
  let (low, gb) := pop8 gb
  let (high, gb) := pop8 gb
  let gb := { gb with registers.pc := COMBINE high low }
  add_cycles 16 gb

/-- The case RET condition of `execute_op`. -/
def op_ret_cond (op : Nat) (gb : gameboy_t) : gameboy_t :=
  let gb :=
    if condition op gb then
      let (low, gb) := pop8 gb
      let (high, gb) := pop8 gb
      let gb := { gb with registers.pc := COMBINE high low }
      add_cycles 12 gb
    else gb
  add_cycles 8 gb

/-- The case RETI of `execute_op`. -/
def op_reti (gb : gameboy_t) : gameboy_t :=
  let gb := { gb with state.ime := true }
  let (low, gb) := pop8 gb
  let (high, gb) := pop8 gb
  let gb := { gb with registers.pc := COMBINE high low }
  add_cycles 16 gb

/-- The case PREFIX CB of `execute_op`. -/
def op_cb (gb : gameboy_t) : gameboy_t :=
  let (cb, gb) := fetch gb
  let gb := execute_cb_op cb gb
  add_cycles 4 gb

/-- The case CALL u16 of `execute_op`. -/
def op_call (gb : gameboy_t) : gameboy_t :=
  let (low, gb) := fetch gb
  let (high, gb) := fetch gb
  let gb := push8 (HIGH gb.registers.pc) gb
  let gb := push8 (LOW gb.registers.pc) gb
  let gb := { gb with registers.pc := COMBINE high low }
  add_cycles 24 gb

/-- The case CALL condition, u16 of `execute_op`. -/
def op_call_cond (op : Nat) (gb : gameboy_t) : gameboy_t :=
  let (low, gb) := fetch gb
  let (high, gb) := fetch gb
  let gb :=
    if condition op gb then
      let gb := push8 (HIGH gb.registers.pc) gb
      let gb := push8 (LOW gb.registers.pc) gb
      let gb := { gb with registers.pc := COMBINE high low }
      add_cycles 12 gb
    else gb
  add_cycles 12 gb

/-- The case RST 00h-38h of `execute_op`. -/
def op_rst (op : Nat) (gb : gameboy_t) : gameboy_t :=
  let gb := push8 (HIGH gb.registers.pc) gb
  let gb := push8 (LOW gb.registers.pc) gb
  let gb := { gb with registers.pc := op &&& 0x38 }
  add_cycles 16 gb

/-- The case DI of `execute_op`. -/
def op_di (gb : gameboy_t) : gameboy_t :=
  let gb := { gb with state.ime := false }
  add_cycles 4 gb

/-- The case EI of `execute_op`. -/
def op_ei (gb : gameboy_t) : gameboy_t :=
  let gb := { gb with state.pending_ime := true }
  add_cycles 4 gb

/-- The case INVALID of `execute_op`. -/
def op_invalid (gb : gameboy_t) : gameboy_t :=
  gb

/-- The cases of `execute_op` from POP to the invalid opcodes: which case an opcode selects. -/
def execute_op_control (op : Nat) (gb : gameboy_t) : Option gameboy_t :=
  if op ∈ [0xC1, 0xD1, 0xE1, 0xF1] then some (op_pop op gb)
  else if op ∈ [0xC5, 0xD5, 0xE5, 0xF5] then some (op_push op gb)
  else if op = 0xC3 then some (op_jp gb)
  else if op ∈ [0xC2, 0xCA, 0xD2, 0xDA] then some (op_jp_cond op gb)
  else if op = 0xE9 then some (op_jp_hl gb)
  else if op = 0xC9 then some (op_ret gb)
  else if op ∈ [0xC0, 0xC8, 0xD0, 0xD8] then some (op_ret_cond op gb)
  else if op = 0xD9 then some (op_reti gb)
  else if op = 0xCB then some (op_cb gb)
  else if op = 0xCD then some (op_call gb)
  else if op ∈ [0xC4, 0xCC, 0xD4, 0xDC] then some (op_call_cond op gb)
  else if op ∈ [0xC7, 0xCF, 0xD7, 0xDF, 0xE7, 0xEF, 0xF7, 0xFF] then some (op_rst op gb)
  else if op = 0xF3 then some (op_di gb)
  else if op = 0xFB then some (op_ei gb)
  else if op ∈ [0xD3, 0xDB, 0xDD, 0xE3, 0xE4, 0xEB, 0xEC, 0xED, 0xF4, 0xFC, 0xFD] then some (op_invalid gb)
  else none

/-- The C function `execute_op`.  Every case body of the one `switch(op)` of the source is a function
`op_...` above, and the `switch` itself is cut into four runs of consecutive cases
(`execute_op_misc`, `execute_op_load`, `execute_op_alu`, `execute_op_control`); the
case labels are disjoint, so trying the runs in order selects the same case.  Every
byte is a label of some case, so the `default` (`DebugBreak`) is not reached by an
`op` below 256; it leaves the state alone here. -/
def execute_op (op : Nat) (gb : gameboy_t) : gameboy_t :=
  match execute_op_misc op gb with
  | some gb => gb
  | none =>
    match execute_op_load op gb with
    | some gb => gb
    | none =>
      match execute_op_alu op gb with
      | some gb => gb
      | none =>
        match execute_op_control op gb with
        | some gb => gb
        | none => gb

/-! ## Reset -/

/-- A file of the host: its length in bytes and its contents. -/
structure host_file where
  size : Nat
  bytes : Nat → Nat

/-- The C function `load_ram`.  `file` is what `CreateFile` finds under the save path: `none`
when there is no such file.  `ReadFile` copies the file over the start of `gb.ram`, then the
0xA000 window is loaded from `ram_banks[ram_bank]`. -/
def load_ram (file : Option host_file) (gb : gameboy_t) : gameboy_t :=
  match file with
  | some f =>
    let gb := { gb with ram := fun x => if x < f.size then f.bytes x else gb.ram x }
    { gb with
      memory := fun x =>
        if 0xA000 ≤ x ∧ x < 0xC000 then gb.ram (gb.ram_bank * 0x2000 + (x - 0xA000)) else gb.memory x }
  | none => gb

/-- Store of a `uint16_t` (low byte first) at a byte address. -/
def store16 (m : Nat → Nat) (address value : Nat) : Nat → Nat :=
  store (store m address (LOW value)) (address + 1) (HIGH value)

/-- The innermost loop of `load_nintendo_logo`: bits `4*k .. 4*k+3` of `tile`, each
widened to two bits of `line`. -/
def logo_line (tile k : Nat) : Nat :=
  [0, 1, 2, 3].foldl
    (fun line l => (line ||| ((((tile >>> (k * 4 + l)) &&& 0x1) * 0x3) <<< (2 * l))) % 65536)
    0

/-- The C function `load_nintendo_logo`: a blank tile at 0x8000, the 24 logo tiles
expanded from the header words at 0x104, the trademark tile, and the tile map
entries at 0x9800. -/
def load_nintendo_logo (gb : gameboy_t) : gameboy_t :=
  let gb :=
    (List.range 8).foldl
      (fun gb n => { gb with memory := store16 gb.memory (0x8000 + 2 * n) 0 })
      gb
  let gb :=
    (List.range 24).foldl
      (fun gb i =>
        let tile0 := gb.memory (0x104 + 2 * i)
        let tile1 := gb.memory (0x104 + 2 * i + 1)
        [(0, 1), (0, 0), (1, 1), (1, 0)].foldl
          (fun gb jk =>
            let line := logo_line (if jk.1 = 0 then tile0 else tile1) jk.2
            let tiles := 0x8010 + 16 * i + 8 * jk.1 + 4 * (1 - jk.2)
            let gb := { gb with memory := store16 gb.memory (tiles + 2) line }
            { gb with memory := store16 gb.memory tiles line })
          gb)
      gb
  let gb :=
    ([0x3C, 0x42, 0xB9, 0xA5, 0xB9, 0xA5, 0x42, 0x3C].enum).foldl
      (fun gb nv => { gb with memory := store16 gb.memory (0x8190 + 2 * nv.1) nv.2 })
      gb
  let gb :=
    [8, 9].foldl
      (fun gb y =>
        (List.range 12).foldl
          (fun gb n =>
            { gb with memory := store gb.memory (0x9800 + 32 * y + (4 + n)) (1 + 12 * (y - 8) + n) })
          gb)
      gb
  { gb with memory := store gb.memory (0x9800 + 32 * 8 + 16) 25 }

/-- The C function `reset`.  `sav` is the save file next to the ROM as the host has it
(read by `load_ram` only when a ROM path is set). -/
def reset (sav : Option host_file) (gb : gameboy_t) : gameboy_t :=
  let gb :=
    { gb with
      registers :=
        { f := { invalid := 0, c := false, h := false, n := false, z := false },
          a := 0, c := 0, b := 0, e := 0, d := 0, l := 0, h := 0, sp := 0, pc := 0 } }
  let gb := { gb with registers := gb.registers.set_af 0x01B0 }
  let gb := { gb with registers := gb.registers.set_bc 0x0013 }
  let gb := { gb with registers := gb.registers.set_de 0x00D8 }
  let gb := { gb with registers := gb.registers.set_hl 0x014D }
  let gb := { gb with registers.sp := 0xFFFE }
  let gb := { gb with registers.pc := 0x0100 }
  let gb := { gb with op_cycles := 0 }
  let gb :=
    { gb with
      state :=
        { stop := false, pending_ime := false, ime := false, ram := false, mbc1_mode := false,
          dma_transfer := false, no_vram_access := false, no_oam_access := false } }
  let gb := { gb with state.ime := true }
  let gb := { gb with cycles := { div := 0, tac := 0, dma := 0, dots := 0 } }
  let gb := { gb with memory := fun _ => 0 }
  let gb :=
    ([(0xFF00, 0xCF), (0xFF02, 0x7E), (0xFF04, 0xAB), (0xFF07, 0xF8), (0xFF0F, 0xE1),
     (0xFF40, 0x91), (0xFF41, 0x80), (0xFF46, 0xFF), (0xFF47, 0xFC), (0xFF48, 0xFF),
     (0xFF49, 0xFF), (0xFF4D, 0xFF), (0xFF4F, 0xFF), (0xFF70, 0xFF)] : List (Nat × Nat)).foldl
      (fun gb av => { gb with memory := store gb.memory av.1 av.2 })
      gb
  let gb := { gb with rom_bank := 0 }
  let gb := { gb with ram_bank := 0 }
  let gb := { gb with num_scanline_sprites := 0 }
  let gb := { gb with framebuffer := clear_pixels gb.framebuffer (gb_colors 0) }
  if gb.rom_path_set then
    let gb := { gb with memory := fun x => if x < 0x8000 then gb.rom x else gb.memory x }
    let gb := load_ram sav gb
    load_nintendo_logo gb
  else gb

/-! ## Interrupt dispatch -/

/-- The C function `check_interrupt`.  IE is the byte at 0xFFFF and IF the byte at 0xFF0F;
the bits are vblank 0, stat 1, timer 2, joypad 4.  The two pushes store straight into
`gb.memory`. -/
def check_interrupt (gb : gameboy_t) : gameboy_t :=
  let gb :=
    if gb.state.ime then
      let (interrupt, gb) :=
        if get_bit (gb.memory 0xFFFF) 0 && get_bit (gb.memory 0xFF0F) 0 then
          (0x40, set_mem_bit gb 0xFF0F 0 false)
        else if get_bit (gb.memory 0xFFFF) 1 && get_bit (gb.memory 0xFF0F) 1 then
          (0x48, set_mem_bit gb 0xFF0F 1 false)
        else if get_bit (gb.memory 0xFFFF) 2 && get_bit (gb.memory 0xFF0F) 2 then
          (0x50, set_mem_bit gb 0xFF0F 2 false)
        else if get_bit (gb.memory 0xFFFF) 4 && get_bit (gb.memory 0xFF0F) 4 then
          (0x60, set_mem_bit gb 0xFF0F 4 false)
        else (0, gb)
      if interrupt ≠ 0 then
        let gb := { gb with registers.sp := (gb.registers.sp + 65535) % 65536 }
        let gb := { gb with memory := store gb.memory gb.registers.sp (HIGH gb.registers.pc) }
        let gb := { gb with registers.sp := (gb.registers.sp + 65535) % 65536 }
        let gb := { gb with memory := store gb.memory gb.registers.sp (LOW gb.registers.pc) }
        let gb := { gb with registers.pc := interrupt }
        let gb := add_cycles 20 gb
        { gb with state.ime := false }
      else gb
    else gb
  if gb.state.pending_ime then
    let gb := { gb with state.ime := true }
    { gb with state.pending_ime := false }
  else gb

/-! ## PPU -/

/-- The C function `palette_color`. -/
def palette_color (palette idx : Nat) : Nat :=
  ((palette >>> (2 * idx)) &&& 0x3) % 256

/-- The bitfield `draw_flags_t`. -/
structure draw_flags_t where
  transparency : Bool
  flip : Bool
  prio_bg : Bool

/-- The C function `draw_tile_on_scanline`; `x` and `y` are the `int16_t` arguments, `line` the
`uint16_t` and `palette` the palette byte. -/
def draw_tile_on_scanline (x y : Int) (line palette : Nat) (flags : draw_flags_t)
    (gb : gameboy_t) : gameboy_t :=
  let low := LOW line
  let high := HIGH line
  [0, 1, 2, 3, 4, 5, 6, 7].foldl
    (fun gb i =>
      let idx := ((low >>> i) &&& 0x01) ||| (((high >>> i) &&& 0x01) <<< 1)
      let color := palette_color palette idx
      let px : Int := if flags.flip then x + (i : Int) else x + (7 - (i : Int))
      if (flags.transparency = false ∨ idx ≠ 0) ∧
          (flags.prio_bg = false ∨
            get_pixel gb.framebuffer px y = gb_colors (gb.memory 0xFF47 &&& 0x3)) then
        { gb with framebuffer := set_pixel gb.framebuffer px y (gb_colors color) }
      else gb)
    gb

/-- The record `sprites[i]` of OAM (`memory + 0xFE00`). -/
def oam_sprite (gb : gameboy_t) (i : Nat) : sprite_attribute_t :=
  { py := gb.memory (0xFE00 + 4 * i)
    px := gb.memory (0xFE00 + 4 * i + 1)
    tile := gb.memory (0xFE00 + 4 * i + 2)
    flags := gb.memory (0xFE00 + 4 * i + 3) }

/-- The loop of `scan_oam` from index `i`, with `n` iterations left before `i` reaches 40. -/
def scan_oam_loop : Nat → Nat → gameboy_t → gameboy_t
  | 0, _, gb => gb
  | n + 1, i, gb =>
    let sprite := oam_sprite gb i
    let y := (sprite.py + 256 - 16) % 256
    let size := if lcd_obj_size gb then 16 else 8
    if lcd_ly gb ≥ y ∧ lcd_ly gb < y + size then
      let gb :=
        { gb with
          scanline_sprites := fun k => if k = gb.num_scanline_sprites then sprite else gb.scanline_sprites k
          num_scanline_sprites := (gb.num_scanline_sprites + 1) % 256 }
      if gb.num_scanline_sprites = 10 then gb else scan_oam_loop n (i + 1) gb
    else scan_oam_loop n (i + 1) gb

/-- The C function `scan_oam`. -/
def scan_oam (gb : gameboy_t) : gameboy_t :=
  scan_oam_loop 40 0 { gb with num_scanline_sprites := 0 }

/-- The word `tiles[idx].lines[line_idx]` for a tile array at byte address `base`. -/
def tile_line (gb : gameboy_t) (base : Nat) (idx : Int) (line_idx : Nat) : Nat :=
  let a := ((base : Int) + 16 * idx + 2 * (line_idx : Int)).toNat
  COMBINE (gb.memory (a + 1)) (gb.memory a)

/-- The background loop of `pixel_transfer`, `for(uint8_t i = start; i != end; i++)`, entered with
the current `i` and `x`; the first argument bounds the number of iterations (the counter
has 256 values). -/
def bg_loop : Nat → Nat → Nat → Int → gameboy_t → gameboy_t
  | 0, _, _, _, gb => gb
  | fuel + 1, i, e, x, gb =>
    if i ≠ e then
      let tile_mode := get_bit (gb.memory 0xFF40) 4
      let tiles := if tile_mode then 0x8000 else 0x9000
      let bg_tilemap := if get_bit (gb.memory 0xFF40) 3 then 0x9C00 else 0x9800
      let y := gb.memory 0xFF42 + lcd_ly gb
      let id := gb.memory (bg_tilemap + (32 * ((y / 8) % 32) + (i % 32)))
      let line := tile_line gb tiles (if tile_mode then (id : Int) else int8 id) (y % 8)
      let gb := draw_tile_on_scanline x (lcd_ly gb) line (gb.memory 0xFF47)
        { transparency := false, flip := false, prio_bg := false } gb
      bg_loop fuel ((i + 1) % 256) e (x + 8) gb
    else gb

/-- The C function `pixel_transfer`.  The LCD registers are SCY 0xFF42, SCX 0xFF43, LY 0xFF44,
BGP 0xFF47, OBP0 0xFF48, OBP1 0xFF49, WY 0xFF4A, WX 0xFF4B. -/
def pixel_transfer (gb : gameboy_t) : gameboy_t :=
  let gb :=
    if get_bit (gb.memory 0xFF40) 0 then
      let tile_mode := get_bit (gb.memory 0xFF40) 4
      let tiles := if tile_mode then 0x8000 else 0x9000
      let start := (gb.memory 0xFF43 / 8) % 32
      let e := (start + 21) % 32
      let x : Int := -((gb.memory 0xFF43 % 8 : Nat) : Int)
      let gb := bg_loop 256 start e x gb
      if get_bit (gb.memory 0xFF40) 5 ∧ lcd_ly gb ≥ gb.memory 0xFF4A then
        let window_tilemap := if get_bit (gb.memory 0xFF40) 6 then 0x9C00 else 0x9800
        (List.range 21).foldl
          (fun gb i =>
            let x := 8 * i
            let y := lcd_ly gb - gb.memory 0xFF4A
            let id := gb.memory (window_tilemap + (32 * (y / 8) + (x / 8) % 32))
            let line := tile_line gb tiles (if tile_mode then (id : Int) else int8 id) (y % 8)
            draw_tile_on_scanline (((gb.memory 0xFF4B : Int) - 7) + (x : Int)) (lcd_ly gb) line
              (gb.memory 0xFF47) { transparency := false, flip := false, prio_bg := false } gb)
          gb
      else gb
    else gb
  if get_bit (gb.memory 0xFF40) 1 then
    (List.range gb.num_scanline_sprites).foldl
      (fun gb i =>
        let sprite := gb.scanline_sprites i
        let x : Int := (sprite.px : Int) - 8
        let y : Int := (sprite.py : Int) - 16
        let flipy := get_bit sprite.flags 6
        let id :=
          if lcd_obj_size gb then
            if (lcd_ly gb : Int) - y ≤ 7 then
              (if flipy then (sprite.tile + 1) % 256 else sprite.tile)
            else
              (if flipy then sprite.tile else (sprite.tile + 1) % 256)
          else sprite.tile
        let line_idx := (Int.tmod ((lcd_ly gb : Int) - y) 8 % 256).toNat
        let line_idx := if flipy then (7 + 256 - line_idx) % 256 else line_idx
        let palette := if get_bit sprite.flags 4 then gb.memory 0xFF49 else gb.memory 0xFF48
        draw_tile_on_scanline x (lcd_ly gb) (tile_line gb 0x8000 id line_idx) palette
          { transparency := true, flip := get_bit sprite.flags 5, prio_bg := get_bit sprite.flags 7 } gb)
      gb
  else gb

/-! ## One pass of the emulation loop of `main` -/

/-- The DMA lines of the loop: the accumulator `cycles.dma` takes `op_cycles`, and at 160 the
160 bytes at `memory[0xFF46] << 8` are copied to OAM and the transfer flag is cleared. -/
def dma_advance (gb : gameboy_t) : gameboy_t :=
  if gb.state.dma_transfer then
    let gb := { gb with cycles.dma := (gb.cycles.dma + gb.op_cycles) % 65536 }
    if gb.cycles.dma ≥ 160 then
      let address := (COMBINE (gb.memory 0xFF46) 0) % 65536
      let gb :=
        { gb with
          memory := fun x =>
            if 0xFE00 ≤ x ∧ x < 0xFE00 + 0xA0 then gb.memory (address + (x - 0xFE00)) else gb.memory x }
      { gb with state.dma_transfer := false }
    else gb
  else gb

/-- The DIV lines of the loop. -/
def div_advance (gb : gameboy_t) : gameboy_t :=
  let gb := { gb with cycles.div := (gb.cycles.div + gb.op_cycles) % 65536 }
  if gb.state.stop = false ∧ gb.cycles.div ≥ 256 then
    let gb := { gb with memory := store gb.memory 0xFF04 ((gb.memory 0xFF04 + 1) % 256) }
    { gb with cycles.div := gb.cycles.div - 256 }
  else gb

/-- The TIMA lines of the loop; the timer registers are TIMA 0xFF05, TMA 0xFF06, TAC 0xFF07. -/
def timer_advance (gb : gameboy_t) : gameboy_t :=
  if get_bit (gb.memory 0xFF07) 2 then
    let clock := gb.memory 0xFF07 &&& 0x3
    let clock_cycles :=
      if clock = 0 then 1024 else if clock = 1 then 16 else if clock = 2 then 64 else 256
    let gb := { gb with cycles.tac := (gb.cycles.tac + gb.op_cycles) % 65536 }
    if gb.cycles.tac ≥ clock_cycles then
      let gb :=
        if gb.memory 0xFF05 = 0xFF then
          let gb := { gb with memory := store gb.memory 0xFF05 (gb.memory 0xFF06) }
          set_mem_bit gb 0xFF0F 2 true
        else
          { gb with memory := store gb.memory 0xFF05 ((gb.memory 0xFF05 + 1) % 256) }
      { gb with cycles.tac := gb.cycles.tac - clock_cycles }
    else gb
  else gb

/-- The PPU lines of the loop (the `switch` on the STAT mode).  The presentation of the frame
by `StretchDIBits` changes nothing in `gb`. -/
def ppu_advance (gb : gameboy_t) : gameboy_t :=
  if lcd_enable gb then
    let gb := { gb with cycles.dots := (gb.cycles.dots + gb.op_cycles) % 65536 }
    let mode := lcd_status_mode gb
    if mode = 2 then
      if gb.cycles.dots ≥ 80 then
        let gb := scan_oam gb
        let gb := set_mode .LCD_MODE_PIXEL_TRANSFER gb
        { gb with cycles.dots := gb.cycles.dots - 80 }
      else gb
    else if mode = 3 then
      if gb.cycles.dots ≥ 172 then
        let gb := pixel_transfer gb
        let gb := set_mode .LCD_MODE_HBLANK gb
        { gb with cycles.dots := gb.cycles.dots - 172 }
      else gb
    else if mode = 0 then
      if gb.cycles.dots ≥ 204 then
        let gb := set_ly ((lcd_ly gb + 1) % 256) gb
        let gb :=
          if lcd_ly gb = 144 then set_mode .LCD_MODE_VBLANK gb
          else set_mode .LCD_MODE_SCAN_OAM gb
        { gb with cycles.dots := gb.cycles.dots - 204 }
      else gb
    else if mode = 1 then
      if gb.cycles.dots ≥ 456 then
        let gb := set_ly ((lcd_ly gb + 1) % 256) gb
        let gb :=
          if lcd_ly gb = 154 then
            let gb := set_mode .LCD_MODE_SCAN_OAM gb
            set_ly 0 gb
          else gb
        { gb with cycles.dots := gb.cycles.dots - 456 }
      else gb
    else gb
  else gb

/-- One pass of the inner `while` loop of `main`: clear `op_cycles`, dispatch a pending
interrupt, fetch and execute one opcode, then advance DMA, DIV, TIMA and the PPU by the
cycles of that pass. -/
def step (gb : gameboy_t) : gameboy_t :=
  let gb := { gb with op_cycles := 0 }
  let gb := check_interrupt gb
  let (op, gb) := fetch gb
  let gb := execute_op op gb
  let gb := dma_advance gb
  let gb := div_advance gb
  let gb := timer_advance gb
  ppu_advance gb

/-- The state after `n` passes of the loop. -/
def run : Nat → gameboy_t → gameboy_t
  | 0, gb => gb
  | n + 1, gb => run n (step gb)

/-! ## Loading a ROM -/

/-- The checksum loop of `load`: `checksum = checksum - gb.rom[address] - 1` over
0x0134..0x014C, on a `uint8_t`. -/
def header_checksum (rom : Nat → Nat) : Nat :=
  (List.range 25).foldl (fun checksum n => (checksum + 511 - rom (0x134 + n) % 256) % 256) 0

/-- The C function `load`.  `file` is what `CreateFile` finds under `path` (`none` when the
open fails) and `sav` the save file that the following `reset` looks for.  `ReadFile` copies
the file over the start of `gb.rom`; a checksum mismatch empties `rom_path`. -/
def load (file sav : Option host_file) (gb : gameboy_t) : gameboy_t :=
  let gb :=
    match file with
    | some f =>
      let gb := { gb with rom_path_set := true }
      let gb := { gb with rom := fun x => if x < f.size then f.bytes x else gb.rom x }
      if header_checksum gb.rom ≠ gb.rom 0x14D then { gb with rom_path_set := false } else gb
    | none => gb
  reset sav gb

/-! ## Value ranges, operand names and a start state -/

/-- The ranges that the C types give the members of `registers_t`: a four-bit
`invalid` field, eight-bit registers, sixteen-bit SP and PC. -/
def registers_t.wf (r : registers_t) : Prop :=
  r.f.invalid < 16 ∧ r.a < 256 ∧ r.c < 256 ∧ r.b < 256 ∧ r.e < 256 ∧ r.d < 256 ∧
    r.l < 256 ∧ r.h < 256 ∧ r.sp < 65536 ∧ r.pc < 65536

instance registers_t.wf_decidable (r : registers_t) : Decidable r.wf := by
  unfold registers_t.wf
  infer_instance

/-- The ranges that the C types give the registers and the cells of `memory`. -/
def gameboy_t.wf (gb : gameboy_t) : Prop :=
  gb.registers.wf ∧ ∀ x, gb.memory x < 256

/-- The eight-bit register numbered `i` in the instruction encoding, in the order
B, C, D, E, H, L, -, A (number 6 names the cell at HL and is not a register). -/
def reg8 (i : Nat) (r : registers_t) : Nat :=
  if i = 0 then r.b else if i = 1 then r.c else if i = 2 then r.d else if i = 3 then r.e
  else if i = 4 then r.h else if i = 5 then r.l else r.a

/-- The eight-bit operand numbered `i` in the instruction encoding, in the order
B, C, D, E, H, L, (HL), A; the cell at HL is read through the bus. -/
def operand8 (i : Nat) (gb : gameboy_t) : Nat :=
  if i = 6 then mem_r gb.registers.hl gb else reg8 i gb.registers

/-- The operand of an eight-bit ALU opcode whose immediate form is `imm`: the byte
at PC for `imm`, otherwise the operand numbered `op % 8`. -/
def alu_source (op imm : Nat) (gb : gameboy_t) : Nat :=
  if op = imm then mem_r gb.registers.pc gb else operand8 (op % 8) gb

/-- The packed BCD encoding of a number below 100. -/
def bcd (x : Nat) : Nat := 16 * (x / 10) + x % 10

/-- One row of the BCD addition table: the adjustment DAA makes to `bcd x + bcd y`
(with the C and H that ADD leaves) gives `bcd ((x + y) % 100)` and the decimal carry. -/
def bcd_add_check (x y : Nat) : Bool :=
  let a := (bcd x + bcd y) % 256
  let c := Nat.blt a (bcd x)
  let h := Nat.blt (a % 16) (bcd x % 16)
  let a1 := bif c || Nat.blt 0x99 a then (a + 0x60) % 256 else a
  let a2 := bif h || Nat.blt 9 (a1 % 16) then (a1 + 0x06) % 256 else a1
  Nat.beq a2 (bcd ((x + y) % 100)) && ((c || Nat.blt 0x99 a) == Nat.ble 100 (x + y))

/-- One row of the BCD subtraction table: the adjustment DAA makes to `bcd x - bcd y`
(with the C and H that SUB leaves) gives `bcd ((x - y) mod 100)` and the decimal borrow. -/
def bcd_sub_check (x y : Nat) : Bool :=
  let a := (bcd x + 256 - bcd y) % 256
  let c := Nat.blt (bcd x) a
  let h := Nat.blt (bcd x % 16) (a % 16)
  let a1 := bif c then (a + 256 - 0x60) % 256 else a
  let a2 := bif h then (a1 + 256 - 0x06) % 256 else a1
  Nat.beq a2 (bcd ((x + 100 - y) % 100)) && (c == Nat.blt x y)

/-- The aggregate as `main` creates it before `reset`: the static `gb` is zeroed
and the pages from `VirtualAlloc` are zero. -/
def gb_zero : gameboy_t :=
  { registers :=
      { f := { invalid := 0, c := false, h := false, n := false, z := false },
        a := 0, c := 0, b := 0, e := 0, d := 0, l := 0, h := 0, sp := 0, pc := 0 },
    state :=
      { stop := false, pending_ime := false, ime := false, ram := false, mbc1_mode := false,
        dma_transfer := false, no_vram_access := false, no_oam_access := false },
    op_cycles := 0,
    cycles := { div := 0, tac := 0, dma := 0, dots := 0 },
    memory := fun _ => 0,
    rom := fun _ => 0,
    ram := fun _ => 0,
    framebuffer := fun _ => 0,
    rom_bank := 0,
    ram_bank := 0,
    scanline_sprites := fun _ => { py := 0, px := 0, tile := 0, flags := 0 },
    num_scanline_sprites := 0,
    rom_path_set := false,
    key_down := fun _ => false }

/-- An address in HRAM (0xFF80..0xFFFE) or in WRAM (0xC000..0xDFFF). -/
def in_hram_or_wram (p : Nat) : Prop :=
  (0xFF80 ≤ p ∧ p ≤ 0xFFFE) ∨ (0xC000 ≤ p ∧ p ≤ 0xDFFF)

instance in_hram_or_wram_decidable (p : Nat) : Decidable (in_hram_or_wram p) := by
  unfold in_hram_or_wram
  infer_instance

/-! ## Example states -/

/-- A state with the bytes 0xFF, 0x12 on top of a stack at 0xC000 and AF = 0x0000, as
left by `LD (HL), u8` stores to WRAM. -/
def pop_af_example : gameboy_t :=
  { gb_zero with
    registers.sp := 0xC000
    memory := store (store gb_zero.memory 0xC000 0xFF) 0xC001 0x12 }

/-- A state with SP = 0xFFFE and distinct bytes in every register. -/
def stack_example : gameboy_t :=
  { gb_zero with
    registers :=
      { f := { invalid := 0, c := true, h := false, n := true, z := false },
        a := 0x01, c := 0x34, b := 0x12, e := 0x78, d := 0x56, l := 0xBC, h := 0x9A,
        sp := 0xFFFE, pc := 0x0100 } }

/-- A = 0xFF, B = 0x00, carry set: the ADC boundary case. -/
def adc_example : gameboy_t :=
  { gb_zero with registers.a := 0xFF, registers.f.c := true }

/-- A = 0x00, B = 0x00, carry set: the SBC boundary case. -/
def sbc_example : gameboy_t :=
  { gb_zero with registers.f.c := true }

/-- HL = 0x0F00 and BC = 0x0100: the sum carries out of bit 11 and not out of bit 7. -/
def add_hl_example_1 : gameboy_t :=
  { gb_zero with registers.h := 0x0F, registers.b := 0x01 }

/-- HL = 0x00FF and BC = 0x0001: the sum carries out of bit 7 and not out of bit 11. -/
def add_hl_example_2 : gameboy_t :=
  { gb_zero with registers.l := 0xFF, registers.c := 0x01 }

/-- SP = 0x00FF with the immediate byte 0x01 at PC = 0xC000. -/
def add_sp_example_1 : gameboy_t :=
  { gb_zero with
    registers.sp := 0x00FF
    registers.pc := 0xC000
    memory := store gb_zero.memory 0xC000 0x01 }

/-- SP = 0x0100 with the immediate byte 0xFF (minus one) at PC = 0xC000. -/
def add_sp_example_2 : gameboy_t :=
  { gb_zero with
    registers.sp := 0x0100
    registers.pc := 0xC000
    memory := store gb_zero.memory 0xC000 0xFF }

/-- B = 0xFF with the carry flag set: the INC boundary case. -/
def inc_example : gameboy_t :=
  { gb_zero with registers.b := 0xFF, registers.f.c := true }

/-- A = 0x95 (BCD 95) and B = 0x05 (BCD 5). -/
def daa_example : gameboy_t :=
  { gb_zero with registers.a := 0x95, registers.b := 0x05 }

/-- HL = 0xFF80 (HRAM) holding 0x01, and A = 0x81 with the carry flag set. -/
def bit_example : gameboy_t :=
  { gb_zero with
    registers.h := 0xFF
    registers.l := 0x80
    registers.a := 0x81
    registers.f.c := true
    memory := store gb_zero.memory 0xFF80 0x01 }

/-- A = 0x01 with the carry flag clear: RRA rotates it to 0x00. -/
def rra_example : gameboy_t :=
  { gb_zero with registers.a := 0x01 }

/-- HL = 0x0000 (ROM) with cartridge RAM enabled. -/
def set_rom_example : gameboy_t :=
  { gb_zero with state.ram := true }

/-- The value that `set_rom_bank` assigns to `rom_bank` for a request `bank`:
`min(max(bank, 1), num - 1)` on `int`, truncated to a byte, with `num` the byte `rom_kib()/16`. -/
def clamped_rom_bank (bank : Nat) (gb : gameboy_t) : Nat :=
  ((min (max (bank : Int) 1) ((((rom_kib gb / 16) % 256 : Nat) : Int) - 1)) % 256).toNat

/-- A state with a DMA in progress, both PPU locks set, cartridge RAM disabled and RAM
banking mode selected. -/
def bus_locked_example : gameboy_t :=
  { gb_zero with
    state.dma_transfer := true
    state.no_vram_access := true
    state.no_oam_access := true
    state.mbc1_mode := true }

/-! ## Example states for the bus and the loop -/

/-- Zero flag clear and SP = 0xFFF0 (HRAM): the condition NZ holds. -/
def branch_nz_example : gameboy_t :=
  { gb_zero with registers.sp := 0xFFF0 }

/-- Zero flag set and SP = 0xFFF0 (HRAM): the condition NZ fails. -/
def branch_z_example : gameboy_t :=
  { gb_zero with registers.f.z := true, registers.sp := 0xFFF0 }

/-- The non-zero bytes of a 1 MiB cartridge image: MBC1 with RAM and battery (type 0x03), ROM
size code 5 (64 banks), RAM size code 2 (one 8 KiB bank), the header checksum 0xDD, and the
program
`LD A,5; LD (0x2000),A; LD A,1; LD (0x4000),A; JP 0x01FC` at 0x0100,
`LD SP,0x014A; LDH (0xFF),A` at 0x01FC, and NOP at the VBlank vector 0x0040. -/
def cart_image : List (Nat × Nat) :=
  [(0x100, 0x3E), (0x101, 0x05), (0x102, 0xEA), (0x103, 0x00), (0x104, 0x20),
   (0x105, 0x3E), (0x106, 0x01), (0x107, 0xEA), (0x108, 0x00), (0x109, 0x40),
   (0x10A, 0xC3), (0x10B, 0xFC), (0x10C, 0x01),
   (0x147, 0x03), (0x148, 0x05), (0x149, 0x02), (0x14D, 0xDD),
   (0x1FC, 0x31), (0x1FD, 0x4A), (0x1FE, 0x01), (0x1FF, 0xE0), (0x200, 0xFF)]

/-- The cartridge file with the bytes `cart_image`. -/
def cart_file : host_file :=
  { size := 0x100000, bytes := fun x => ((cart_image.lookup x).getD 0) }

/-- The machine after `load` of `cart_file`, with no save file present. -/
def cart_loaded : gameboy_t :=
  load (some cart_file) none gb_zero

/-- The loaded cartridge after the bank-select writes 1 to 0x2000 and 1 to 0x4000: ROM bank 0x21. -/
def bank_21_example : gameboy_t :=
  mem_w 0x4000 1 (mem_w 0x2000 1 cart_loaded)

/-- The loaded cartridge with ROM bank 0x25 selected and the ROM size code 33 in the header
byte 0x0148, a count past the width of the 32-bit shift of `rom_kib`. -/
def size_code_33_example : gameboy_t :=
  { cart_loaded with rom_bank := 0x25, memory := store cart_loaded.memory 0x0148 33 }

/-- The loaded cartridge switched to RAM banking mode by the write of 1 to 0x6000. -/
def ram_mode_example : gameboy_t :=
  mem_w 0x6000 1 cart_loaded

/-- The non-zero bytes of a 32 KiB cartridge image whose program starts an OAM DMA from ROM:
`LD A,0xC0; LDH (0x46),A` at 0x0100; the header checksum is 0xE7. -/
def dma_cart_image : List (Nat × Nat) :=
  [(0x100, 0x3E), (0x101, 0xC0), (0x102, 0xE0), (0x103, 0x46), (0x14D, 0xE7)]

/-- The cartridge file with the bytes `dma_cart_image`. -/
def dma_cart_file : host_file :=
  { size := 0x8000, bytes := fun x => ((dma_cart_image.lookup x).getD 0) }

/-- The machine after `load` of `dma_cart_file`, with no save file present. -/
def dma_cart_loaded : gameboy_t :=
  load (some dma_cart_file) none gb_zero

/-! ## The PPU lines of the loop, seen through LY, mode, dots and the VBlank flag -/

/-- Two machine states that agree on everything but the framebuffer and the list of sprites
of the scanline: what `scan_oam` and `pixel_transfer` leave alone. -/
def ppu_only (a b : gameboy_t) : Prop :=
  a = { b with
        framebuffer := a.framebuffer
        scanline_sprites := a.scanline_sprites
        num_scanline_sprites := a.num_scanline_sprites }

/-- What the PPU lines of the loop read and write besides the two locks: LY, the STAT mode,
the `dots` accumulator and the VBlank bit of IF. -/
structure ppu_view where
  ly : Nat
  mode : Nat
  dots : Nat
  vblank : Bool
  deriving DecidableEq

/-- The view of a machine state. -/
def ppu_view_of (gb : gameboy_t) : ppu_view :=
  { ly := lcd_ly gb, mode := lcd_status_mode gb, dots := gb.cycles.dots,
    vblank := get_bit (gb.memory 0xFF0F) 0 }

/-- The `switch` of the PPU lines of the loop, read on the view alone (`ppu_advance_view`
proves that `ppu_advance` does this with the LCD enabled). -/
def ppu_view.switch (v : ppu_view) : ppu_view :=
  if v.mode = 2 then
    if v.dots ≥ 80 then { v with mode := 3, dots := v.dots - 80 } else v
  else if v.mode = 3 then
    if v.dots ≥ 172 then { v with mode := 0, dots := v.dots - 172 } else v
  else if v.mode = 0 then
    if v.dots ≥ 204 then
      if (v.ly + 1) % 256 = 144 then
        { ly := (v.ly + 1) % 256, mode := 1, dots := v.dots - 204, vblank := true }
      else { v with ly := (v.ly + 1) % 256, mode := 2, dots := v.dots - 204 }
    else v
  else if v.mode = 1 then
    if v.dots ≥ 456 then
      if (v.ly + 1) % 256 = 154 then { v with ly := 0, mode := 2, dots := v.dots - 456 }
      else { v with ly := (v.ly + 1) % 256, dots := v.dots - 456 }
    else v
  else v

/-- The PPU lines of the loop on the view, for a pass of `c` cycles with the LCD enabled: the
cycles are added to the `uint16_t` accumulator, then the `switch` runs. -/
def ppu_view.advance (c : Nat) (v : ppu_view) : ppu_view :=
  ppu_view.switch { v with dots := (v.dots + c) % 65536 }

/-- The PPU lines of the loop for a pass of four cycles, with nothing else done in the pass
(no instruction, so no CPU write to a PPU register). -/
def ppu_tick (gb : gameboy_t) : gameboy_t :=
  ppu_advance { gb with op_cycles := 4 }

/-- The state after `n` such passes. -/
def ppu_ticks : Nat → gameboy_t → gameboy_t
  | 0, gb => gb
  | n + 1, gb => ppu_tick (ppu_ticks n gb)

/-- The view `i` passes of four cycles into a frame that starts at LY = 0, mode 2, dots = 0 with
the VBlank bit clear: 114 passes per line, of which 20 in mode 2, 43 in mode 3 and 51 in
mode 0 on the lines 0..143, and all in mode 1 on the lines 144..153. -/
def frame_view (i : Nat) : ppu_view :=
  if i ≥ 17556 then { ly := 0, mode := 2, dots := 0, vblank := true }
  else if i / 114 < 144 then
    if i % 114 < 20 then { ly := i / 114, mode := 2, dots := 4 * (i % 114), vblank := false }
    else if i % 114 < 63 then
      { ly := i / 114, mode := 3, dots := 4 * (i % 114 - 20), vblank := false }
    else { ly := i / 114, mode := 0, dots := 4 * (i % 114 - 63), vblank := false }
  else { ly := i / 114, mode := 1, dots := 4 * (i % 114), vblank := true }

/-- The statement `switch(gb.lcd->status.mode)` of the PPU lines of the loop, entered after
`gb.cycles.dots += gb.op_cycles` (`ppu_advance_eq` shows that `ppu_advance` is this after
the addition). -/
def ppu_switch (gb : gameboy_t) : gameboy_t :=
  let mode := lcd_status_mode gb
  if mode = 2 then
    if gb.cycles.dots ≥ 80 then
      let gb := scan_oam gb
      let gb := set_mode .LCD_MODE_PIXEL_TRANSFER gb
      { gb with cycles.dots := gb.cycles.dots - 80 }
    else gb
  else if mode = 3 then
    if gb.cycles.dots ≥ 172 then
      let gb := pixel_transfer gb
      let gb := set_mode .LCD_MODE_HBLANK gb
      { gb with cycles.dots := gb.cycles.dots - 172 }
    else gb
  else if mode = 0 then
    if gb.cycles.dots ≥ 204 then
      let gb := set_ly ((lcd_ly gb + 1) % 256) gb
      let gb :=
        if lcd_ly gb = 144 then set_mode .LCD_MODE_VBLANK gb
        else set_mode .LCD_MODE_SCAN_OAM gb
      { gb with cycles.dots := gb.cycles.dots - 204 }
    else gb
  else if mode = 1 then
    if gb.cycles.dots ≥ 456 then
      let gb := set_ly ((lcd_ly gb + 1) % 256) gb
      let gb :=
        if lcd_ly gb = 154 then
          let gb := set_mode .LCD_MODE_SCAN_OAM gb
          set_ly 0 gb
        else gb
      { gb with cycles.dots := gb.cycles.dots - 456 }
    else gb
  else gb

/-! ## The two halves of a pass -/

/-- The start of a pass of the loop: `gb.op_cycles = 0; check_interrupt();`. -/
def pass_dispatch (gb : gameboy_t) : gameboy_t :=
  check_interrupt { gb with op_cycles := 0 }

/-- The rest of a pass: fetch and execute one opcode, then the DMA, DIV, TIMA and PPU lines
(`step_eq` shows that `step` is `pass_execute` after `pass_dispatch`). -/
def pass_execute (gb : gameboy_t) : gameboy_t :=
  ppu_advance (timer_advance (div_advance (dma_advance (execute_op (fetch gb).1 (fetch gb).2))))

/-- The `if`/`else if` chain of `check_interrupt` that picks the interrupt: the vector (0 when
none is picked) and the state with the picked bit of IF cleared. -/
def interrupt_select (gb : gameboy_t) : Nat × gameboy_t :=
  if get_bit (gb.memory 0xFFFF) 0 && get_bit (gb.memory 0xFF0F) 0 then
    (0x40, set_mem_bit gb 0xFF0F 0 false)
  else if get_bit (gb.memory 0xFFFF) 1 && get_bit (gb.memory 0xFF0F) 1 then
    (0x48, set_mem_bit gb 0xFF0F 1 false)
  else if get_bit (gb.memory 0xFFFF) 2 && get_bit (gb.memory 0xFF0F) 2 then
    (0x50, set_mem_bit gb 0xFF0F 2 false)
  else if get_bit (gb.memory 0xFFFF) 4 && get_bit (gb.memory 0xFF0F) 4 then
    (0x60, set_mem_bit gb 0xFF0F 4 false)
  else (0, gb)

/-- The block `if(interrupt) { ... }` of `check_interrupt`: push PC, jump, charge 20 cycles,
clear IME. -/
def interrupt_enter (interrupt : Nat) (gb : gameboy_t) : gameboy_t :=
  if interrupt ≠ 0 then
    let gb := { gb with registers.sp := (gb.registers.sp + 65535) % 65536 }
    let gb := { gb with memory := store gb.memory gb.registers.sp (HIGH gb.registers.pc) }
    let gb := { gb with registers.sp := (gb.registers.sp + 65535) % 65536 }
    let gb := { gb with memory := store gb.memory gb.registers.sp (LOW gb.registers.pc) }
    let gb := { gb with registers.pc := interrupt }
    let gb := add_cycles 20 gb
    { gb with state.ime := false }
  else gb

/-- The block `if(gb.state.pending_ime) { ... }` that ends `check_interrupt`
(`check_interrupt_eq` shows that `check_interrupt` is these three pieces). -/
def ime_promote (gb : gameboy_t) : gameboy_t :=
  if gb.state.pending_ime then
    let gb := { gb with state.ime := true }
    { gb with state.pending_ime := false }
  else gb

/-! ## Example states for interrupts, timer and PPU -/

/-- The loaded cartridge after the writes of 0x08 to IF (0xFF0F) and to IE (0xFFFF): the serial
interrupt alone is enabled and pending, and IME is 1 from `reset`. -/
def serial_pending_example : gameboy_t :=
  mem_w 0xFFFF 0x08 (mem_w 0xFF0F 0x08 cart_loaded)

/-- The loaded cartridge after DI and EI: IME = 0 and the pending-IME latch set. -/
def ei_pending_example : gameboy_t :=
  execute_op 0xFB (execute_op 0xF3 cart_loaded)

/-- The non-zero bytes of a 32 KiB cartridge image with the program
`DI; LD A,1; LDH (0xFF),A; EI; DI; NOP` at 0x0100; the header checksum is 0xE7. -/
def ei_cart_image : List (Nat × Nat) :=
  [(0x100, 0xF3), (0x101, 0x3E), (0x102, 0x01), (0x103, 0xE0), (0x104, 0xFF),
   (0x105, 0xFB), (0x106, 0xF3), (0x14D, 0xE7)]

/-- The cartridge file with the bytes `ei_cart_image`. -/
def ei_cart_file : host_file :=
  { size := 0x8000, bytes := fun x => ((ei_cart_image.lookup x).getD 0) }

/-- The machine after `load` of `ei_cart_file` and three passes of the loop: IME = 0, the
VBlank interrupt enabled and pending, and EI the next instruction. -/
def before_ei_example : gameboy_t :=
  run 3 (load (some ei_cart_file) none gb_zero)

/-- The non-zero bytes of a 32 KiB cartridge image with the program
`LD A,5; LDH (0x07),A; NOP; CALL 0x0150` at 0x0100 and `CALL 0x0160` at 0x0150; the header
checksum is 0xE7. -/
def timer_cart_image : List (Nat × Nat) :=
  [(0x100, 0x3E), (0x101, 0x05), (0x102, 0xE0), (0x103, 0x07), (0x104, 0x00),
   (0x105, 0xCD), (0x106, 0x50), (0x107, 0x01), (0x14D, 0xE7),
   (0x150, 0xCD), (0x151, 0x60), (0x152, 0x01)]

/-- The cartridge file with the bytes `timer_cart_image`. -/
def timer_cart_file : host_file :=
  { size := 0x8000, bytes := fun x => ((timer_cart_image.lookup x).getD 0) }

/-- The machine after `load` of `timer_cart_file`, with no save file present. -/
def timer_cart_loaded : gameboy_t :=
  load (some timer_cart_file) none gb_zero

/-- The loaded cartridge after the write of 0x10 to STAT (0xFF41): the VBlank source of the
STAT interrupt is enabled. -/
def stat_vblank_example : gameboy_t :=
  mem_w 0xFF41 0x10 cart_loaded

/-- The loaded cartridge after the write of 10 to 0xFE00: sprite 0 has py = 10, so with
eight rows it covers the lines -6..1; LY is 0. -/
def sprite_above_example : gameboy_t :=
  mem_w 0xFE00 10 cart_loaded

/-- A state with the LCD enabled, LY = 0, STAT mode 2, `dots` = 0 and IF clear. -/
def frame_start_example : gameboy_t :=
  { gb_zero with memory := store (store gb_zero.memory 0xFF40 0x80) 0xFF41 0x02 }

/-- The non-zero bytes of a 32 KiB cartridge image with the program
`DI; LD A,1; LDH (0xFF),A; EI; NOP; NOP` at 0x0100; the header checksum is 0xE7. -/
def ei_nop_cart_image : List (Nat × Nat) :=
  [(0x100, 0xF3), (0x101, 0x3E), (0x102, 0x01), (0x103, 0xE0), (0x104, 0xFF),
   (0x105, 0xFB), (0x14D, 0xE7)]

/-- The cartridge file with the bytes `ei_nop_cart_image`. -/
def ei_nop_cart_file : host_file :=
  { size := 0x8000, bytes := fun x => ((ei_nop_cart_image.lookup x).getD 0) }

/-- The machine after `load` of `ei_nop_cart_file` and three passes of the loop: IME = 0, the
VBlank interrupt enabled and pending, EI the next instruction and NOP the one after it. -/
def before_ei_nop_example : gameboy_t :=
  run 3 (load (some ei_nop_cart_file) none gb_zero)

/-- The loaded cartridge after the writes of 5 to LYC (0xFF45) and 0x40 to STAT (0xFF41): the
LYC source of the STAT interrupt is enabled, and LY = 0 differs from LYC. -/
def lyc_example : gameboy_t :=
  mem_w 0xFF41 0x40 (mem_w 0xFF45 5 cart_loaded)

/-- A state with the LCD enabled in the last pass of line 153: LY = 153, STAT mode 1,
`dots` = 452 and a pass of four cycles. -/
def line_153_example : gameboy_t :=
  { gb_zero with
    op_cycles := 4
    cycles.dots := 452
    memory := store (store (store gb_zero.memory 0xFF40 0x80) 0xFF41 0x01) 0xFF44 153 }

/-! ## Reset and load, piece by piece -/

/-- The statements of `reset` before `if(strlen(rom_path) > 0)` (`reset_eq` shows that `reset`
is this followed by the `if`). -/
def reset_core (gb : gameboy_t) : gameboy_t :=
  let gb :=
    { gb with
      registers :=
        { f := { invalid := 0, c := false, h := false, n := false, z := false },
          a := 0, c := 0, b := 0, e := 0, d := 0, l := 0, h := 0, sp := 0, pc := 0 } }
  let gb := { gb with registers := gb.registers.set_af 0x01B0 }
  let gb := { gb with registers := gb.registers.set_bc 0x0013 }
  let gb := { gb with registers := gb.registers.set_de 0x00D8 }
  let gb := { gb with registers := gb.registers.set_hl 0x014D }
  let gb := { gb with registers.sp := 0xFFFE }
  let gb := { gb with registers.pc := 0x0100 }
  let gb := { gb with op_cycles := 0 }
  let gb :=
    { gb with
      state :=
        { stop := false, pending_ime := false, ime := false, ram := false, mbc1_mode := false,
          dma_transfer := false, no_vram_access := false, no_oam_access := false } }
  let gb := { gb with state.ime := true }
  let gb := { gb with cycles := { div := 0, tac := 0, dma := 0, dots := 0 } }
  let gb := { gb with memory := fun _ => 0 }
  let gb :=
    ([(0xFF00, 0xCF), (0xFF02, 0x7E), (0xFF04, 0xAB), (0xFF07, 0xF8), (0xFF0F, 0xE1),
     (0xFF40, 0x91), (0xFF41, 0x80), (0xFF46, 0xFF), (0xFF47, 0xFC), (0xFF48, 0xFF),
     (0xFF49, 0xFF), (0xFF4D, 0xFF), (0xFF4F, 0xFF), (0xFF70, 0xFF)] : List (Nat × Nat)).foldl
      (fun gb av => { gb with memory := store gb.memory av.1 av.2 })
      gb
  let gb := { gb with rom_bank := 0 }
  let gb := { gb with ram_bank := 0 }
  let gb := { gb with num_scanline_sprites := 0 }
  { gb with framebuffer := clear_pixels gb.framebuffer (gb_colors 0) }

/-- The addresses of the I/O cells that `reset` sets after clearing `memory`. -/
def reset_io_addresses : List Nat :=
  [0xFF00, 0xFF02, 0xFF04, 0xFF07, 0xFF0F, 0xFF40, 0xFF41, 0xFF46, 0xFF47, 0xFF48, 0xFF49,
   0xFF4D, 0xFF4F, 0xFF70]

/-- The macro `MAX_ROM_SIZE`, the size of the buffer `gb.rom`; `load` asserts that the file is
not larger. -/
def MAX_ROM_SIZE : Nat := 4 * 1024 * 1024

/-- The content of `gb.rom` after the `ReadFile` of `load`: the file over the start of the
buffer, the old bytes behind it. -/
def rom_after_read (f : host_file) (rom : Nat → Nat) : Nat → Nat :=
  fun x => if x < f.size then f.bytes x else rom x

/-- A sprite record that is entry `j` of the OAM in `m` and whose integer range of lines
[py - 16, py - 16 + size) contains LY, with LY and the sprite size read from `m`. -/
def selected_in_range (m : Nat → Nat) (s : sprite_attribute_t) : Prop :=
  ∃ j, j < 40 ∧
    s = { py := m (0xFE00 + 4 * j), px := m (0xFE00 + 4 * j + 1), tile := m (0xFE00 + 4 * j + 2),
          flags := m (0xFE00 + 4 * j + 3) } ∧
    (s.py : Int) - 16 ≤ (m 0xFF44 : Int) ∧
    (m 0xFF44 : Int) < (s.py : Int) - 16 + (if get_bit (m 0xFF40) 2 then 16 else 8)

/-- The body of the background loop of `pixel_transfer` for the counter value `i` and the
screen column `x` (`bg_loop_succ` shows that `bg_loop` runs this, then goes on with
`i + 1` on eight bits and `x + 8`). -/
def bg_tile (i : Nat) (x : Int) (gb : gameboy_t) : gameboy_t :=
  let tile_mode := get_bit (gb.memory 0xFF40) 4
  let tiles := if tile_mode then 0x8000 else 0x9000
  let bg_tilemap := if get_bit (gb.memory 0xFF40) 3 then 0x9C00 else 0x9800
  let y := gb.memory 0xFF42 + lcd_ly gb
  let id := gb.memory (bg_tilemap + (32 * ((y / 8) % 32) + (i % 32)))
  let line := tile_line gb tiles (if tile_mode then (id : Int) else int8 id) (y % 8)
  draw_tile_on_scanline x (lcd_ly gb) line (gb.memory 0xFF47)
    { transparency := false, flip := false, prio_bg := false } gb

/-- The background row as the specification words it: exactly 21 tiles, tile `k` taken from
the tile column `(SCX / 8 + k) mod 32` and drawn at screen column `-(SCX mod 8) + 8 k`. -/
def bg_row_spec (gb : gameboy_t) : gameboy_t :=
  (List.range 21).foldl
    (fun g k =>
      bg_tile ((gb.memory 0xFF43 / 8 + k) % 32)
        (-((gb.memory 0xFF43 % 8 : Nat) : Int) + 8 * (k : Int)) g)
    gb

/-! ## Example files and states for reset, load and the renderer -/

/-- A file of 32 KiB of zero bytes: its header checksum byte 0 differs from the computed
0xE7. -/
def zero_rom_file : host_file :=
  { size := 0x8000, bytes := fun _ => 0 }

/-- A state with SP = 0xD000 in WRAM, PC = 0x0150 and `CALL 0x1234` at 0x0150. -/
def call_example : gameboy_t :=
  { gb_zero with
    registers.sp := 0xD000
    registers.pc := 0x0150
    memory := store (store (store gb_zero.memory 0x0150 0xCD) 0x0151 0x34) 0x0152 0x12 }

/-- A state with the LCD registers of `reset`, LY = 0 and sprite 0 at py = 16, px = 8. -/
def sprite_on_line_example : gameboy_t :=
  { gb_zero with
    memory := store (store (store gb_zero.memory 0xFF40 0x91) 0xFE00 16) 0xFE01 8 }

/-- The loaded cartridge after the write of 0x63 to SCX (0xFF43): the background starts at tile
column 12, three pixels in. -/
def scx_example : gameboy_t :=
  mem_w 0xFF43 0x63 cart_loaded

/-- The loaded cartridge set up for one 8x16 sprite with the odd tile number 1: LCDC = 0x86
(LCD on, sprites on, 8x16, background off), OBP0 = 0xE4, sprite 0 at py = 16, px = 8 with
tile 1 and no flags, and the first row of tile 0 in colour index 3, of tile 1 in colour
index 1 and of tile 2 in colour index 2. -/
def tall_sprite_example : gameboy_t :=
  ([(0xFF40, 0x86), (0xFF48, 0xE4), (0xFE00, 16), (0xFE01, 8), (0xFE02, 1), (0xFE03, 0),
    (0x8000, 0xFF), (0x8001, 0xFF), (0x8010, 0xFF), (0x8011, 0x00), (0x8020, 0x00),
    (0x8021, 0xFF)] : List (Nat × Nat)).foldl
    (fun gb av => mem_w av.1 av.2 gb) cart_loaded

/-- The same machine on line 8, the first row of the bottom half of the sprite. -/
def tall_sprite_line_8_example : gameboy_t :=
  mem_w 0xFF44 8 tall_sprite_example

/-! # Lemmas -/

/-! ## Arithmetic reading of the bit operations -/

theorem and_0F (x : Nat) : x &&& 0x0F = x % 16 := Nat.and_pow_two_sub_one_eq_mod x 4

theorem and_FF (x : Nat) : x &&& 0xFF = x % 256 := Nat.and_pow_two_sub_one_eq_mod x 8

theorem and_07 (x : Nat) : x &&& 0x7 = x % 8 := Nat.and_pow_two_sub_one_eq_mod x 3

theorem and_0FFF (x : Nat) : x &&& 0x0FFF = x % 4096 := Nat.and_pow_two_sub_one_eq_mod x 12

set_option maxRecDepth 100000 in
theorem byte_and_F0 : ∀ y < 256, y &&& 0xF0 = y / 16 * 16 := by decide

theorem and_F0 (x : Nat) : x &&& 0xF0 = x % 256 / 16 * 16 := by
  have h : x &&& 0xF0 = (x &&& 0xFF) &&& 0xF0 := by
    rw [Nat.and_assoc]; rfl
  rw [h, and_FF]
  exact byte_and_F0 _ (Nat.mod_lt _ (by norm_num))

theorem shl_8_or (a b : Nat) (h : b < 256) : (a <<< 8) ||| b = a * 256 + b := by
  have h8 : b < 2 ^ 8 := h
  rw [Nat.shiftLeft_eq, Nat.mul_comm]
  exact (Nat.mul_add_lt_is_or h8 a).symm

theorem LOW_eq (v : Nat) : LOW v = v % 256 := and_FF v

theorem HIGH_eq (v : Nat) : HIGH v = v / 256 % 256 := by
  unfold HIGH
  rw [and_FF, Nat.shiftRight_eq_div_pow]

theorem COMBINE_eq (h l : Nat) (hl : l < 256) : COMBINE h l = h * 256 + l := shl_8_or h l hl


theorem mem_r_lt (address : Nat) (gb : gameboy_t) (hm : ∀ x, gb.memory x < 256) :
    mem_r address gb < 256 := by
  unfold mem_r
  split
  · exact hm address
  · norm_num


theorem decide_eq_not_decide (p q : Prop) [Decidable p] [Decidable q] :
    (decide p = !decide q) ↔ (p ↔ ¬ q) := by
  by_cases hp : p <;> by_cases hq : q <;> simp [hp, hq]

theorem not_decide_eq_decide (p q : Prop) [Decidable p] [Decidable q] :
    ((!decide p) = decide q) ↔ (¬ p ↔ q) := by
  by_cases hp : p <;> by_cases hq : q <;> simp [hp, hq]

theorem shl_or_low (x b i : Nat) (hb : b < 2 ^ i) : (x <<< i) ||| b = x * 2 ^ i + b := by
  rw [Nat.shiftLeft_eq, Nat.mul_comm]
  exact (Nat.mul_add_lt_is_or hb x).symm

theorem or_shl_high (x b i : Nat) (hx : x < 2 ^ i) : x ||| (b <<< i) = x + b * 2 ^ i := by
  rw [Nat.or_comm, shl_or_low b x i hx, Nat.add_comm]

set_option maxRecDepth 100000 in
theorem byte_and_80 : ∀ y < 256, y &&& 0x80 = y / 128 * 128 := by decide

theorem and_80 (x : Nat) : x &&& 0x80 = x % 256 / 128 * 128 := by
  have h : x &&& 0x80 = (x &&& 0xFF) &&& 0x80 := by
    rw [Nat.and_assoc]; rfl
  rw [h, and_FF]
  exact byte_and_80 _ (Nat.mod_lt _ (by norm_num))

theorem shl_1_or (x b : Nat) (hb : b ≤ 1) : (x <<< 1) ||| b = 2 * x + b := by
  rw [shl_or_low x b 1 (by omega)]; omega

theorem shr_1_or (x b : Nat) (hx : x < 256) : (x >>> 1) ||| (b <<< 7) = x / 2 + 128 * b := by
  rw [or_shl_high _ b 7 (by rw [Nat.shiftRight_eq_div_pow]; omega), Nat.shiftRight_eq_div_pow]; omega

theorem shr_1_or_128 (x : Nat) (hx : x < 256) : (x >>> 1) ||| 128 = x / 2 + 128 := by
  have h := shr_1_or x 1 hx
  simpa using h


theorem mem_w_hram (p v : Nat) (gb : gameboy_t) (hp : 0xFF80 ≤ p ∧ p ≤ 0xFFFE) :
    mem_w p v gb = { gb with memory := store gb.memory p v } := by
  have n1 : ¬ (p ≥ 0x0000 ∧ p ≤ 0x1FFF) := by omega
  have n2 : ¬ (p ≥ 0x2000 ∧ p ≤ 0x3FFF) := by omega
  have n3 : ¬ (p ≥ 0x4000 ∧ p ≤ 0x5FFF) := by omega
  have n4 : ¬ (p ≥ 0x6000 ∧ p ≤ 0x7FFF) := by omega
  have n5 : ¬ (p ≥ 0x8000 ∧ p ≤ 0x9FFF) := by omega
  have n6 : ¬ (p ≥ 0xA000 ∧ p ≤ 0xBFFF) := by omega
  have n7 : ¬ (p ≥ 0xC000 ∧ p ≤ 0xDFFF) := by omega
  have n8 : ¬ (p ≥ 0xFE00 ∧ p ≤ 0xFE9F) := by omega
  have n9 : ¬ (p ≥ 0xFF00 ∧ p ≤ 0xFF7F) := by omega
  have y1 : p ≥ 0xFF80 ∧ p ≤ 0xFFFF := by omega
  have y0 : gb.state.dma_transfer = false ∨ (p ≥ 0xFF80 ∧ p ≤ 0xFFFE) := Or.inr hp
  unfold mem_w
  rw [if_pos y0, if_neg n1, if_neg n2, if_neg n3, if_neg n4, if_neg n5, if_neg n6, if_neg n7,
    if_neg n8, if_neg n9, if_pos y1]

theorem mem_w_wram (p v : Nat) (gb : gameboy_t) (hdma : gb.state.dma_transfer = false)
    (hp : 0xC000 ≤ p ∧ p ≤ 0xDFFF) :
    mem_w p v gb =
      { gb with memory :=
          if p ≤ 0xDDFF then store (store gb.memory p v) (p + 0x2000) v else store gb.memory p v } := by
  have n1 : ¬ (p ≥ 0x0000 ∧ p ≤ 0x1FFF) := by omega
  have n2 : ¬ (p ≥ 0x2000 ∧ p ≤ 0x3FFF) := by omega
  have n3 : ¬ (p ≥ 0x4000 ∧ p ≤ 0x5FFF) := by omega
  have n4 : ¬ (p ≥ 0x6000 ∧ p ≤ 0x7FFF) := by omega
  have n5 : ¬ (p ≥ 0x8000 ∧ p ≤ 0x9FFF) := by omega
  have n6 : ¬ (p ≥ 0xA000 ∧ p ≤ 0xBFFF) := by omega
  have y1 : p ≥ 0xC000 ∧ p ≤ 0xDFFF := by omega
  have y0 : gb.state.dma_transfer = false ∨ (p ≥ 0xFF80 ∧ p ≤ 0xFFFE) := Or.inl hdma
  unfold mem_w
  rw [if_pos y0, if_neg n1, if_neg n2, if_neg n3, if_neg n4, if_neg n5, if_neg n6, if_pos y1]
  by_cases h : p ≤ 0xDDFF
  · simp only [h, if_true]
  · simp only [h, if_false]

theorem mem_r_ram (p : Nat) (gb : gameboy_t) (hdma : gb.state.dma_transfer = false)
    (hp : in_hram_or_wram p) : mem_r p gb = gb.memory p := by
  unfold in_hram_or_wram at hp
  unfold mem_r
  rw [if_pos]
  refine ⟨?_, ?_, ?_⟩ <;> simp [hdma] <;> omega

/-- A write to HRAM or WRAM with no DMA in progress changes only `memory`: the cell
written holds the value, and every other HRAM or WRAM cell keeps its content. -/
theorem mem_w_ram (p v : Nat) (gb : gameboy_t) (hdma : gb.state.dma_transfer = false)
    (hp : in_hram_or_wram p) :
    ∃ m, mem_w p v gb = { gb with memory := m } ∧ m p = v ∧
      ∀ q, in_hram_or_wram q → q ≠ p → m q = gb.memory q := by
  rcases hp with hp | hp
  · refine ⟨_, mem_w_hram p v gb hp, by simp [store], ?_⟩
    intro q _ hq
    simp [store, hq]
  · refine ⟨_, mem_w_wram p v gb hdma hp, ?_, ?_⟩
    · split_ifs <;> simp [store]
    · intro q hq hqp
      unfold in_hram_or_wram at hq
      split_ifs <;> simp only [store] <;> split_ifs <;> first | rfl | omega


theorem HIGH_COMBINE (h l : Nat) (hh : h < 256) (hl : l < 256) : HIGH (COMBINE h l) = h := by
  rw [COMBINE_eq h l hl, HIGH_eq]; omega

theorem LOW_COMBINE (h l : Nat) (hl : l < 256) : LOW (COMBINE h l) = l := by
  rw [COMBINE_eq h l hl, LOW_eq]; omega

theorem HIGH_lt (v : Nat) : HIGH v < 256 := by
  rw [HIGH_eq]; omega

theorem LOW_lt (v : Nat) : LOW v < 256 := by
  rw [LOW_eq]; omega

/-- Two bytes pushed and then popped come back, and the registers and the
`state_t` bits are as before the pushes. -/
theorem push_pop_bytes (gb : gameboy_t) (hi lo n : Nat) (hsp : gb.registers.sp < 65536)
    (hdma : gb.state.dma_transfer = false)
    (h1 : in_hram_or_wram ((gb.registers.sp + 65535) % 65536))
    (h2 : in_hram_or_wram ((gb.registers.sp + 65534) % 65536)) :
    (pop8 (add_cycles n (push8 lo (push8 hi gb)))).1 = lo ∧
    (pop8 (pop8 (add_cycles n (push8 lo (push8 hi gb)))).2).1 = hi ∧
    (pop8 (pop8 (add_cycles n (push8 lo (push8 hi gb)))).2).2.registers = gb.registers := by
  rcases gb with ⟨⟨f, a, c, b, e, d, l, h, sp, pc⟩, st, cyc, cs, mem, rom, ram, fb, rb, rab, ss, nss, rps, kd⟩
  simp only at hsp hdma h1 h2
  have e21 : ((sp + 65535) % 65536 + 65535) % 65536 = (sp + 65534) % 65536 := by omega
  have e12 : ((sp + 65534) % 65536 + 1) % 65536 = (sp + 65535) % 65536 := by omega
  have e10 : ((sp + 65535) % 65536 + 1) % 65536 = sp := by omega
  have ne : (sp + 65535) % 65536 ≠ (sp + 65534) % 65536 := by omega
  simp only [push8]
  obtain ⟨m1, hm1, hm1p, -⟩ := mem_w_ram ((sp + 65535) % 65536) hi
    { registers := ⟨f, a, c, b, e, d, l, h, (sp + 65535) % 65536, pc⟩, state := st, op_cycles := cyc,
      cycles := cs, memory := mem, rom := rom, ram := ram, framebuffer := fb, rom_bank := rb,
      ram_bank := rab, scanline_sprites := ss, num_scanline_sprites := nss, rom_path_set := rps,
      key_down := kd } hdma h1
  rw [hm1]
  simp only [e21]
  obtain ⟨m2, hm2, hm2p, hm2q⟩ := mem_w_ram ((sp + 65534) % 65536) lo
    { registers := ⟨f, a, c, b, e, d, l, h, (sp + 65534) % 65536, pc⟩, state := st, op_cycles := cyc,
      cycles := cs, memory := m1, rom := rom, ram := ram, framebuffer := fb, rom_bank := rb,
      ram_bank := rab, scanline_sprites := ss, num_scanline_sprites := nss, rom_path_set := rps,
      key_down := kd } hdma h2
  rw [hm2]
  have hq := hm2q _ h1 ne
  simp only at hq
  simp only [pop8, add_cycles, e12, e10]
  refine ⟨?_, ?_, trivial⟩
  · rw [mem_r_ram _ _ hdma h2]; exact hm2p
  · rw [mem_r_ram _ _ hdma h1]; simp only; rw [hq]; exact hm1p


theorem flags_byte_lt (f : register_flags_t) : f.byte < 256 := by
  unfold register_flags_t.byte
  have h0 : f.invalid &&& 0x0F < 2 ^ 8 := by rw [and_0F]; omega
  have hb : ∀ (b : Bool) (i : Nat), i < 8 → b.toNat <<< i < 2 ^ 8 := by
    intro b i hi
    interval_cases i <;> cases b <;> simp
  exact Nat.or_lt_two_pow (Nat.or_lt_two_pow (Nat.or_lt_two_pow (Nat.or_lt_two_pow
    (hb _ 7 (by norm_num)) (hb _ 6 (by norm_num))) (hb _ 5 (by norm_num))) (hb _ 4 (by norm_num))) h0

theorem flags_ofByte_byte (f : register_flags_t) (hf : f.invalid < 16) :
    register_flags_t.ofByte f.byte = f := by
  rcases f with ⟨inv, c, h, n, z⟩
  simp only at hf
  interval_cases inv <;> cases c <;> cases h <;> cases n <;> cases z <;> rfl



theorem r8_low_r_eq (op : Nat) (gb : gameboy_t) :
    r8_low_r op gb = (operand8 (op % 8) gb, if op % 8 = 6 then add_cycles 4 gb else gb) := by
  have h : op % 16 < 16 := Nat.mod_lt _ (by norm_num)
  have h8 : op % 8 = op % 16 % 8 := by omega
  unfold r8_low_r
  simp only [and_0F]
  rw [h8]
  generalize op % 16 = k at h
  interval_cases k <;> simp [operand8, reg8]

theorem r8_low_w_hl (op v : Nat) (gb : gameboy_t) (h6 : op % 8 = 6) :
    r8_low_w op v gb = add_cycles 4 (mem_w gb.registers.hl v gb) := by
  have h : op % 16 = 6 ∨ op % 16 = 14 := by omega
  unfold r8_low_w
  simp only [and_0F]
  rcases h with h | h <;> simp [h]

theorem r8_low_w_reg (op v : Nat) (gb : gameboy_t) (h6 : op % 8 ≠ 6) :
    reg8 (op % 8) (r8_low_w op v gb).registers = v ∧
    (r8_low_w op v gb).registers.f = gb.registers.f := by
  have h : op % 16 < 16 := Nat.mod_lt _ (by norm_num)
  have h8 : op % 8 = op % 16 % 8 := by omega
  unfold r8_low_w
  simp only [and_0F]
  rw [h8] at h6 ⊢
  generalize op % 16 = k at h h6
  interval_cases k <;> simp [reg8] at h6 ⊢


theorem set_mode_registers (mode : lcd_mode_e) (gb : gameboy_t) :
    (set_mode mode gb).registers = gb.registers := by
  unfold set_mode set_mem_bit
  cases mode <;> simp only <;> split_ifs <;> rfl

theorem set_ly_registers (value : Nat) (gb : gameboy_t) :
    (set_ly value gb).registers = gb.registers := by
  unfold set_ly set_mem_bit
  simp only
  split_ifs <;> rfl

theorem joypad_poll_registers (gb : gameboy_t) : (joypad_poll gb).registers = gb.registers := by
  unfold joypad_poll set_mem_bit
  simp only
  split_ifs <;> rfl

theorem set_rom_bank_registers (bank : Nat) (gb : gameboy_t) :
    (set_rom_bank bank gb).registers = gb.registers := by
  unfold set_rom_bank
  simp only
  split_ifs <;> rfl

theorem set_ram_bank_registers (bank : Nat) (gb : gameboy_t) :
    (set_ram_bank bank gb).registers = gb.registers := by
  unfold set_ram_bank
  simp only
  split_ifs <;> rfl

theorem joypad_irq_registers (old_value address : Nat) (l : List Nat) (gb : gameboy_t) :
    (l.foldl
      (fun gb i =>
        if (old_value &&& (1 <<< i)) ≠ 0 ∧ (gb.memory address &&& (1 <<< i)) = 0 then
          set_mem_bit gb 0xFF0F 4 true
        else gb)
      gb).registers = gb.registers := by
  induction l generalizing gb with
  | nil => rfl
  | cons i l ih =>
    rw [List.foldl_cons, ih]
    split_ifs <;> rfl

theorem io_w_registers (address value old_value : Nat) (gb : gameboy_t) :
    (io_w address value old_value gb).registers = gb.registers := by
  unfold io_w
  simp only
  split_ifs
  · rw [joypad_irq_registers, joypad_poll_registers]
  · rfl
  · rw [set_ly_registers, set_mode_registers]
  · rfl
  · rfl
  · rfl
  · rfl
  · rfl

/-- The bus never writes a CPU register. -/
theorem mem_w_registers (address value : Nat) (gb : gameboy_t) :
    (mem_w address value gb).registers = gb.registers := by
  unfold mem_w
  simp only [apply_ite gameboy_t.registers, set_rom_bank_registers, set_ram_bank_registers,
    io_w_registers, ite_self]


set_option maxRecDepth 100000 in
theorem byte_cb_bit : ∀ op < 256, cb_bit op = (op >>> 3) &&& 0x7 := by decide

theorem and_one_shl_eq_zero (v b : Nat) : (v &&& (1 <<< b) = 0) ↔ Nat.testBit v b = false := by
  rw [Nat.one_shiftLeft]
  constructor
  · intro h
    have := congrArg (fun x => Nat.testBit x b) h
    simpa [Nat.testBit_two_pow_self] using this
  · intro h
    apply Nat.eq_of_testBit_eq
    intro j
    rw [Nat.testBit_and, Nat.testBit_two_pow, Nat.zero_testBit]
    by_cases hj : b = j
    · subst hj; simp [h]
    · simp [hj]

theorem testBit_byte_high (v j : Nat) (hv : v < 256) (hj : 8 ≤ j) : Nat.testBit v j = false := by
  apply Nat.testBit_lt_two_pow
  calc v < 2 ^ 8 := hv
    _ ≤ 2 ^ j := Nat.pow_le_pow_right (by norm_num) hj

theorem testBit_res (v b j : Nat) (hv : v < 256) (hb : b < 8) :
    Nat.testBit (v &&& (0xFF ^^^ (1 <<< b))) j = if j = b then false else Nat.testBit v j := by
  have hFF : Nat.testBit 0xFF j = decide (j < 8) := Nat.testBit_two_pow_sub_one 8 j
  rw [Nat.testBit_and, Nat.testBit_xor, Nat.one_shiftLeft, Nat.testBit_two_pow, hFF]
  by_cases hj : j = b
  · subst hj; simp [hb]
  · have hj2 : ¬ b = j := fun h => hj h.symm
    by_cases h8 : j < 8
    · simp [hj, hj2, h8]
    · simp [hj, hj2, h8, testBit_byte_high v j hv (by omega)]

theorem testBit_set (v b j : Nat) (hv : v < 256) (hb : b < 8) :
    Nat.testBit ((v ||| (1 <<< b)) % 256) j = if j = b then true else Nat.testBit v j := by
  have h256 : (256 : Nat) = 2 ^ 8 := by norm_num
  rw [h256, Nat.testBit_mod_two_pow, Nat.testBit_or, Nat.one_shiftLeft, Nat.testBit_two_pow]
  by_cases hj : j = b
  · subst hj; simp [hb]
  · have hj2 : ¬ b = j := fun h => hj h.symm
    by_cases h8 : j < 8
    · simp [hj, hj2, h8]
    · simp [hj, hj2, h8, testBit_byte_high v j hv (by omega)]

theorem operand8_lt (i : Nat) (gb : gameboy_t) (hwf : gb.wf) : operand8 i gb < 256 := by
  obtain ⟨⟨_, ha, hc, hb, he, hd, hl, hh, _, _⟩, hm⟩ := hwf
  unfold operand8 reg8
  split_ifs <;> first | assumption | exact mem_r_lt _ _ hm


theorem execute_cb_op_bit (op : Nat) (gb : gameboy_t) (hop : 0x40 ≤ op ∧ op < 0x80) :
    execute_cb_op op gb =
      add_cycles 4
        { (if op % 8 = 6 then add_cycles 4 gb else gb) with
          registers.f.h := true
          registers.f.n := false
          registers.f.z := decide ((operand8 (op % 8) gb &&& (1 <<< ((op >>> 3) &&& 0x7))) = 0) } := by
  have c0 : ¬ (op % 256 / 16 * 16 = 0x00) := by omega
  have c1 : ¬ (op % 256 / 16 * 16 = 0x10) := by omega
  have c2 : ¬ (op % 256 / 16 * 16 = 0x20) := by omega
  have c3 : ¬ (op % 256 / 16 * 16 = 0x30) := by omega
  have c4 : op % 256 / 16 * 16 = 0x40 ∨ op % 256 / 16 * 16 = 0x50 ∨ op % 256 / 16 * 16 = 0x60 ∨
      op % 256 / 16 * 16 = 0x70 := by omega
  unfold execute_cb_op
  simp only [and_F0, c0, c1, c2, c3, c4, if_true, if_false, r8_low_r_eq, byte_cb_bit op (by omega)]

theorem execute_cb_op_res (op : Nat) (gb : gameboy_t) (hop : 0x80 ≤ op ∧ op < 0xC0) :
    execute_cb_op op gb =
      add_cycles 4
        (r8_low_w op (operand8 (op % 8) gb &&& (0xFF ^^^ (1 <<< ((op >>> 3) &&& 0x7))))
          (if op % 8 = 6 then add_cycles 4 gb else gb)) := by
  have c0 : ¬ (op % 256 / 16 * 16 = 0x00) := by omega
  have c1 : ¬ (op % 256 / 16 * 16 = 0x10) := by omega
  have c2 : ¬ (op % 256 / 16 * 16 = 0x20) := by omega
  have c3 : ¬ (op % 256 / 16 * 16 = 0x30) := by omega
  have c4 : ¬ (op % 256 / 16 * 16 = 0x40 ∨ op % 256 / 16 * 16 = 0x50 ∨ op % 256 / 16 * 16 = 0x60 ∨
      op % 256 / 16 * 16 = 0x70) := by omega
  have c5 : op % 256 / 16 * 16 = 0x80 ∨ op % 256 / 16 * 16 = 0x90 ∨ op % 256 / 16 * 16 = 0xA0 ∨
      op % 256 / 16 * 16 = 0xB0 := by omega
  unfold execute_cb_op
  simp only [and_F0, c0, c1, c2, c3, c4, c5, if_true, if_false, r8_low_r_eq, byte_cb_bit op (by omega)]

theorem execute_cb_op_set (op : Nat) (gb : gameboy_t) (hop : 0xC0 ≤ op ∧ op ≤ 0xFF) :
    execute_cb_op op gb =
      add_cycles 4
        (r8_low_w op ((operand8 (op % 8) gb ||| (1 <<< ((op >>> 3) &&& 0x7))) % 256)
          (if op % 8 = 6 then add_cycles 4 gb else gb)) := by
  have c0 : ¬ (op % 256 / 16 * 16 = 0x00) := by omega
  have c1 : ¬ (op % 256 / 16 * 16 = 0x10) := by omega
  have c2 : ¬ (op % 256 / 16 * 16 = 0x20) := by omega
  have c3 : ¬ (op % 256 / 16 * 16 = 0x30) := by omega
  have c4 : ¬ (op % 256 / 16 * 16 = 0x40 ∨ op % 256 / 16 * 16 = 0x50 ∨ op % 256 / 16 * 16 = 0x60 ∨
      op % 256 / 16 * 16 = 0x70) := by omega
  have c5 : ¬ (op % 256 / 16 * 16 = 0x80 ∨ op % 256 / 16 * 16 = 0x90 ∨ op % 256 / 16 * 16 = 0xA0 ∨
      op % 256 / 16 * 16 = 0xB0) := by omega
  have c6 : op % 256 / 16 * 16 = 0xC0 ∨ op % 256 / 16 * 16 = 0xD0 ∨ op % 256 / 16 * 16 = 0xE0 ∨
      op % 256 / 16 * 16 = 0xF0 := by omega
  unfold execute_cb_op
  simp only [and_F0, c0, c1, c2, c3, c4, c5, c6, if_true, if_false, r8_low_r_eq, byte_cb_bit op (by omega)]



/-- What DAA leaves after an addition (N clear), as arithmetic on A, H and C. -/
theorem daa_after_add (gb : gameboy_t) (hn : gb.registers.f.n = false) :
    let a := gb.registers.a
    let a1 := if gb.registers.f.c = true ∨ a > 0x99 then (a + 0x60) % 256 else a
    let a2 := if gb.registers.f.h = true ∨ a1 % 16 > 9 then (a1 + 0x06) % 256 else a1
    (daa gb).registers.a = a2 ∧
    (daa gb).registers.f.c = (gb.registers.f.c || decide (a > 0x99)) ∧
    (daa gb).registers.f.h = false ∧
    (daa gb).registers.f.z = decide (a2 = 0) := by
  rcases gb with ⟨⟨⟨inv, c, h, n, z⟩, a, rc, rb, re, rd, rl, rh, sp, pc⟩, st, cyc, cs, mem, rom, ram, fb, rb, rab, ss, nss, rps, kd⟩
  simp only at hn
  subst hn
  cases h <;> cases c <;>
  simp [daa, add_cycles, and_0F] <;>
  (first | done | (split_ifs <;> simp_all))

/-- What DAA leaves after a subtraction (N set), as arithmetic on A, H and C. -/
theorem daa_after_sub (gb : gameboy_t) (hn : gb.registers.f.n = true) :
    let a := gb.registers.a
    let a1 := if gb.registers.f.c = true then (a + 256 - 0x60) % 256 else a
    let a2 := if gb.registers.f.h = true then (a1 + 256 - 0x06) % 256 else a1
    (daa gb).registers.a = a2 ∧
    (daa gb).registers.f.c = gb.registers.f.c ∧
    (daa gb).registers.f.h = false ∧
    (daa gb).registers.f.z = decide (a2 = 0) := by
  rcases gb with ⟨⟨⟨inv, c, h, n, z⟩, a, rc, rb, re, rd, rl, rh, sp, pc⟩, st, cyc, cs, mem, rom, ram, fb, rb, rab, ss, nss, rps, kd⟩
  simp only at hn
  subst hn
  cases h <;> cases c <;>
  simp [daa, add_cycles, and_0F]


set_option maxRecDepth 1000000 in
theorem bcd_add_table :
    (List.range 100).all (fun x => (List.range 100).all (fun y => bcd_add_check x y)) = true := by
  decide!

set_option maxRecDepth 1000000 in
theorem bcd_sub_table :
    (List.range 100).all (fun x => (List.range 100).all (fun y => bcd_sub_check x y)) = true := by
  decide!

theorem blt_eq_decide (a b : Nat) : Nat.blt a b = decide (a < b) := by
  rw [Bool.eq_iff_iff]
  simp [Nat.blt_eq]

theorem ble_eq_decide (a b : Nat) : Nat.ble a b = decide (a ≤ b) := by
  rw [Bool.eq_iff_iff]
  simp [Nat.ble_eq]

theorem beq_eq_decide (a b : Nat) : Nat.beq a b = decide (a = b) := by
  rw [Bool.eq_iff_iff]
  simp [Nat.beq_eq]

theorem bcd_add_adjust (x y : Nat) (hx : x < 100) (hy : y < 100) :
    let a := (bcd x + bcd y) % 256
    let a1 := if a < bcd x ∨ a > 0x99 then (a + 0x60) % 256 else a
    let a2 := if a % 16 < bcd x % 16 ∨ a1 % 16 > 9 then (a1 + 0x06) % 256 else a1
    a2 = bcd ((x + y) % 100) ∧
      (decide (a < bcd x) || decide (a > 0x99)) = decide (100 ≤ x + y) := by
  have h := bcd_add_table
  rw [List.all_eq_true] at h
  have h2 := h x (List.mem_range.2 hx)
  rw [List.all_eq_true] at h2
  have h3 := h2 y (List.mem_range.2 hy)
  simpa [bcd_add_check, blt_eq_decide, ble_eq_decide, beq_eq_decide, Bool.cond_eq_ite] using h3

theorem bcd_sub_adjust (x y : Nat) (hx : x < 100) (hy : y < 100) :
    let a := (bcd x + 256 - bcd y) % 256
    let a1 := if a > bcd x then (a + 256 - 0x60) % 256 else a
    let a2 := if a % 16 > bcd x % 16 then (a1 + 256 - 0x06) % 256 else a1
    a2 = bcd ((x + 100 - y) % 100) ∧ (a > bcd x ↔ x < y) := by
  have h := bcd_sub_table
  rw [List.all_eq_true] at h
  have h2 := h x (List.mem_range.2 hx)
  rw [List.all_eq_true] at h2
  have h3 := h2 y (List.mem_range.2 hy)
  simpa [bcd_sub_check, blt_eq_decide, ble_eq_decide, beq_eq_decide, Bool.cond_eq_ite] using h3

/-! ## Which case an opcode selects -/

theorem execute_op_add (op : Nat) (gb : gameboy_t)
    (hop : op ∈ [0x80, 0x81, 0x82, 0x83, 0x84, 0x85, 0x86, 0x87, 0xC6]) :
    execute_op op gb = op_add op gb := by
  simp only [List.mem_cons, List.mem_singleton, List.not_mem_nil, or_false] at hop
  rcases hop with rfl | rfl | rfl | rfl | rfl | rfl | rfl | rfl | rfl <;> rfl

theorem execute_op_adc (op : Nat) (gb : gameboy_t)
    (hop : op ∈ [0x88, 0x89, 0x8A, 0x8B, 0x8C, 0x8D, 0x8E, 0x8F, 0xCE]) :
    execute_op op gb = op_adc op gb := by
  simp only [List.mem_cons, List.mem_singleton, List.not_mem_nil, or_false] at hop
  rcases hop with rfl | rfl | rfl | rfl | rfl | rfl | rfl | rfl | rfl <;> rfl

theorem execute_op_sub (op : Nat) (gb : gameboy_t)
    (hop : op ∈ [0x90, 0x91, 0x92, 0x93, 0x94, 0x95, 0x96, 0x97, 0xD6]) :
    execute_op op gb = op_sub op gb := by
  simp only [List.mem_cons, List.mem_singleton, List.not_mem_nil, or_false] at hop
  rcases hop with rfl | rfl | rfl | rfl | rfl | rfl | rfl | rfl | rfl <;> rfl

theorem execute_op_sbc (op : Nat) (gb : gameboy_t)
    (hop : op ∈ [0x98, 0x99, 0x9A, 0x9B, 0x9C, 0x9D, 0x9E, 0x9F, 0xDE]) :
    execute_op op gb = op_sbc op gb := by
  simp only [List.mem_cons, List.mem_singleton, List.not_mem_nil, or_false] at hop
  rcases hop with rfl | rfl | rfl | rfl | rfl | rfl | rfl | rfl | rfl <;> rfl

theorem execute_op_cp (op : Nat) (gb : gameboy_t)
    (hop : op ∈ [0xB8, 0xB9, 0xBA, 0xBB, 0xBC, 0xBD, 0xBE, 0xBF, 0xFE]) :
    execute_op op gb = op_cp op gb := by
  simp only [List.mem_cons, List.mem_singleton, List.not_mem_nil, or_false] at hop
  rcases hop with rfl | rfl | rfl | rfl | rfl | rfl | rfl | rfl | rfl <;> rfl

theorem execute_op_daa (gb : gameboy_t) : execute_op 0x27 gb = daa gb := rfl

theorem execute_op_push (op : Nat) (gb : gameboy_t) (hop : op ∈ [0xC5, 0xD5, 0xE5, 0xF5]) :
    execute_op op gb = op_push op gb := by
  simp only [List.mem_cons, List.mem_singleton, List.not_mem_nil, or_false] at hop
  rcases hop with rfl | rfl | rfl | rfl <;> rfl

theorem execute_op_pop (op : Nat) (gb : gameboy_t) (hop : op ∈ [0xC1, 0xD1, 0xE1, 0xF1]) :
    execute_op op gb = op_pop op gb := by
  simp only [List.mem_cons, List.mem_singleton, List.not_mem_nil, or_false] at hop
  rcases hop with rfl | rfl | rfl | rfl <;> rfl

theorem execute_op_rotate_a (op : Nat) (gb : gameboy_t) (hop : op ∈ [0x07, 0x17, 0x0F, 0x1F]) :
    execute_op op gb = op_rotate_a op gb := by
  simp only [List.mem_cons, List.mem_singleton, List.not_mem_nil, or_false] at hop
  rcases hop with rfl | rfl | rfl | rfl <;> rfl

theorem execute_op_inc_r8 (op : Nat) (gb : gameboy_t)
    (hop : op ∈ [0x04, 0x14, 0x24, 0x34, 0x0C, 0x1C, 0x2C, 0x3C]) :
    execute_op op gb = op_inc_r8 op gb := by
  simp only [List.mem_cons, List.mem_singleton, List.not_mem_nil, or_false] at hop
  rcases hop with rfl | rfl | rfl | rfl | rfl | rfl | rfl | rfl <;> rfl

theorem execute_op_dec_r8 (op : Nat) (gb : gameboy_t)
    (hop : op ∈ [0x05, 0x15, 0x25, 0x35, 0x0D, 0x1D, 0x2D, 0x3D]) :
    execute_op op gb = op_dec_r8 op gb := by
  simp only [List.mem_cons, List.mem_singleton, List.not_mem_nil, or_false] at hop
  rcases hop with rfl | rfl | rfl | rfl | rfl | rfl | rfl | rfl <;> rfl

theorem op_push_eq (op : Nat) (gb : gameboy_t) :
    op_push op gb =
      add_cycles 16 (push8 (LOW (r16_r op gb)) (push8 (HIGH (r16_r op gb)) gb)) := rfl

theorem op_pop_eq (op : Nat) (gb : gameboy_t) :
    op_pop op gb =
      add_cycles 12 (r16_w op (COMBINE (pop8 (pop8 gb).2).1 (pop8 gb).1) (pop8 (pop8 gb).2).2) := rfl

/-! ## The eight-bit ALU cases -/

theorem alu_operand_fst (op imm : Nat) (gb : gameboy_t) :
    (alu_operand op imm gb).1 = alu_source op imm gb := by
  unfold alu_operand alu_source
  split_ifs
  · rfl
  · rw [r8_low_r_eq]

theorem alu_operand_snd (op imm : Nat) (gb : gameboy_t) :
    (alu_operand op imm gb).2.registers.a = gb.registers.a ∧
    (alu_operand op imm gb).2.registers.f = gb.registers.f := by
  unfold alu_operand
  split_ifs
  · exact ⟨rfl, rfl⟩
  · rw [r8_low_r_eq]
    split_ifs <;> exact ⟨rfl, rfl⟩

theorem op_add_regs (op : Nat) (gb : gameboy_t) :
    let a := gb.registers.a
    let s := alu_source op 0xC6 gb
    (op_add op gb).registers.a = (a + s) % 256 ∧
    (op_add op gb).registers.f.c = decide ((a + s) % 256 < a) ∧
    (op_add op gb).registers.f.h = decide ((a + s) % 256 % 16 < a % 16) ∧
    (op_add op gb).registers.f.n = false ∧
    (op_add op gb).registers.f.z = decide ((a + s) % 256 = 0) := by
  have h1 := alu_operand_fst op 0xC6 gb
  obtain ⟨h2, -⟩ := alu_operand_snd op 0xC6 gb
  rcases hq : alu_operand op 0xC6 gb with ⟨operand, gb1⟩
  rw [hq] at h1 h2
  simp only at h1 h2
  simp [op_add, hq, set_chnz, alu_cycles, add_cycles, and_0F, h1, h2]

theorem op_adc_regs (op : Nat) (gb : gameboy_t) :
    let a := gb.registers.a
    let s := alu_source op 0xCE gb
    let cin := gb.registers.f.c.toNat
    (op_adc op gb).registers.a = (a + s + cin) % 65536 % 256 ∧
    (op_adc op gb).registers.f.c = decide ((a + s + cin) % 65536 > 0xFF) ∧
    (op_adc op gb).registers.f.h = decide (a % 16 + s % 16 + cin > 0x0F) ∧
    (op_adc op gb).registers.f.n = false ∧
    (op_adc op gb).registers.f.z = decide ((a + s + cin) % 65536 % 256 = 0) := by
  have h1 := alu_operand_fst op 0xCE gb
  obtain ⟨h2, h3⟩ := alu_operand_snd op 0xCE gb
  rcases hq : alu_operand op 0xCE gb with ⟨operand, gb1⟩
  rw [hq] at h1 h2 h3
  simp only at h1 h2 h3
  simp [op_adc, hq, set_chnz, alu_cycles, add_cycles, and_0F, h1, h2, h3]

theorem op_sub_regs (op : Nat) (gb : gameboy_t) :
    let a := gb.registers.a
    let s := alu_source op 0xD6 gb
    let r := (((a : Int) - s) % 256).toNat
    (op_sub op gb).registers.a = r ∧
    (op_sub op gb).registers.f.c = decide (r > a) ∧
    (op_sub op gb).registers.f.h = decide (r % 16 > a % 16) ∧
    (op_sub op gb).registers.f.n = true ∧
    (op_sub op gb).registers.f.z = decide (r = 0) := by
  have h1 := alu_operand_fst op 0xD6 gb
  obtain ⟨h2, -⟩ := alu_operand_snd op 0xD6 gb
  rcases hq : alu_operand op 0xD6 gb with ⟨operand, gb1⟩
  rw [hq] at h1 h2
  simp only at h1 h2
  simp [op_sub, hq, set_chnz, alu_cycles, add_cycles, and_0F, h1, h2]

theorem op_sbc_regs (op : Nat) (gb : gameboy_t) :
    let a : Int := gb.registers.a
    let s : Int := alu_source op 0xDE gb
    let cin : Int := gb.registers.f.c.toNat
    let a_nibble : Int := (gb.registers.a % 16 : Nat)
    let s_nibble : Int := (alu_source op 0xDE gb % 16 : Nat)
    (op_sbc op gb).registers.a = ((a - s - cin) % 256).toNat ∧
    (op_sbc op gb).registers.f.c = decide (a - s - cin < 0) ∧
    (op_sbc op gb).registers.f.h = decide (a_nibble - s_nibble - cin < 0) ∧
    (op_sbc op gb).registers.f.n = true ∧
    (op_sbc op gb).registers.f.z = decide (((a - s - cin) % 256).toNat = 0) := by
  have h1 := alu_operand_fst op 0xDE gb
  obtain ⟨h2, h3⟩ := alu_operand_snd op 0xDE gb
  rcases hq : alu_operand op 0xDE gb with ⟨operand, gb1⟩
  rw [hq] at h1 h2 h3
  simp only at h1 h2 h3
  simp [op_sbc, hq, set_chnz, alu_cycles, add_cycles, and_0F, h1, h2, h3]

theorem op_cp_regs (op : Nat) (gb : gameboy_t) :
    let a := gb.registers.a
    let s := alu_source op 0xFE gb
    (op_cp op gb).registers.a = a ∧
    (op_cp op gb).registers.f.c = decide (a < s) ∧
    (op_cp op gb).registers.f.h = decide (a % 16 < s % 16) ∧
    (op_cp op gb).registers.f.n = true ∧
    (op_cp op gb).registers.f.z = decide (a = s) := by
  have h1 := alu_operand_fst op 0xFE gb
  obtain ⟨h2, -⟩ := alu_operand_snd op 0xFE gb
  rcases hq : alu_operand op 0xFE gb with ⟨operand, gb1⟩
  rw [hq] at h1 h2
  simp only at h1 h2
  simp [op_cp, hq, set_chnz, alu_cycles, add_cycles, and_0F, h1, h2]

theorem alu_source_lt (op imm : Nat) (gb : gameboy_t) (hwf : gb.wf) :
    alu_source op imm gb < 256 := by
  unfold alu_source
  split_ifs
  · exact mem_r_lt _ _ hwf.2
  · exact operand8_lt _ _ hwf

/-! ## The example states are in range -/

theorem gb_zero_wf : gb_zero.wf := by
  unfold gameboy_t.wf
  exact ⟨by decide, fun _ => by show (0 : Nat) < 256; decide⟩

theorem stack_example_wf : stack_example.wf := by
  unfold gameboy_t.wf
  exact ⟨by decide, fun _ => by show (0 : Nat) < 256; decide⟩

theorem adc_example_wf : adc_example.wf := by
  unfold gameboy_t.wf
  exact ⟨by decide, fun _ => by show (0 : Nat) < 256; decide⟩

theorem sbc_example_wf : sbc_example.wf := by
  unfold gameboy_t.wf
  exact ⟨by decide, fun _ => by show (0 : Nat) < 256; decide⟩

theorem inc_example_wf : inc_example.wf := by
  unfold gameboy_t.wf
  exact ⟨by decide, fun _ => by show (0 : Nat) < 256; decide⟩

theorem bit_example_wf : bit_example.wf := by
  unfold gameboy_t.wf
  refine ⟨by decide, fun x => ?_⟩
  show (if x = 0xFF80 then 0x01 else 0) < 256
  split_ifs <;> decide

/-! # Claims C1 to C10 -/

/-- C1 (code defect): POP AF (0xF1) run from a state whose F has a zero low nibble,
with the bytes 0xFF, 0x12 on the stack, leaves AF = 0x12FF: the popped low byte is
stored unmasked, so the low nibble of F is 0xF after the instruction. -/
theorem pop_af_stores_low_nibble_unmasked :
    pop_af_example.registers.af &&& 0x0F = 0 ∧
    (execute_op 0xF1 pop_af_example).registers.af = 0x12FF ∧
    (execute_op 0xF1 pop_af_example).registers.af &&& 0x0F = 0x0F := by
  decide

/-- C2: with no DMA in progress and SP-1, SP-2 in HRAM or WRAM, PUSH rr followed by
POP rr restores both bytes of BC, DE, HL and AF (A and the whole F) and restores SP. -/
theorem push_pop_restores_pair (gb : gameboy_t) (hwf : gb.wf)
    (hdma : gb.state.dma_transfer = false)
    (h1 : in_hram_or_wram ((gb.registers.sp + 65535) % 65536))
    (h2 : in_hram_or_wram ((gb.registers.sp + 65534) % 65536)) :
    let bc := execute_op 0xC1 (execute_op 0xC5 gb)
    let de := execute_op 0xD1 (execute_op 0xD5 gb)
    let hl := execute_op 0xE1 (execute_op 0xE5 gb)
    let af := execute_op 0xF1 (execute_op 0xF5 gb)
    (bc.registers.b = gb.registers.b ∧ bc.registers.c = gb.registers.c ∧
      bc.registers.sp = gb.registers.sp) ∧
    (de.registers.d = gb.registers.d ∧ de.registers.e = gb.registers.e ∧
      de.registers.sp = gb.registers.sp) ∧
    (hl.registers.h = gb.registers.h ∧ hl.registers.l = gb.registers.l ∧
      hl.registers.sp = gb.registers.sp) ∧
    (af.registers.a = gb.registers.a ∧ af.registers.f = gb.registers.f ∧
      af.registers.sp = gb.registers.sp) := by
  obtain ⟨⟨hinv, ha, hc, hb, he, hd, hl, hh, hsp, _⟩, hm⟩ := hwf
  have key := fun hi lo => push_pop_bytes gb hi lo 16 hsp hdma h1 h2
  have hfb := flags_byte_lt gb.registers.f
  have hff := flags_ofByte_byte gb.registers.f hinv
  refine ⟨?_, ?_, ?_, ?_⟩
  · obtain ⟨k1, k2, k3⟩ := key (HIGH (r16_r 0xC5 gb)) (LOW (r16_r 0xC5 gb))
    rw [execute_op_push 0xC5 gb (by decide), execute_op_pop 0xC1 _ (by decide), op_push_eq,
      op_pop_eq, k1, k2]
    generalize (pop8 (pop8 (add_cycles 16 (push8 (LOW (r16_r 0xC5 gb)) (push8 (HIGH (r16_r 0xC5 gb)) gb)))).2).2 = g at k3
    simp [r16_w, r16_r, r16_rw, and_F0, add_cycles, k3, registers_t.set_bc, registers_t.bc,
      HIGH_COMBINE _ _ (HIGH_lt _) (LOW_lt _), LOW_COMBINE _ _ (LOW_lt _),
      HIGH_COMBINE _ _ hb hc, LOW_COMBINE _ _ hc]
  · obtain ⟨k1, k2, k3⟩ := key (HIGH (r16_r 0xD5 gb)) (LOW (r16_r 0xD5 gb))
    rw [execute_op_push 0xD5 gb (by decide), execute_op_pop 0xD1 _ (by decide), op_push_eq,
      op_pop_eq, k1, k2]
    generalize (pop8 (pop8 (add_cycles 16 (push8 (LOW (r16_r 0xD5 gb)) (push8 (HIGH (r16_r 0xD5 gb)) gb)))).2).2 = g at k3
    simp [r16_w, r16_r, r16_rw, and_F0, add_cycles, k3, registers_t.set_de, registers_t.de,
      HIGH_COMBINE _ _ (HIGH_lt _) (LOW_lt _), LOW_COMBINE _ _ (LOW_lt _),
      HIGH_COMBINE _ _ hd he, LOW_COMBINE _ _ he]
  · obtain ⟨k1, k2, k3⟩ := key (HIGH (r16_r 0xE5 gb)) (LOW (r16_r 0xE5 gb))
    rw [execute_op_push 0xE5 gb (by decide), execute_op_pop 0xE1 _ (by decide), op_push_eq,
      op_pop_eq, k1, k2]
    generalize (pop8 (pop8 (add_cycles 16 (push8 (LOW (r16_r 0xE5 gb)) (push8 (HIGH (r16_r 0xE5 gb)) gb)))).2).2 = g at k3
    simp [r16_w, r16_r, r16_rw, and_F0, add_cycles, k3, registers_t.set_hl, registers_t.hl,
      HIGH_COMBINE _ _ (HIGH_lt _) (LOW_lt _), LOW_COMBINE _ _ (LOW_lt _),
      HIGH_COMBINE _ _ hh hl, LOW_COMBINE _ _ hl]
  · obtain ⟨k1, k2, k3⟩ := key (HIGH (r16_r 0xF5 gb)) (LOW (r16_r 0xF5 gb))
    rw [execute_op_push 0xF5 gb (by decide), execute_op_pop 0xF1 _ (by decide), op_push_eq,
      op_pop_eq, k1, k2]
    generalize (pop8 (pop8 (add_cycles 16 (push8 (LOW (r16_r 0xF5 gb)) (push8 (HIGH (r16_r 0xF5 gb)) gb)))).2).2 = g at k3
    simp [r16_w, r16_r, r16_rw, and_F0, add_cycles, k3, registers_t.set_af, registers_t.af,
      HIGH_COMBINE _ _ (HIGH_lt _) (LOW_lt _), LOW_COMBINE _ _ (LOW_lt _),
      HIGH_COMBINE _ _ ha hfb, LOW_COMBINE _ _ hfb, hff]

/-- C2 at SP = 0xFFFE with BC = 0x1234, DE = 0x5678, HL = 0x9ABC, AF = 0x0150. -/
theorem push_pop_restores_pair_witness :
    stack_example.wf ∧ stack_example.state.dma_transfer = false ∧
    in_hram_or_wram ((stack_example.registers.sp + 65535) % 65536) ∧
    in_hram_or_wram ((stack_example.registers.sp + 65534) % 65536) ∧
    ((execute_op 0xC1 (execute_op 0xC5 stack_example)).registers.b = 0x12 ∧
      (execute_op 0xC1 (execute_op 0xC5 stack_example)).registers.c = 0x34 ∧
      (execute_op 0xC1 (execute_op 0xC5 stack_example)).registers.sp = 0xFFFE) ∧
    ((execute_op 0xD1 (execute_op 0xD5 stack_example)).registers.d = 0x56 ∧
      (execute_op 0xD1 (execute_op 0xD5 stack_example)).registers.e = 0x78 ∧
      (execute_op 0xD1 (execute_op 0xD5 stack_example)).registers.sp = 0xFFFE) ∧
    ((execute_op 0xE1 (execute_op 0xE5 stack_example)).registers.h = 0x9A ∧
      (execute_op 0xE1 (execute_op 0xE5 stack_example)).registers.l = 0xBC ∧
      (execute_op 0xE1 (execute_op 0xE5 stack_example)).registers.sp = 0xFFFE) ∧
    ((execute_op 0xF1 (execute_op 0xF5 stack_example)).registers.a = 0x01 ∧
      (execute_op 0xF1 (execute_op 0xF5 stack_example)).registers.f = stack_example.registers.f ∧
      (execute_op 0xF1 (execute_op 0xF5 stack_example)).registers.sp = 0xFFFE) :=
  ⟨stack_example_wf, rfl, by decide, by decide,
    push_pop_restores_pair stack_example stack_example_wf rfl (by decide) (by decide)⟩

/-- C3: ADD A (0x80-0x87, 0xC6; carry-in 0) and ADC A (0x88-0x8F, 0xCE; carry-in the
old C) leave A = (a + b + cin) mod 256, Z = (A = 0), N = 0,
H = ((a & 0xF) + (b & 0xF) + cin > 0xF) and C = (a + b + cin > 0xFF). -/
theorem add_adc_result_and_flags (op : Nat) (gb : gameboy_t)
    (hop : op ∈ [0x80, 0x81, 0x82, 0x83, 0x84, 0x85, 0x86, 0x87, 0xC6,
                 0x88, 0x89, 0x8A, 0x8B, 0x8C, 0x8D, 0x8E, 0x8F, 0xCE])
    (hwf : gb.wf) :
    let adc := decide (op ∈ [0x88, 0x89, 0x8A, 0x8B, 0x8C, 0x8D, 0x8E, 0x8F, 0xCE])
    let a := gb.registers.a
    let b := alu_source op (if adc then 0xCE else 0xC6) gb
    let cin := if adc then gb.registers.f.c.toNat else 0
    let gb1 := execute_op op gb
    gb1.registers.a = (a + b + cin) % 256 ∧
    gb1.registers.f.z = decide (gb1.registers.a = 0) ∧
    gb1.registers.f.n = false ∧
    gb1.registers.f.h = decide ((a &&& 0xF) + (b &&& 0xF) + cin > 0xF) ∧
    gb1.registers.f.c = decide (a + b + cin > 0xFF) := by
  have ha : gb.registers.a < 256 := hwf.1.2.1
  have hcin : gb.registers.f.c.toNat ≤ 1 := Bool.toNat_le _
  by_cases hadc : op ∈ [0x88, 0x89, 0x8A, 0x8B, 0x8C, 0x8D, 0x8E, 0x8F, 0xCE]
  · have hs := alu_source_lt op 0xCE gb hwf
    obtain ⟨e1, e2, e3, e4, e5⟩ := op_adc_regs op gb
    simp only [hadc, decide_True, if_true, execute_op_adc op gb hadc, e1, e2, e3, e4, e5, and_0F,
      decide_eq_decide, true_and]
    omega
  · have hadd : op ∈ [0x80, 0x81, 0x82, 0x83, 0x84, 0x85, 0x86, 0x87, 0xC6] := by
      simp only [List.mem_cons, List.mem_singleton, List.not_mem_nil, or_false] at hop hadc ⊢
      omega
    have hs := alu_source_lt op 0xC6 gb hwf
    obtain ⟨e1, e2, e3, e4, e5⟩ := op_add_regs op gb
    simp only [hadc, decide_False, if_false, execute_op_add op gb hadd, e1, e2, e3, e4, e5, and_0F,
      decide_eq_decide, true_and, Bool.false_eq_true, add_zero]
    omega

/-- C3 at ADC A,B with A = 0xFF, B = 0x00, C = 1: A = 0x00, Z = 1, H = 1, C = 1. -/
theorem add_adc_result_and_flags_witness :
    0x88 ∈ [0x80, 0x81, 0x82, 0x83, 0x84, 0x85, 0x86, 0x87, 0xC6,
            0x88, 0x89, 0x8A, 0x8B, 0x8C, 0x8D, 0x8E, 0x8F, 0xCE] ∧
    adc_example.wf ∧
    (execute_op 0x88 adc_example).registers.a = 0x00 ∧
    (execute_op 0x88 adc_example).registers.f.z = true ∧
    (execute_op 0x88 adc_example).registers.f.n = false ∧
    (execute_op 0x88 adc_example).registers.f.h = true ∧
    (execute_op 0x88 adc_example).registers.f.c = true :=
  ⟨by decide, adc_example_wf, add_adc_result_and_flags 0x88 adc_example (by decide) adc_example_wf⟩

/-- C4: SUB (0x90-0x97, 0xD6), SBC (0x98-0x9F, 0xDE; carry-in the old C) and CP
(0xB8-0xBF, 0xFE) leave N = 1, Z = ((a - b - cin) mod 256 = 0),
H = ((a & 0xF) - (b & 0xF) - cin < 0), C = (a - b - cin < 0); SUB and SBC store
(a - b - cin) mod 256 in A and CP leaves A alone. -/
theorem sub_sbc_cp_result_and_flags (op : Nat) (gb : gameboy_t)
    (hop : op ∈ [0x90, 0x91, 0x92, 0x93, 0x94, 0x95, 0x96, 0x97, 0xD6,
                 0x98, 0x99, 0x9A, 0x9B, 0x9C, 0x9D, 0x9E, 0x9F, 0xDE,
                 0xB8, 0xB9, 0xBA, 0xBB, 0xBC, 0xBD, 0xBE, 0xBF, 0xFE])
    (hwf : gb.wf) :
    let sbc := decide (op ∈ [0x98, 0x99, 0x9A, 0x9B, 0x9C, 0x9D, 0x9E, 0x9F, 0xDE])
    let cp := decide (op ∈ [0xB8, 0xB9, 0xBA, 0xBB, 0xBC, 0xBD, 0xBE, 0xBF, 0xFE])
    let imm := if sbc then 0xDE else if cp then 0xFE else 0xD6
    let a : Int := gb.registers.a
    let b : Int := alu_source op imm gb
    let a_nibble : Int := (gb.registers.a &&& 0xF : Nat)
    let b_nibble : Int := (alu_source op imm gb &&& 0xF : Nat)
    let cin : Int := if sbc then gb.registers.f.c.toNat else 0
    let gb1 := execute_op op gb
    gb1.registers.f.n = true ∧
    gb1.registers.f.z = decide ((a - b - cin) % 256 = 0) ∧
    gb1.registers.f.h = decide (a_nibble - b_nibble - cin < 0) ∧
    gb1.registers.f.c = decide (a - b - cin < 0) ∧
    (gb1.registers.a : Int) = if cp then a else (a - b - cin) % 256 := by
  have ha : gb.registers.a < 256 := hwf.1.2.1
  have hcin : gb.registers.f.c.toNat ≤ 1 := Bool.toNat_le _
  by_cases hsbc : op ∈ [0x98, 0x99, 0x9A, 0x9B, 0x9C, 0x9D, 0x9E, 0x9F, 0xDE]
  · have hs := alu_source_lt op 0xDE gb hwf
    obtain ⟨e1, e2, e3, e4, e5⟩ := op_sbc_regs op gb
    have hcp : ¬ op ∈ [0xB8, 0xB9, 0xBA, 0xBB, 0xBC, 0xBD, 0xBE, 0xBF, 0xFE] := by
      simp only [List.mem_cons, List.mem_singleton, List.not_mem_nil, or_false] at hsbc ⊢
      omega
    simp only [hsbc, hcp, decide_True, decide_False, if_true, if_false, execute_op_sbc op gb hsbc,
      e1, e2, e3, e4, e5, and_0F, decide_eq_decide, true_and, and_true, Bool.false_eq_true]
    omega
  · by_cases hcp : op ∈ [0xB8, 0xB9, 0xBA, 0xBB, 0xBC, 0xBD, 0xBE, 0xBF, 0xFE]
    · have hs := alu_source_lt op 0xFE gb hwf
      obtain ⟨e1, e2, e3, e4, e5⟩ := op_cp_regs op gb
      simp only [hsbc, hcp, decide_True, decide_False, if_true, if_false, eq_self_iff_true, execute_op_cp op gb hcp,
        e1, e2, e3, e4, e5, and_0F, decide_eq_decide, true_and, and_true, Bool.false_eq_true]
      omega
    · have hsub : op ∈ [0x90, 0x91, 0x92, 0x93, 0x94, 0x95, 0x96, 0x97, 0xD6] := by
        simp only [List.mem_cons, List.mem_singleton, List.not_mem_nil, or_false] at hop hsbc hcp ⊢
        omega
      have hs := alu_source_lt op 0xD6 gb hwf
      obtain ⟨e1, e2, e3, e4, e5⟩ := op_sub_regs op gb
      simp only [hsbc, hcp, decide_True, decide_False, if_true, if_false, execute_op_sub op gb hsub,
        e1, e2, e3, e4, e5, and_0F, decide_eq_decide, true_and, and_true, Bool.false_eq_true]
      omega

/-- C4 at SBC A,B with A = 0x00, B = 0x00, C = 1: A = 0xFF, Z = 0, N = 1, H = 1, C = 1. -/
theorem sub_sbc_cp_result_and_flags_witness :
    0x98 ∈ [0x90, 0x91, 0x92, 0x93, 0x94, 0x95, 0x96, 0x97, 0xD6,
            0x98, 0x99, 0x9A, 0x9B, 0x9C, 0x9D, 0x9E, 0x9F, 0xDE,
            0xB8, 0xB9, 0xBA, 0xBB, 0xBC, 0xBD, 0xBE, 0xBF, 0xFE] ∧
    sbc_example.wf ∧
    (execute_op 0x98 sbc_example).registers.f.n = true ∧
    (execute_op 0x98 sbc_example).registers.f.z = false ∧
    (execute_op 0x98 sbc_example).registers.f.h = true ∧
    (execute_op 0x98 sbc_example).registers.f.c = true ∧
    ((execute_op 0x98 sbc_example).registers.a : Int) = 0xFF :=
  ⟨by decide, sbc_example_wf, sub_sbc_cp_result_and_flags 0x98 sbc_example (by decide) sbc_example_wf⟩

/-- C5 (code defect): ADD HL,BC computes H from bit 7, not from bit 11.  With
HL = 0x0F00, BC = 0x0100 the sum carries out of bit 11 and H is left 0; with
HL = 0x00FF, BC = 0x0001 the sum does not carry out of bit 11 and H is left 1. -/
theorem add_hl_half_carry_from_bit7 :
    (add_hl_example_1.registers.hl = 0x0F00 ∧ add_hl_example_1.registers.bc = 0x0100 ∧
      (execute_op 0x09 add_hl_example_1).registers.hl = 0x1000 ∧
      (execute_op 0x09 add_hl_example_1).registers.f.h = false ∧
      decide ((add_hl_example_1.registers.hl &&& 0x0FFF) + (add_hl_example_1.registers.bc &&& 0x0FFF) > 0x0FFF) = true) ∧
    (add_hl_example_2.registers.hl = 0x00FF ∧ add_hl_example_2.registers.bc = 0x0001 ∧
      (execute_op 0x09 add_hl_example_2).registers.hl = 0x0100 ∧
      (execute_op 0x09 add_hl_example_2).registers.f.h = true ∧
      decide ((add_hl_example_2.registers.hl &&& 0x0FFF) + (add_hl_example_2.registers.bc &&& 0x0FFF) > 0x0FFF) = false) := by
  decide

/-- C6 (code defect): ADD SP,i8 (0xE8) and LD HL,SP+i8 (0xF8) compute C from the
sixteen-bit result, not from the low byte.  With SP = 0x00FF and i8 = 0x01 the low
bytes carry and C is left 0; with SP = 0x0100 and i8 = 0xFF the low bytes do not
carry and C is left 1. -/
theorem add_sp_carry_from_bit15 :
    (mem_r add_sp_example_1.registers.pc add_sp_example_1 = 0x01 ∧
      (execute_op 0xE8 add_sp_example_1).registers.sp = 0x0100 ∧
      (execute_op 0xE8 add_sp_example_1).registers.f.c = false ∧
      (execute_op 0xF8 add_sp_example_1).registers.hl = 0x0100 ∧
      (execute_op 0xF8 add_sp_example_1).registers.f.c = false ∧
      decide ((add_sp_example_1.registers.sp &&& 0xFF) + 0x01 > 0xFF) = true) ∧
    (mem_r add_sp_example_2.registers.pc add_sp_example_2 = 0xFF ∧
      (execute_op 0xE8 add_sp_example_2).registers.sp = 0x00FF ∧
      (execute_op 0xE8 add_sp_example_2).registers.f.c = true ∧
      (execute_op 0xF8 add_sp_example_2).registers.hl = 0x00FF ∧
      (execute_op 0xF8 add_sp_example_2).registers.f.c = true ∧
      decide ((add_sp_example_2.registers.sp &&& 0xFF) + 0xFF > 0xFF) = false) := by
  decide

/-- C7: for each register B, C, D, E, H, L, A (number i), INC (0x04 + 8i) stores
(v + 1) mod 256 with N = 0, Z = (result = 0), H = ((v & 0xF) = 0xF), and DEC
(0x05 + 8i) stores (v - 1) mod 256 with N = 1, Z = (result = 0), H = ((v & 0xF) = 0);
both leave C as it was. -/
theorem inc_dec_r8_result_and_flags (i : Nat) (gb : gameboy_t) (hi : i ∈ [0, 1, 2, 3, 4, 5, 7]) (hwf : gb.wf) :
    let v := reg8 i gb.registers
    let inc := execute_op (0x04 + 8 * i) gb
    let dec := execute_op (0x05 + 8 * i) gb
    (reg8 i inc.registers = (v + 1) % 256 ∧
      inc.registers.f.n = false ∧
      inc.registers.f.z = decide (reg8 i inc.registers = 0) ∧
      inc.registers.f.h = decide ((v &&& 0xF) = 0xF) ∧
      inc.registers.f.c = gb.registers.f.c) ∧
    (reg8 i dec.registers = (v + 255) % 256 ∧
      dec.registers.f.n = true ∧
      dec.registers.f.z = decide (reg8 i dec.registers = 0) ∧
      dec.registers.f.h = decide ((v &&& 0xF) = 0x0) ∧
      dec.registers.f.c = gb.registers.f.c) := by
  obtain ⟨⟨_, ha, hc, hb, he, hd, hl, hh, _, _⟩, hm⟩ := hwf
  simp only [List.mem_cons, List.mem_singleton, List.not_mem_nil, or_false] at hi
  rcases hi with rfl | rfl | rfl | rfl | rfl | rfl | rfl <;>
  rw [execute_op_inc_r8 _ gb (by decide), execute_op_dec_r8 _ gb (by decide)] <;>
  simp [op_inc_r8, op_dec_r8, r8_high_r, r8_high_w, and_0F, and_F0, add_cycles, reg8,
    decide_eq_not_decide] <;>
  omega

/-- C7 at INC B with B = 0xFF (result 0x00, Z = 1, H = 1, C kept) and at DEC B with
B = 0x00 (result 0xFF, Z = 0, H = 1). -/
theorem inc_dec_r8_result_and_flags_witness :
    0 ∈ [0, 1, 2, 3, 4, 5, 7] ∧ inc_example.wf ∧ gb_zero.wf ∧
    ((execute_op 0x04 inc_example).registers.b = 0x00 ∧
      (execute_op 0x04 inc_example).registers.f.n = false ∧
      (execute_op 0x04 inc_example).registers.f.z = true ∧
      (execute_op 0x04 inc_example).registers.f.h = true ∧
      (execute_op 0x04 inc_example).registers.f.c = true) ∧
    ((execute_op 0x05 gb_zero).registers.b = 0xFF ∧
      (execute_op 0x05 gb_zero).registers.f.n = true ∧
      (execute_op 0x05 gb_zero).registers.f.z = false ∧
      (execute_op 0x05 gb_zero).registers.f.h = true ∧
      (execute_op 0x05 gb_zero).registers.f.c = false) :=
  ⟨by decide, inc_example_wf, gb_zero_wf,
    (inc_dec_r8_result_and_flags 0 inc_example (by decide) inc_example_wf).1,
    (inc_dec_r8_result_and_flags 0 gb_zero (by decide) gb_zero_wf).2⟩

/-- C8: for x, y below 100, ADD A,by from A = bx followed by DAA leaves A = bcd((x + y)
mod 100), C = (x + y >= 100), H = 0, Z = (A = 0); SUB A,by from A = bx followed by DAA
leaves A = bcd((x - y) mod 100), C = (x < y), H = 0, Z = (A = 0). -/
theorem daa_after_bcd_add_sub (x y : Nat) (hx : x < 100) (hy : y < 100) (gb : gameboy_t)
    (ha : gb.registers.a = bcd x) :
    (∀ op ∈ [0x80, 0x81, 0x82, 0x83, 0x84, 0x85, 0x86, 0x87, 0xC6],
      alu_source op 0xC6 gb = bcd y →
      let r := execute_op 0x27 (execute_op op gb)
      r.registers.a = bcd ((x + y) % 100) ∧
      r.registers.f.c = decide (100 ≤ x + y) ∧
      r.registers.f.h = false ∧
      r.registers.f.z = decide (r.registers.a = 0)) ∧
    (∀ op ∈ [0x90, 0x91, 0x92, 0x93, 0x94, 0x95, 0x96, 0x97, 0xD6],
      alu_source op 0xD6 gb = bcd y →
      let r := execute_op 0x27 (execute_op op gb)
      r.registers.a = bcd ((x + 100 - y) % 100) ∧
      r.registers.f.c = decide (x < y) ∧
      r.registers.f.h = false ∧
      r.registers.f.z = decide (r.registers.a = 0)) := by
  have hbx : bcd x < 256 := by unfold bcd; omega
  have hby : bcd y < 256 := by unfold bcd; omega
  refine ⟨fun op hop hs => ?_, fun op hop hs => ?_⟩
  · obtain ⟨e1, e2, e3, e4, -⟩ := op_add_regs op gb
    rw [ha, hs] at e1 e2 e3
    obtain ⟨d1, d2, d3, d4⟩ := daa_after_add (op_add op gb) e4
    obtain ⟨t1, t2⟩ := bcd_add_adjust x y hx hy
    simp only [e1, e2, e3, decide_eq_true_eq] at d1 d2 d4
    simp only [execute_op_daa, execute_op_add op gb hop]
    rw [d1, d2, d3]
    exact ⟨t1, t2, rfl, d4⟩
  · obtain ⟨e1, e2, e3, e4, -⟩ := op_sub_regs op gb
    rw [ha, hs] at e1 e2 e3
    have hsub : (((bcd x : Int) - (bcd y : Int)) % 256).toNat = (bcd x + 256 - bcd y) % 256 := by
      omega
    rw [hsub] at e1 e2 e3
    obtain ⟨d1, d2, d3, d4⟩ := daa_after_sub (op_sub op gb) e4
    obtain ⟨t1, t2⟩ := bcd_sub_adjust x y hx hy
    simp only [e1, e2, e3, decide_eq_true_eq] at d1 d2 d4
    simp only [execute_op_daa, execute_op_sub op gb hop]
    rw [d1, d2, d3]
    refine ⟨t1, ?_, rfl, d4⟩
    simpa using t2

/-- C8 at 95 + 5: ADD A,B from A = 0x95, B = 0x05 and DAA give A = 0x00 with C = 1, Z = 1. -/
theorem daa_after_bcd_add_sub_witness :
    95 < 100 ∧ 5 < 100 ∧ daa_example.registers.a = bcd 95 ∧
    0x80 ∈ [0x80, 0x81, 0x82, 0x83, 0x84, 0x85, 0x86, 0x87, 0xC6] ∧
    alu_source 0x80 0xC6 daa_example = bcd 5 ∧
    (execute_op 0x27 (execute_op 0x80 daa_example)).registers.a = 0x00 ∧
    (execute_op 0x27 (execute_op 0x80 daa_example)).registers.f.c = true ∧
    (execute_op 0x27 (execute_op 0x80 daa_example)).registers.f.h = false ∧
    (execute_op 0x27 (execute_op 0x80 daa_example)).registers.f.z = true :=
  ⟨by decide, by decide, rfl, by decide, rfl,
    (daa_after_bcd_add_sub 95 5 (by decide) (by decide) daa_example rfl).1 0x80 (by decide) rfl⟩

/-- C9 as stated fails: SET 0,(HL) with HL = 0x0000 leaves bit 0 of the operand clear
(the bus takes the write as a RAM-enable command, here turning cartridge RAM off). -/
theorem set_hl_in_rom_keeps_bit :
    set_rom_example.registers.hl = 0x0000 ∧
    Nat.testBit (operand8 6 set_rom_example) 0 = false ∧
    ¬ (Nat.testBit (operand8 6 (execute_cb_op 0xC6 set_rom_example)) 0 = true) ∧
    set_rom_example.state.ram = true ∧
    (execute_cb_op 0xC6 set_rom_example).state.ram = false := by
  decide

/-- C9 (amended): for a CB opcode in 0x40..0xFF with b = (op >> 3) & 7 and operand
number op & 7, BIT sets Z = (bit b of the operand is 0), N = 0, H = 1 and leaves C
and the operand alone; RES and SET leave the four flags alone and, for a register
operand, change exactly bit b of the register; for the operand (HL) they pass the
byte read at HL with exactly bit b changed to `mem_w`, and a cell in HRAM, or in WRAM
with no DMA in progress, then holds it. -/
theorem bit_res_set_on_operand (op : Nat) (gb : gameboy_t) (hop : 0x40 ≤ op ∧ op ≤ 0xFF) (hwf : gb.wf) :
    let b := (op >>> 3) &&& 0x7
    let i := op &&& 0x7
    let v := operand8 i gb
    let r := execute_cb_op op gb
    (op < 0x80 →
      r.registers.f.z = !Nat.testBit v b ∧ r.registers.f.n = false ∧ r.registers.f.h = true ∧
      r.registers.f.c = gb.registers.f.c ∧ operand8 i r = v) ∧
    (0x80 ≤ op →
      r.registers.f = gb.registers.f ∧
      (i ≠ 6 → ∀ j, Nat.testBit (reg8 i r.registers) j =
        if j = b then decide (0xC0 ≤ op) else Nat.testBit v j) ∧
      (i = 6 → ∃ w, (∀ j, Nat.testBit w j = if j = b then decide (0xC0 ≤ op) else Nat.testBit v j) ∧
        r = add_cycles 4 (add_cycles 4 (mem_w gb.registers.hl w (add_cycles 4 gb))) ∧
        ((0xFF80 ≤ gb.registers.hl ∧ gb.registers.hl ≤ 0xFFFE) ∨
            (0xC000 ≤ gb.registers.hl ∧ gb.registers.hl ≤ 0xDFFF ∧ gb.state.dma_transfer = false) →
          mem_r gb.registers.hl r = w))) := by
  intro b i v r
  have hi : i = op % 8 := and_07 op
  have hb : b < 8 := by
    show (op >>> 3) &&& 0x7 < 8
    rw [and_07]; omega
  have hv : v < 256 := operand8_lt i gb hwf
  refine ⟨fun hlt => ?_, fun hge => ?_⟩
  · have e := execute_cb_op_bit op gb ⟨hop.1, hlt⟩
    have hz : decide ((v &&& (1 <<< b)) = 0) = !Nat.testBit v b := by
      by_cases ht : Nat.testBit v b = false
      · simp [ht, (and_one_shl_eq_zero v b).2 ht]
      · have ht2 : ¬ (v &&& (1 <<< b)) = 0 := fun h => ht ((and_one_shl_eq_zero v b).1 h)
        simp only [Bool.not_eq_false] at ht
        simp [ht2, ht]
    show (execute_cb_op op gb).registers.f.z = _ ∧ (execute_cb_op op gb).registers.f.n = _ ∧
      (execute_cb_op op gb).registers.f.h = _ ∧ (execute_cb_op op gb).registers.f.c = _ ∧
      operand8 i (execute_cb_op op gb) = v
    rw [e, ← hi]
    refine ⟨?_, ?_, ?_, ?_, ?_⟩
    · simpa [add_cycles] using hz
    · simp [add_cycles]
    · simp [add_cycles]
    · split_ifs <;> simp [add_cycles]
    · show operand8 i _ = operand8 i gb
      split_ifs <;> simp [add_cycles, operand8, reg8, mem_r, registers_t.hl]
  · obtain ⟨w, hw, e⟩ : ∃ w, (∀ j, Nat.testBit w j =
          if j = b then decide (0xC0 ≤ op) else Nat.testBit v j) ∧
        execute_cb_op op gb =
          add_cycles 4 (r8_low_w op w (if op % 8 = 6 then add_cycles 4 gb else gb)) := by
      by_cases hset : 0xC0 ≤ op
      · refine ⟨(v ||| (1 <<< b)) % 256, fun j => ?_, ?_⟩
        · rw [testBit_set v b j hv hb]; simp [hset]
        · rw [execute_cb_op_set op gb ⟨hset, hop.2⟩, ← hi]
      · refine ⟨v &&& (0xFF ^^^ (1 <<< b)), fun j => ?_, ?_⟩
        · rw [testBit_res v b j hv hb]; simp [hset]
        · rw [execute_cb_op_res op gb ⟨hge, by omega⟩, ← hi]
    show (execute_cb_op op gb).registers.f = _ ∧
      (i ≠ 6 → ∀ j, Nat.testBit (reg8 i (execute_cb_op op gb).registers) j = _) ∧
      (i = 6 → ∃ w, _ ∧ execute_cb_op op gb = _ ∧ (_ → mem_r gb.registers.hl (execute_cb_op op gb) = w))
    rw [e]
    by_cases h6 : op % 8 = 6
    · have hi6 : i = 6 := hi.trans h6
      rw [if_pos h6, r8_low_w_hl op w _ h6]
      refine ⟨?_, fun h => absurd hi6 h, fun _ => ⟨w, hw, rfl, fun hram => ?_⟩⟩
      · show (mem_w _ w (add_cycles 4 gb)).registers.f = gb.registers.f
        rw [mem_w_registers]; rfl
      · rcases hram with hram | ⟨hw1, hw2, hdma⟩
        · have hm : mem_w (add_cycles 4 gb).registers.hl w (add_cycles 4 gb) =
              { add_cycles 4 gb with memory := store gb.memory gb.registers.hl w } :=
            mem_w_hram gb.registers.hl w (add_cycles 4 gb) hram
          rw [hm]
          unfold mem_r
          rw [if_pos]
          · simp [add_cycles, store]
          · refine ⟨?_, ?_, ?_⟩ <;> simp [add_cycles] <;> omega
        · have hin : in_hram_or_wram gb.registers.hl := Or.inr ⟨hw1, hw2⟩
          obtain ⟨m, hm, hmp, -⟩ := mem_w_ram gb.registers.hl w (add_cycles 4 gb) hdma hin
          have hm2 : mem_w (add_cycles 4 gb).registers.hl w (add_cycles 4 gb) =
              { add_cycles 4 gb with memory := m } := hm
          rw [hm2]
          have hr := mem_r_ram gb.registers.hl
            (add_cycles 4 (add_cycles 4 { add_cycles 4 gb with memory := m })) hdma hin
          rw [hr]
          exact hmp
    · have hi6 : i ≠ 6 := fun h => h6 (hi ▸ h)
      rw [if_neg h6]
      obtain ⟨hr, hf⟩ := r8_low_w_reg op w gb h6
      refine ⟨hf, fun _ j => ?_, fun h => absurd h hi6⟩
      show Nat.testBit (reg8 i (r8_low_w op w gb).registers) j = _
      rw [hi, hr, hw j]

/-- C9 (amended) at BIT 0,(HL) with the cell at 0xFF80 holding 0x01, and at SET 1,A
with A = 0x81. -/
theorem bit_res_set_on_operand_witness :
    (0x40 ≤ 0x46 ∧ 0x46 ≤ 0xFF) ∧ (0x40 ≤ 0xCF ∧ 0xCF ≤ 0xFF) ∧ bit_example.wf ∧
    ((execute_cb_op 0x46 bit_example).registers.f.z = false ∧
      (execute_cb_op 0x46 bit_example).registers.f.n = false ∧
      (execute_cb_op 0x46 bit_example).registers.f.h = true ∧
      (execute_cb_op 0x46 bit_example).registers.f.c = true ∧
      operand8 6 (execute_cb_op 0x46 bit_example) = 0x01) ∧
    (execute_cb_op 0xCF bit_example).registers.f = bit_example.registers.f ∧
    (∀ j, Nat.testBit (execute_cb_op 0xCF bit_example).registers.a j =
      if j = 1 then true else Nat.testBit 0x81 j) :=
  ⟨by decide, by decide, bit_example_wf,
    (bit_res_set_on_operand 0x46 bit_example (by decide) bit_example_wf).1 (by decide),
    ((bit_res_set_on_operand 0xCF bit_example (by decide) bit_example_wf).2 (by decide)).1,
    ((bit_res_set_on_operand 0xCF bit_example (by decide) bit_example_wf).2 (by decide)).2.1 (by decide)⟩

/-- C10: RLCA, RLA, RRCA, RRA (0x07, 0x17, 0x0F, 0x1F) leave the A and C that the CB
rotate of A with the same opcode byte leaves, with N = 0, H = 0, always Z = 0, and
add 4 cycles; the A and C are those of the rotate through or around the carry. -/
theorem rotate_a_matches_cb_and_clears_z (op : Nat) (gb : gameboy_t) (hop : op ∈ [0x07, 0x17, 0x0F, 0x1F])
    (ha : gb.registers.a < 256) :
    let a := gb.registers.a
    let cin := gb.registers.f.c.toNat
    let r := execute_op op gb
    let cb := execute_cb_op op gb
    r.registers.a = cb.registers.a ∧
    r.registers.f.c = cb.registers.f.c ∧
    r.registers.f.n = false ∧ cb.registers.f.n = false ∧
    r.registers.f.h = false ∧ cb.registers.f.h = false ∧
    r.registers.f.z = false ∧
    r.op_cycles = (gb.op_cycles + 4) % 256 ∧
    r.registers.a =
      (if op = 0x07 then (2 * a) % 256 + a / 128
       else if op = 0x17 then (2 * a) % 256 + cin
       else if op = 0x0F then a / 2 + 128 * (a % 2)
       else a / 2 + 128 * cin) ∧
    r.registers.f.c = (if op = 0x07 ∨ op = 0x17 then decide (128 ≤ a) else decide (a % 2 = 1)) := by
  have hcin : gb.registers.f.c.toNat ≤ 1 := Bool.toNat_le _
  have h128 : gb.registers.a / 128 = 0 ∨ gb.registers.a / 128 = 1 := by omega
  have h2 : gb.registers.a % 2 = 0 ∨ gb.registers.a % 2 = 1 := by omega
  rw [execute_op_rotate_a op gb hop]
  simp only [List.mem_cons, List.mem_singleton, List.not_mem_nil, or_false] at hop
  rcases hop with rfl | rfl | rfl | rfl <;> rcases h128 with h128 | h128 <;> rcases h2 with h2 | h2 <;>
  simp [op_rotate_a, execute_cb_op, r8_low_r, r8_low_w, and_0F, and_F0, and_80, add_cycles, set_czhn,
    shl_1_or _ _ hcin, shl_1_or _ _ (Bool.toNat_le _), shr_1_or _ _ ha, shr_1_or_128 _ ha,
    shl_1_or _ 1 (le_refl 1), decide_eq_not_decide, Nat.mod_eq_of_lt ha, h128, h2] <;>
  omega

/-- C10 at RRA with A = 0x01, C = 0: A = 0x00, C = 1 and Z stays 0. -/
theorem rotate_a_matches_cb_and_clears_z_witness :
    0x1F ∈ [0x07, 0x17, 0x0F, 0x1F] ∧ rra_example.registers.a < 256 ∧
    (execute_op 0x1F rra_example).registers.a = 0x00 ∧
    (execute_op 0x1F rra_example).registers.f.c = true ∧
    (execute_op 0x1F rra_example).registers.f.z = false ∧
    (execute_op 0x1F rra_example).op_cycles = 4 :=
  ⟨by decide, by decide,
    (rotate_a_matches_cb_and_clears_z 0x1F rra_example (by decide) (by decide)).2.2.2.2.2.2.2.2.1,
    (rotate_a_matches_cb_and_clears_z 0x1F rra_example (by decide) (by decide)).2.2.2.2.2.2.2.2.2,
    (rotate_a_matches_cb_and_clears_z 0x1F rra_example (by decide) (by decide)).2.2.2.2.2.2.1,
    (rotate_a_matches_cb_and_clears_z 0x1F rra_example (by decide) (by decide)).2.2.2.2.2.2.2.1⟩

/-! ## The bus leaves the cycle counter of the instruction alone -/

theorem set_mode_op_cycles (mode : lcd_mode_e) (gb : gameboy_t) :
    (set_mode mode gb).op_cycles = gb.op_cycles := by
  unfold set_mode set_mem_bit
  cases mode <;> simp only <;> split_ifs <;> rfl

theorem set_ly_op_cycles (value : Nat) (gb : gameboy_t) :
    (set_ly value gb).op_cycles = gb.op_cycles := by
  unfold set_ly set_mem_bit
  simp only
  split_ifs <;> rfl

theorem joypad_poll_op_cycles (gb : gameboy_t) : (joypad_poll gb).op_cycles = gb.op_cycles := by
  unfold joypad_poll set_mem_bit
  simp only
  split_ifs <;> rfl

theorem set_rom_bank_op_cycles (bank : Nat) (gb : gameboy_t) :
    (set_rom_bank bank gb).op_cycles = gb.op_cycles := by
  unfold set_rom_bank
  simp only
  split_ifs <;> rfl

theorem set_ram_bank_op_cycles (bank : Nat) (gb : gameboy_t) :
    (set_ram_bank bank gb).op_cycles = gb.op_cycles := by
  unfold set_ram_bank
  simp only
  split_ifs <;> rfl

theorem joypad_irq_op_cycles (old_value address : Nat) (l : List Nat) (gb : gameboy_t) :
    (l.foldl
      (fun gb i =>
        if (old_value &&& (1 <<< i)) ≠ 0 ∧ (gb.memory address &&& (1 <<< i)) = 0 then
          set_mem_bit gb 0xFF0F 4 true
        else gb)
      gb).op_cycles = gb.op_cycles := by
  induction l generalizing gb with
  | nil => rfl
  | cons i l ih =>
    rw [List.foldl_cons, ih]
    split_ifs <;> rfl

theorem io_w_op_cycles (address value old_value : Nat) (gb : gameboy_t) :
    (io_w address value old_value gb).op_cycles = gb.op_cycles := by
  unfold io_w
  simp only
  split_ifs
  · rw [joypad_irq_op_cycles, joypad_poll_op_cycles]
  · rfl
  · rw [set_ly_op_cycles, set_mode_op_cycles]
  · rfl
  · rfl
  · rfl
  · rfl
  · rfl

/-- The bus never writes the cycle counter of the instruction. -/
theorem mem_w_op_cycles (address value : Nat) (gb : gameboy_t) :
    (mem_w address value gb).op_cycles = gb.op_cycles := by
  unfold mem_w
  simp only [apply_ite gameboy_t.op_cycles, set_rom_bank_op_cycles, set_ram_bank_op_cycles,
    io_w_op_cycles, ite_self]

theorem push8_op_cycles (value : Nat) (gb : gameboy_t) :
    (push8 value gb).op_cycles = gb.op_cycles := by
  unfold push8
  simp only [mem_w_op_cycles]

/-! ## Cycle cost of the conditional branches -/

theorem op_jr_cond_cycles (op : Nat) (gb : gameboy_t) :
    (op_jr_cond op gb).op_cycles =
      (gb.op_cycles + 8 + (if condition op gb = true then 4 else 0)) % 256 := by
  have hc : condition op (fetch gb).2 = condition op gb := rfl
  unfold op_jr_cond
  simp only [hc]
  by_cases h : condition op gb = true
  · simp only [h, if_true, add_cycles, fetch]
    omega
  · simp only [h, if_false, add_cycles, fetch, Bool.false_eq_true]

theorem op_jp_cond_cycles (op : Nat) (gb : gameboy_t) :
    (op_jp_cond op gb).op_cycles =
      (gb.op_cycles + 12 + (if condition op gb = true then 4 else 0)) % 256 := by
  have hc : condition op (fetch (fetch gb).2).2 = condition op gb := rfl
  unfold op_jp_cond
  simp only [hc]
  by_cases h : condition op gb = true
  · simp only [h, if_true, add_cycles, fetch]
    omega
  · simp only [h, if_false, add_cycles, fetch, Bool.false_eq_true]

theorem op_call_cond_cycles (op : Nat) (gb : gameboy_t) :
    (op_call_cond op gb).op_cycles =
      (gb.op_cycles + 12 + (if condition op gb = true then 12 else 0)) % 256 := by
  have hc : condition op (fetch (fetch gb).2).2 = condition op gb := rfl
  unfold op_call_cond
  simp only [hc]
  by_cases h : condition op gb = true
  · simp only [h, if_true, add_cycles, push8_op_cycles, fetch]
    omega
  · simp only [h, if_false, add_cycles, fetch, Bool.false_eq_true]

theorem op_ret_cond_cycles (op : Nat) (gb : gameboy_t) :
    (op_ret_cond op gb).op_cycles =
      (gb.op_cycles + 8 + (if condition op gb = true then 12 else 0)) % 256 := by
  unfold op_ret_cond
  by_cases h : condition op gb = true
  · simp only [h, if_true, add_cycles, pop8]
    omega
  · simp only [h, if_false, add_cycles, Bool.false_eq_true]

theorem execute_op_jr_cond (op : Nat) (gb : gameboy_t) (hop : op ∈ [0x20, 0x28, 0x30, 0x38]) :
    execute_op op gb = op_jr_cond op gb := by
  simp only [List.mem_cons, List.mem_singleton, List.not_mem_nil, or_false] at hop
  rcases hop with rfl | rfl | rfl | rfl <;> rfl

theorem execute_op_jp_cond (op : Nat) (gb : gameboy_t) (hop : op ∈ [0xC2, 0xCA, 0xD2, 0xDA]) :
    execute_op op gb = op_jp_cond op gb := by
  simp only [List.mem_cons, List.mem_singleton, List.not_mem_nil, or_false] at hop
  rcases hop with rfl | rfl | rfl | rfl <;> rfl

theorem execute_op_call_cond (op : Nat) (gb : gameboy_t) (hop : op ∈ [0xC4, 0xCC, 0xD4, 0xDC]) :
    execute_op op gb = op_call_cond op gb := by
  simp only [List.mem_cons, List.mem_singleton, List.not_mem_nil, or_false] at hop
  rcases hop with rfl | rfl | rfl | rfl <;> rfl

theorem execute_op_ret_cond (op : Nat) (gb : gameboy_t) (hop : op ∈ [0xC0, 0xC8, 0xD0, 0xD8]) :
    execute_op op gb = op_ret_cond op gb := by
  simp only [List.mem_cons, List.mem_singleton, List.not_mem_nil, or_false] at hop
  rcases hop with rfl | rfl | rfl | rfl <;> rfl

/-! ## ROM bank selection -/

theorem and_1F (x : Nat) : x &&& 0x1F = x % 32 := Nat.and_pow_two_sub_one_eq_mod x 5

set_option maxRecDepth 100000 in
theorem byte_and_E0 : ∀ y < 256, y &&& 0xE0 = y / 32 * 32 := by decide

theorem and_E0 (x : Nat) : x &&& 0xE0 = x % 256 / 32 * 32 := by
  have h : x &&& 0xE0 = (x &&& 0xFF) &&& 0xE0 := by
    rw [Nat.and_assoc]; rfl
  rw [h, and_FF]
  exact byte_and_E0 _ (Nat.mod_lt _ (by norm_num))

theorem bank_low_bits (rb v : Nat) :
    (rb &&& 0xE0) ||| (v &&& 0x1F) = rb % 256 / 32 * 32 + v % 32 := by
  rw [and_E0, and_1F]
  have h : v % 32 < 2 ^ 5 := Nat.mod_lt _ (by norm_num)
  have e := Nat.mul_add_lt_is_or h (rb % 256 / 32)
  have e2 : rb % 256 / 32 * 32 = 2 ^ 5 * (rb % 256 / 32) := by omega
  rw [e2, ← e]

theorem mem_w_rom_select (p v : Nat) (gb : gameboy_t) (hdma : gb.state.dma_transfer = false)
    (hp : 0x2000 ≤ p ∧ p ≤ 0x3FFF) :
    mem_w p v gb = set_rom_bank ((gb.rom_bank &&& 0xE0) ||| (v &&& 0x1F)) gb := by
  have n1 : ¬ (p ≥ 0x0000 ∧ p ≤ 0x1FFF) := by omega
  have y1 : p ≥ 0x2000 ∧ p ≤ 0x3FFF := hp
  have y0 : gb.state.dma_transfer = false ∨ (p ≥ 0xFF80 ∧ p ≤ 0xFFFE) := Or.inl hdma
  unfold mem_w
  rw [if_pos y0, if_neg n1, if_pos y1]

theorem set_rom_bank_of_eq (bank : Nat) (gb : gameboy_t) (h : bank = gb.rom_bank) :
    set_rom_bank bank gb = gb := by
  unfold set_rom_bank
  rw [if_neg (not_not.mpr h)]

theorem set_rom_bank_of_ne (bank : Nat) (gb : gameboy_t) (h : bank ≠ gb.rom_bank) :
    set_rom_bank bank gb =
      { gb with
        rom_bank := clamped_rom_bank bank gb
        memory := fun x =>
          if 0x4000 ≤ x ∧ x < 0x8000 then gb.rom (clamped_rom_bank bank gb * 0x4000 + (x - 0x4000))
          else gb.memory x } := by
  unfold set_rom_bank clamped_rom_bank
  rw [if_pos h]

theorem set_rom_bank_state (bank : Nat) (gb : gameboy_t) :
    (set_rom_bank bank gb).state = gb.state := by
  unfold set_rom_bank
  simp only
  split_ifs <;> rfl

theorem set_rom_bank_twice (b1 b2 : Nat) (gb : gameboy_t) (h1 : b1 ≠ gb.rom_bank)
    (h : b2 = clamped_rom_bank b1 gb ∨ clamped_rom_bank b2 gb = clamped_rom_bank b1 gb) :
    set_rom_bank b2 (set_rom_bank b1 gb) = set_rom_bank b1 gb := by
  rw [set_rom_bank_of_ne b1 gb h1]
  by_cases h2 : b2 = clamped_rom_bank b1 gb
  · exact set_rom_bank_of_eq _ _ h2
  · have h3 : clamped_rom_bank b2 gb = clamped_rom_bank b1 gb := h.resolve_left h2
    rw [set_rom_bank_of_ne _ _ h2]
    have hk : ∀ m : Nat → Nat, clamped_rom_bank b2
        { gb with
          rom_bank := clamped_rom_bank b1 gb
          memory := fun x => if 0x4000 ≤ x ∧ x < 0x8000 then m x else gb.memory x } =
        clamped_rom_bank b2 gb := by
      intro m
      unfold clamped_rom_bank rom_kib header_rom_size
      simp only
      rw [if_neg (by omega)]
    simp only [hk, h3]
    congr 1
    funext x
    by_cases hx : 0x4000 ≤ x ∧ x < 0x8000
    · simp only [hx, and_self, if_true]
    · simp only [hx, if_false]

/-- The arithmetic of two bank-select writes of the same value: with the bank count `n`
zero or above the current bank `rb`, the request of the second write is the clamped bank
of the first or clamps to it. -/
theorem bank_select_clamp_stable (rb v n : Nat) (hn : n < 256) (h : n = 0 ∨ rb < n) :
    let b1 := rb % 256 / 32 * 32 + v % 32
    let c1 := ((min (max (b1 : Int) 1) ((n : Int) - 1)) % 256).toNat
    let b2 := c1 % 256 / 32 * 32 + v % 32
    b1 ≠ rb →
      (b2 = c1 ∨ ((min (max (b2 : Int) 1) ((n : Int) - 1)) % 256).toNat = c1) := by
  intro b1 c1 b2 hne
  simp only [b2, c1, b1] at *
  omega

/-- With the ROM size code 33 the shift count wraps to 1: `rom_kib` is 64, the bank count is
4, and from ROM bank 0x25 two writes of 0x01 to 0x2000 give bank 3, then bank 1. -/
theorem rom_kib_size_code_33 :
    size_code_33_example.state.dma_transfer = false ∧
    header_rom_size size_code_33_example = 33 ∧ rom_kib size_code_33_example = 64 ∧
    (rom_kib size_code_33_example / 16) % 256 = 4 ∧
    (mem_w 0x2000 0x01 size_code_33_example).rom_bank = 3 ∧
    (mem_w 0x2000 0x01 (mem_w 0x2000 0x01 size_code_33_example)).rom_bank = 1 := by
  decide!

/-- The ROM size codes 0..31 give `32 * 2 ^ code` truncated to 16 bits, and a code and the
code plus 32 give the same size. -/
theorem rom_kib_of_code (gb : gameboy_t) :
    (header_rom_size gb < 32 → rom_kib gb = (32 * 2 ^ header_rom_size gb) % 65536) ∧
    rom_kib { gb with memory := store gb.memory 0x0148 (header_rom_size gb + 32) } =
      rom_kib gb := by
  constructor
  · intro h
    unfold rom_kib
    rw [Nat.mod_eq_of_lt h]
  · unfold rom_kib header_rom_size
    simp only [store, if_true]
    rw [Nat.add_mod_right]

/-! # Claims C11 to C20 -/

/-- C11: each of the eleven illegal opcodes leaves the whole state as it was, so no register,
flag or memory cell changes, and the cycle counter does not move either: from the zero state
it stays 0, where NOP makes it 4. -/
theorem illegal_opcodes_add_no_cycles (gb : gameboy_t) :
    execute_op 0xD3 gb = gb ∧ execute_op 0xDB gb = gb ∧ execute_op 0xDD gb = gb ∧
    execute_op 0xE3 gb = gb ∧ execute_op 0xE4 gb = gb ∧ execute_op 0xEB gb = gb ∧
    execute_op 0xEC gb = gb ∧ execute_op 0xED gb = gb ∧ execute_op 0xF4 gb = gb ∧
    execute_op 0xFC gb = gb ∧ execute_op 0xFD gb = gb ∧
    (execute_op 0xD3 gb_zero).op_cycles = 0 ∧ (execute_op 0x00 gb_zero).op_cycles = 4 :=
  ⟨rfl, rfl, rfl, rfl, rfl, rfl, rfl, rfl, rfl, rfl, rfl, by decide, by decide⟩

/-- C12, counterexample: RET NZ costs 20 cycles taken and 8 untaken, CALL NZ costs 24 taken and
12 untaken: the taken cost is 12 more, not 4 more. -/
theorem ret_call_taken_cost_twelve_more :
    condition 0xC0 branch_nz_example = true ∧ condition 0xC0 branch_z_example = false ∧
    branch_nz_example.op_cycles = 0 ∧ branch_z_example.op_cycles = 0 ∧
    (execute_op 0xC0 branch_nz_example).op_cycles = 20 ∧
    (execute_op 0xC0 branch_z_example).op_cycles = 8 ∧
    (execute_op 0xC4 branch_nz_example).op_cycles = 24 ∧
    (execute_op 0xC4 branch_z_example).op_cycles = 12 := by
  decide

/-- C12, amended: for every state, a conditional JR adds 8 cycles and a conditional JP adds 12,
plus 4 when the condition holds; a conditional CALL adds 12 and a conditional RET adds 8, plus
12 when the condition holds (the counter is a byte). -/
theorem conditional_branch_cycles (op : Nat) (gb : gameboy_t) :
    (op ∈ [0x20, 0x28, 0x30, 0x38] →
      (execute_op op gb).op_cycles =
        (gb.op_cycles + 8 + (if condition op gb = true then 4 else 0)) % 256) ∧
    (op ∈ [0xC2, 0xCA, 0xD2, 0xDA] →
      (execute_op op gb).op_cycles =
        (gb.op_cycles + 12 + (if condition op gb = true then 4 else 0)) % 256) ∧
    (op ∈ [0xC4, 0xCC, 0xD4, 0xDC] →
      (execute_op op gb).op_cycles =
        (gb.op_cycles + 12 + (if condition op gb = true then 12 else 0)) % 256) ∧
    (op ∈ [0xC0, 0xC8, 0xD0, 0xD8] →
      (execute_op op gb).op_cycles =
        (gb.op_cycles + 8 + (if condition op gb = true then 12 else 0)) % 256) := by
  refine ⟨fun h => ?_, fun h => ?_, fun h => ?_, fun h => ?_⟩
  · rw [execute_op_jr_cond op gb h, op_jr_cond_cycles]
  · rw [execute_op_jp_cond op gb h, op_jp_cond_cycles]
  · rw [execute_op_call_cond op gb h, op_call_cond_cycles]
  · rw [execute_op_ret_cond op gb h, op_ret_cond_cycles]

/-- C12 at JR NZ taken, JP NZ untaken, CALL NZ taken and RET NZ untaken, from a cycle count
of 0: 12, 12, 24 and 8 cycles. -/
theorem conditional_branch_cycles_witness :
    (execute_op 0x20 branch_nz_example).op_cycles = 12 ∧
    (execute_op 0xC2 branch_z_example).op_cycles = 12 ∧
    (execute_op 0xC4 branch_nz_example).op_cycles = 24 ∧
    (execute_op 0xC0 branch_z_example).op_cycles = 8 :=
  ⟨(conditional_branch_cycles 0x20 branch_nz_example).1 (by decide),
   (conditional_branch_cycles 0xC2 branch_z_example).2.1 (by decide),
   (conditional_branch_cycles 0xC4 branch_nz_example).2.2.1 (by decide),
   (conditional_branch_cycles 0xC0 branch_z_example).2.2.2 (by decide)⟩

/-- C13: on the loaded 64-bank cartridge with ROM bank 0x21 selected and no DMA, the write of
0x00 to 0x2000 leaves ROM bank 0x20: the upper bits stay, and the low five bits are 0, not 1.
Right after `load`, where `rom_bank` is 0, the same write leaves it 0. -/
theorem bank_select_zero_keeps_low_bits_zero :
    bank_21_example.state.dma_transfer = false ∧ rom_kib bank_21_example / 16 = 64 ∧
    bank_21_example.rom_bank = 0x21 ∧ (mem_w 0x2000 0x00 bank_21_example).rom_bank = 0x20 ∧
    cart_loaded.rom_bank = 0 ∧ (mem_w 0x2000 0x00 cart_loaded).rom_bank = 0 := by
  decide!

/-- C14, counterexample: eight passes of the loop after `load` leave ROM bank 0x25 selected,
the header byte 0x0148 overwritten with 0x01 (four banks) and no DMA; there one write of
0x01 to 0x2000 gives ROM bank 3 and a second one gives ROM bank 1. -/
theorem bank_select_write_twice_differs :
    (run 8 cart_loaded).state.dma_transfer = false ∧ (run 8 cart_loaded).rom_bank = 0x25 ∧
    (rom_kib (run 8 cart_loaded) / 16) % 256 = 4 ∧
    (mem_w 0x2000 0x01 (run 8 cart_loaded)).rom_bank = 3 ∧
    (mem_w 0x2000 0x01 (mem_w 0x2000 0x01 (run 8 cart_loaded))).rom_bank = 1 := by
  decide!

/-- C14, amended: for every state with no DMA whose ROM bank is below the bank count
`rom_kib/16` (a byte; or whose bank count is 0), every address in 0x2000..0x3FFF and every
value, the write done twice yields exactly the state of the write done once. -/
theorem bank_select_write_idempotent (address v : Nat) (gb : gameboy_t)
    (hdma : gb.state.dma_transfer = false) (ha : 0x2000 ≤ address ∧ address ≤ 0x3FFF)
    (hb : (rom_kib gb / 16) % 256 = 0 ∨ gb.rom_bank < (rom_kib gb / 16) % 256) :
    mem_w address v (mem_w address v gb) = mem_w address v gb := by
  rw [mem_w_rom_select address v gb hdma ha]
  by_cases h1 : (gb.rom_bank &&& 0xE0) ||| (v &&& 0x1F) = gb.rom_bank
  · rw [set_rom_bank_of_eq _ _ h1, mem_w_rom_select address v gb hdma ha]
    exact set_rom_bank_of_eq _ _ h1
  · have hd : (set_rom_bank ((gb.rom_bank &&& 0xE0) ||| (v &&& 0x1F)) gb).state.dma_transfer = false := by
      rw [set_rom_bank_state]; exact hdma
    rw [mem_w_rom_select address v _ hd ha]
    apply set_rom_bank_twice _ _ gb h1
    have hr : (set_rom_bank ((gb.rom_bank &&& 0xE0) ||| (v &&& 0x1F)) gb).rom_bank =
        clamped_rom_bank ((gb.rom_bank &&& 0xE0) ||| (v &&& 0x1F)) gb := by
      rw [set_rom_bank_of_ne _ _ h1]
    rw [hr]
    have hn : (rom_kib gb / 16) % 256 < 256 := Nat.mod_lt _ (by norm_num)
    have hlt : gb.rom_bank % 256 = gb.rom_bank ∨ (rom_kib gb / 16) % 256 = 0 := by omega
    rw [bank_low_bits] at h1 ⊢
    rw [bank_low_bits]
    unfold clamped_rom_bank
    rcases hlt with hlt | hlt
    · have hb2 : (rom_kib gb / 16) % 256 = 0 ∨ gb.rom_bank % 256 < (rom_kib gb / 16) % 256 := by
        omega
      have hne : gb.rom_bank % 256 % 256 / 32 * 32 + v % 32 ≠ gb.rom_bank % 256 := by
        omega
      have k := bank_select_clamp_stable (gb.rom_bank % 256) v ((rom_kib gb / 16) % 256) hn hb2 hne
      simp only [Nat.mod_mod] at k
      exact k
    · rw [hlt]
      generalize gb.rom_bank = rb
      omega

/-- C14 on the loaded cartridge with ROM bank 0x21 of 64 selected: the write of 0x00 to 0x2000
done twice gives the state of the write done once. -/
theorem bank_select_write_idempotent_witness :
    mem_w 0x2000 0x00 (mem_w 0x2000 0x00 bank_21_example) = mem_w 0x2000 0x00 bank_21_example :=
  bank_select_write_idempotent 0x2000 0x00 bank_21_example (by decide!) (by decide) (by decide!)

/-- C15: right after `load` of a 64-bank cartridge (and of no bus write at all) `rom_bank`
is 0, and a write of 0x00 to 0x2000 leaves it 0. -/
theorem rom_bank_zero_after_reset :
    cart_loaded.rom_path_set = true ∧ rom_kib cart_loaded / 16 = 64 ∧
    cart_loaded.rom_bank = 0 ∧ (reset none gb_zero).rom_bank = 0 ∧
    (mem_w 0x2100 0x00 cart_loaded).rom_bank = 0 := by
  decide!

/-- C16: on the loaded cartridge with one RAM bank, in RAM banking mode and with no DMA, the
write of 0x03 to 0x4000 selects RAM bank 3. -/
theorem ram_bank_select_is_not_clamped :
    ram_kib ram_mode_example / 8 = 1 ∧ ram_mode_example.state.mbc1_mode = true ∧
    ram_mode_example.state.dma_transfer = false ∧ ram_mode_example.ram_bank = 0 ∧
    (mem_w 0x4000 0x03 ram_mode_example).ram_bank = 3 := by
  decide!

/-- C17: eight passes of the loop after `load` (seven instructions, then the dispatch of the
VBlank interrupt with SP = 0x014A) leave no DMA in progress and the bytes 0x01 and 0x02 at
0x0148 and 0x0149, where the ROM holds 0x05 and 0x02. -/
theorem interrupt_push_overwrites_rom_image :
    cart_loaded.rom_path_set = true ∧
    (run 7 cart_loaded).registers.sp = 0x014A ∧ (run 7 cart_loaded).registers.pc = 0x0201 ∧
    (run 8 cart_loaded).state.dma_transfer = false ∧
    (run 8 cart_loaded).rom 0x0148 = 0x05 ∧ mem_r 0x0148 (run 8 cart_loaded) = 0x01 ∧
    (run 8 cart_loaded).rom 0x0149 = 0x02 ∧ mem_r 0x0149 (run 8 cart_loaded) = 0x02 := by
  decide!

/-- C18: on the loaded cartridge (no DMA) the writes of 0x0A to 0x0000, 0x55 to 0xA000 and
0x00 to 0x0000 leave cartridge RAM disabled, and the read of 0xA000 returns 0x55. -/
theorem disabled_ram_read_returns_cell :
    cart_loaded.state.dma_transfer = false ∧
    (mem_w 0x0000 0x00 (mem_w 0xA000 0x55 (mem_w 0x0000 0x0A cart_loaded))).state.ram = false ∧
    mem_r 0xA000 (mem_w 0x0000 0x00 (mem_w 0xA000 0x55 (mem_w 0x0000 0x0A cart_loaded))) = 0x55 := by
  decide!

/-- C19: for every state (whatever the DMA flag, the PPU locks, the RAM enable and the
banking mode), every address in 0xFF80..0xFFFE and every value, the write followed by the
read returns the value, and the write changes the one cell and nothing else: no other
memory cell, no flag of the bus state, neither bank register. -/
theorem hram_write_then_read (a v : Nat) (gb : gameboy_t) (ha : 0xFF80 ≤ a ∧ a ≤ 0xFFFE) :
    mem_r a (mem_w a v gb) = v ∧
    mem_w a v gb = { gb with memory := store gb.memory a v } ∧
    (∀ x, x ≠ a → (mem_w a v gb).memory x = gb.memory x) ∧
    (mem_w a v gb).state = gb.state ∧
    (mem_w a v gb).rom_bank = gb.rom_bank ∧ (mem_w a v gb).ram_bank = gb.ram_bank := by
  have e := mem_w_hram a v gb ha
  have n1 : ¬ (a ≥ 0xFE00 ∧ a ≤ 0xFE9F) := by omega
  have n2 : ¬ (a ≥ 0x8000 ∧ a ≤ 0x9FFF) := by omega
  have n3 : ¬ (a < 0xFF80 ∨ a > 0xFFFE) := by omega
  refine ⟨?_, e, ?_, ?_, ?_, ?_⟩
  · rw [e]
    unfold mem_r
    rw [if_pos ⟨fun h => n1 h.2, fun h => n2 h.2, fun h => n3 h.2⟩]
    simp only [store, if_true]
  · intro x hx
    rw [e]
    simp only [store, hx, if_false]
  · rw [e]
  · rw [e]
  · rw [e]

/-- C19 with a DMA in progress and both PPU locks set: the write of 0x5A to 0xFF80 is read
back, and the bus state is as before. -/
theorem hram_write_then_read_witness :
    bus_locked_example.state.dma_transfer = true ∧
    mem_r 0xFF80 (mem_w 0xFF80 0x5A bus_locked_example) = 0x5A ∧
    (mem_w 0xFF80 0x5A bus_locked_example).state = bus_locked_example.state :=
  ⟨rfl, (hram_write_then_read 0xFF80 0x5A bus_locked_example (by decide)).1,
    (hram_write_then_read 0xFF80 0x5A bus_locked_example (by decide)).2.2.2.1⟩

/-- C20: after `load`, the second pass of the loop executes LDH (0x46),A and starts the DMA;
ten passes later, 172 cycles of `op_cycles` after the start of that instruction, the DMA
flag is clear and the read of 0x8000 returns the cell; one pass earlier, at 156, the flag
is set and the read returns 0xFF. -/
theorem dma_ends_after_160_t_cycles :
    (run 1 dma_cart_loaded).state.dma_transfer = false ∧
    (run 2 dma_cart_loaded).state.dma_transfer = true ∧
    (run 2 dma_cart_loaded).cycles.dma = 12 ∧
    (run 11 dma_cart_loaded).state.dma_transfer = true ∧
    (run 11 dma_cart_loaded).cycles.dma = 156 ∧
    mem_r 0x8000 (run 11 dma_cart_loaded) = 0xFF ∧
    (run 12 dma_cart_loaded).state.dma_transfer = false ∧
    (run 12 dma_cart_loaded).cycles.dma = 172 ∧
    mem_r 0x8000 (run 12 dma_cart_loaded) = 0x00 := by
  decide!

/-! ## What `scan_oam` and `pixel_transfer` leave alone -/

theorem ppu_only_refl (a : gameboy_t) : ppu_only a a := rfl

theorem ppu_only_trans (a b c : gameboy_t) (h1 : ppu_only a b) (h2 : ppu_only b c) :
    ppu_only a c := by
  unfold ppu_only at *
  rw [h1, h2]

theorem ppu_only_foldl (α : Type) (f : gameboy_t → α → gameboy_t)
    (hf : ∀ g x, ppu_only (f g x) g) (l : List α) (gb : gameboy_t) :
    ppu_only (l.foldl f gb) gb := by
  induction l generalizing gb with
  | nil => exact ppu_only_refl gb
  | cons x l ih =>
    rw [List.foldl_cons]
    exact ppu_only_trans _ _ _ (ih (f gb x)) (hf gb x)

theorem ppu_only_memory (a b : gameboy_t) (h : ppu_only a b) : a.memory = b.memory := by
  unfold ppu_only at h; rw [h]

theorem ppu_only_cycles (a b : gameboy_t) (h : ppu_only a b) : a.cycles = b.cycles := by
  unfold ppu_only at h; rw [h]

theorem ppu_only_state (a b : gameboy_t) (h : ppu_only a b) : a.state = b.state := by
  unfold ppu_only at h; rw [h]

theorem ppu_only_registers (a b : gameboy_t) (h : ppu_only a b) : a.registers = b.registers := by
  unfold ppu_only at h; rw [h]

theorem ppu_only_ite (c : Prop) [Decidable c] (a b g : gameboy_t) (ha : ppu_only a g)
    (hb : ppu_only b g) : ppu_only (if c then a else b) g := by
  split_ifs
  · exact ha
  · exact hb

theorem scan_oam_loop_only (n i : Nat) (gb : gameboy_t) : ppu_only (scan_oam_loop n i gb) gb := by
  induction n generalizing i gb with
  | zero => exact ppu_only_refl gb
  | succ n ih =>
    unfold scan_oam_loop
    simp only
    apply ppu_only_ite
    · apply ppu_only_ite
      · rfl
      · exact ppu_only_trans _ _ _ (ih _ _) rfl
    · exact ih _ _

theorem scan_oam_only (gb : gameboy_t) : ppu_only (scan_oam gb) gb := by
  unfold scan_oam
  exact ppu_only_trans _ _ _ (scan_oam_loop_only _ _ _) rfl

theorem draw_tile_on_scanline_only (x y : Int) (line palette : Nat) (flags : draw_flags_t)
    (gb : gameboy_t) : ppu_only (draw_tile_on_scanline x y line palette flags gb) gb := by
  unfold draw_tile_on_scanline
  apply ppu_only_foldl
  intro g i
  simp only
  apply ppu_only_ite
  · rfl
  · exact ppu_only_refl g

theorem bg_loop_only (fuel i e : Nat) (x : Int) (gb : gameboy_t) :
    ppu_only (bg_loop fuel i e x gb) gb := by
  induction fuel generalizing i x gb with
  | zero => exact ppu_only_refl gb
  | succ fuel ih =>
    unfold bg_loop
    simp only
    apply ppu_only_ite
    · exact ppu_only_trans _ _ _ (ih _ _ _) (draw_tile_on_scanline_only _ _ _ _ _ _)
    · exact ppu_only_refl gb

theorem pixel_transfer_only (gb : gameboy_t) : ppu_only (pixel_transfer gb) gb := by
  unfold pixel_transfer
  simp only
  apply ppu_only_ite
  · refine ppu_only_trans _ _ _
      (ppu_only_foldl Nat _ (fun g i => draw_tile_on_scanline_only _ _ _ _ _ g) _ _) ?_
    apply ppu_only_ite
    · apply ppu_only_ite
      · exact ppu_only_trans _ _ _
          (ppu_only_foldl Nat _ (fun g i => draw_tile_on_scanline_only _ _ _ _ _ g) _ _)
          (bg_loop_only _ _ _ _ _)
      · exact bg_loop_only _ _ _ _ _
    · exact ppu_only_refl gb
  · apply ppu_only_ite
    · apply ppu_only_ite
      · exact ppu_only_trans _ _ _
          (ppu_only_foldl Nat _ (fun g i => draw_tile_on_scanline_only _ _ _ _ _ g) _ _)
          (bg_loop_only _ _ _ _ _)
      · exact bg_loop_only _ _ _ _ _
    · exact ppu_only_refl gb

/-! ## The effect of `set_mode` and `set_ly` on the bytes the PPU reads -/

theorem and_03 (x : Nat) : x &&& 0x03 = x % 4 := Nat.and_pow_two_sub_one_eq_mod x 2

theorem stat_mode_written (x k : Nat) (hk : k < 4) : ((x &&& 0xFC) ||| k) &&& 0x03 = k := by
  have h0 : (0xFC &&& 0x03 : Nat) = 0 := by decide
  rw [Nat.and_comm, Nat.and_or_distrib_left, Nat.and_comm 0x03 (x &&& 0xFC), Nat.and_assoc, h0,
    Nat.and_zero, Nat.zero_or, Nat.and_comm, and_03]
  exact Nat.mod_eq_of_lt hk

theorem set_bit_2_mode (x : Nat) (b : Bool) : set_bit x 2 b &&& 0x03 = x &&& 0x03 := by
  unfold set_bit
  cases b
  · have h0 : ((0xFF ^^^ (1 <<< 2)) &&& 0x03 : Nat) = 0x03 := by decide
    simp only [Bool.false_eq_true, if_false]
    rw [Nat.and_assoc, h0]
  · have h0 : (0x03 &&& (1 <<< 2) : Nat) = 0 := by decide
    simp only [if_true]
    rw [Nat.and_comm, Nat.and_or_distrib_left, h0, Nat.or_zero, Nat.and_comm]

theorem set_bit_true_self (x i : Nat) : get_bit (set_bit x i true) i = true := by
  unfold get_bit set_bit
  simp only [if_true]
  rw [Nat.testBit_or, Nat.one_shiftLeft, Nat.testBit_two_pow_self, Bool.or_true]

theorem set_bit_true_other (x i j : Nat) (h : i ≠ j) :
    get_bit (set_bit x i true) j = get_bit x j := by
  unfold get_bit set_bit
  simp only [if_true]
  rw [Nat.testBit_or, Nat.one_shiftLeft, Nat.testBit_two_pow]
  simp [h]

theorem set_bit_2_self (x : Nat) (b : Bool) : get_bit (set_bit x 2 b) 2 = b := by
  cases b
  · unfold get_bit set_bit
    have h0 : Nat.testBit (0xFF ^^^ (1 <<< 2)) 2 = false := by decide
    simp only [Bool.false_eq_true, if_false]
    rw [Nat.testBit_and, h0, Bool.and_false]
  · exact set_bit_true_self x 2

theorem set_bit_2_bit6 (x : Nat) (b : Bool) : get_bit (set_bit x 2 b) 6 = get_bit x 6 := by
  cases b
  · unfold get_bit set_bit
    have h0 : Nat.testBit (0xFF ^^^ (1 <<< 2)) 6 = true := by decide
    simp only [Bool.false_eq_true, if_false]
    rw [Nat.testBit_and, h0, Bool.and_true]
  · exact set_bit_true_other x 2 6 (by decide)

theorem set_mode_memory (m : lcd_mode_e) (gb : gameboy_t) (a : Nat) (h1 : a ≠ 0xFF41)
    (h2 : a ≠ 0xFF0F) : (set_mode m gb).memory a = gb.memory a := by
  cases m <;> simp [set_mode, set_mem_bit, store, h1, h2, apply_ite gameboy_t.memory] <;>
    split_ifs <;> simp [store, h2]

theorem set_mode_stat (m : lcd_mode_e) (gb : gameboy_t) :
    (set_mode m gb).memory 0xFF41 = (gb.memory 0xFF41 &&& 0xFC) ||| m.val := by
  cases m <;> simp [set_mode, set_mem_bit, store, apply_ite gameboy_t.memory] <;>
    split_ifs <;> simp [store]

theorem set_mode_cycles (m : lcd_mode_e) (gb : gameboy_t) :
    (set_mode m gb).cycles = gb.cycles := by
  cases m <;> simp [set_mode, set_mem_bit, apply_ite gameboy_t.cycles]

theorem set_mode_ime (m : lcd_mode_e) (gb : gameboy_t) :
    (set_mode m gb).state.ime = gb.state.ime ∧
    (set_mode m gb).state.pending_ime = gb.state.pending_ime := by
  cases m <;> simp [set_mode, set_mem_bit, apply_ite gameboy_t.state]

theorem set_mode_vblank_bit (m : lcd_mode_e) (gb : gameboy_t) :
    get_bit ((set_mode m gb).memory 0xFF0F) 0 =
      (if m = lcd_mode_e.LCD_MODE_VBLANK then true else get_bit (gb.memory 0xFF0F) 0) := by
  cases m <;>
    simp [set_mode, set_mem_bit, store, apply_ite gameboy_t.memory, set_bit_true_self,
      set_bit_true_other] <;>
    split_ifs <;> simp [store, set_bit_true_other]

theorem set_mode_mode (m : lcd_mode_e) (gb : gameboy_t) :
    lcd_status_mode (set_mode m gb) = m.val := by
  unfold lcd_status_mode
  rw [set_mode_stat]
  exact stat_mode_written _ _ (by cases m <;> decide)

theorem set_ly_of_eq (v : Nat) (gb : gameboy_t) (h : lcd_ly gb = v) : set_ly v gb = gb := by
  unfold set_ly
  rw [if_neg (not_not.mpr h)]

/-- The body of `set_ly` when the value differs from LY. -/
theorem set_ly_of_ne (v : Nat) (gb : gameboy_t) (h : lcd_ly gb ≠ v) :
    set_ly v gb =
      { gb with
        memory :=
          if v = gb.memory 0xFF45 ∧ get_bit (gb.memory 0xFF41) 6 = true then
            store
              (store (store gb.memory 0xFF44 v) 0xFF41
                (set_bit (gb.memory 0xFF41) 2 (decide (v = gb.memory 0xFF45))))
              0xFF0F (set_bit (gb.memory 0xFF0F) 1 true)
          else
            store (store gb.memory 0xFF44 v) 0xFF41
              (set_bit (gb.memory 0xFF41) 2 (decide (v = gb.memory 0xFF45))) } := by
  unfold set_ly
  rw [if_pos h]
  simp only [set_mem_bit, lcd_ly, lcd_lyc, store, set_bit_2_self, set_bit_2_bit6,
    decide_eq_true_eq, if_true]
  simp
  split_ifs <;> rfl

theorem set_ly_memory (v : Nat) (gb : gameboy_t) (a : Nat) (h0 : a ≠ 0xFF44) (h1 : a ≠ 0xFF41)
    (h2 : a ≠ 0xFF0F) : (set_ly v gb).memory a = gb.memory a := by
  by_cases h : lcd_ly gb = v
  · rw [set_ly_of_eq v gb h]
  · rw [set_ly_of_ne v gb h]
    simp only
    split_ifs <;> simp [store, h0, h1, h2]

theorem set_ly_ly (v : Nat) (gb : gameboy_t) : lcd_ly (set_ly v gb) = v := by
  by_cases h : lcd_ly gb = v
  · rw [set_ly_of_eq v gb h]; exact h
  · rw [set_ly_of_ne v gb h]
    unfold lcd_ly
    simp only
    split_ifs <;> simp [store]

theorem set_ly_cycles (v : Nat) (gb : gameboy_t) : (set_ly v gb).cycles = gb.cycles := by
  by_cases h : lcd_ly gb = v
  · rw [set_ly_of_eq v gb h]
  · rw [set_ly_of_ne v gb h]

theorem set_ly_state (v : Nat) (gb : gameboy_t) : (set_ly v gb).state = gb.state := by
  by_cases h : lcd_ly gb = v
  · rw [set_ly_of_eq v gb h]
  · rw [set_ly_of_ne v gb h]

theorem set_ly_mode (v : Nat) (gb : gameboy_t) :
    lcd_status_mode (set_ly v gb) = lcd_status_mode gb := by
  by_cases h : lcd_ly gb = v
  · rw [set_ly_of_eq v gb h]
  · rw [set_ly_of_ne v gb h]
    unfold lcd_status_mode
    simp only
    split_ifs <;> simp [store, set_bit_2_mode]

theorem set_ly_vblank_bit (v : Nat) (gb : gameboy_t) :
    get_bit ((set_ly v gb).memory 0xFF0F) 0 = get_bit (gb.memory 0xFF0F) 0 := by
  by_cases h : lcd_ly gb = v
  · rw [set_ly_of_eq v gb h]
  · rw [set_ly_of_ne v gb h]
    simp only
    split_ifs <;> simp [store, set_bit_true_other]

/-! ## The PPU lines of the loop on the view -/

theorem lcd_enable_set_mode (m : lcd_mode_e) (gb : gameboy_t) :
    lcd_enable (set_mode m gb) = lcd_enable gb := by
  unfold lcd_enable
  rw [set_mode_memory m gb 0xFF40 (by decide) (by decide)]

theorem lcd_enable_set_ly (v : Nat) (gb : gameboy_t) :
    lcd_enable (set_ly v gb) = lcd_enable gb := by
  unfold lcd_enable
  rw [set_ly_memory v gb 0xFF40 (by decide) (by decide) (by decide)]

theorem lcd_enable_only (a b : gameboy_t) (h : ppu_only a b) : lcd_enable a = lcd_enable b := by
  unfold lcd_enable
  rw [ppu_only_memory a b h]

theorem ppu_view_only (a b : gameboy_t) (h : ppu_only a b) : ppu_view_of a = ppu_view_of b := by
  unfold ppu_view_of lcd_ly lcd_status_mode
  rw [ppu_only_memory a b h, ppu_only_cycles a b h]

theorem ppu_view_set_mode (m : lcd_mode_e) (gb : gameboy_t) :
    ppu_view_of (set_mode m gb) =
      { ppu_view_of gb with
        mode := m.val
        vblank := if m = lcd_mode_e.LCD_MODE_VBLANK then true else (ppu_view_of gb).vblank } := by
  have h1 : lcd_ly (set_mode m gb) = lcd_ly gb := by
    unfold lcd_ly
    rw [set_mode_memory m gb 0xFF44 (by decide) (by decide)]
  unfold ppu_view_of
  rw [h1, set_mode_mode, set_mode_cycles, set_mode_vblank_bit]

theorem ppu_view_set_ly (v : Nat) (gb : gameboy_t) :
    ppu_view_of (set_ly v gb) = { ppu_view_of gb with ly := v } := by
  unfold ppu_view_of
  rw [set_ly_ly, set_ly_mode, set_ly_cycles, set_ly_vblank_bit]

theorem ppu_view_set_dots (g : gameboy_t) (x : Nat) :
    ppu_view_of { g with cycles.dots := x } = { ppu_view_of g with dots := x } := rfl

theorem ppu_advance_eq (gb : gameboy_t) :
    ppu_advance gb =
      if lcd_enable gb then
        ppu_switch { gb with cycles.dots := (gb.cycles.dots + gb.op_cycles) % 65536 }
      else gb := rfl

theorem ppu_switch_view (g : gameboy_t) : ppu_view_of (ppu_switch g) = (ppu_view_of g).switch := by
  have hm : (ppu_view_of g).mode = lcd_status_mode g := rfl
  have hd : (ppu_view_of g).dots = g.cycles.dots := rfl
  have hl : (ppu_view_of g).ly = lcd_ly g := rfl
  have s1 := ppu_view_only _ _ (scan_oam_only g)
  have s2 := ppu_view_only _ _ (pixel_transfer_only g)
  have c1 := ppu_only_cycles _ _ (scan_oam_only g)
  have c2 := ppu_only_cycles _ _ (pixel_transfer_only g)
  unfold ppu_switch ppu_view.switch
  rw [hm, hd, hl]
  simp only
  by_cases m2 : lcd_status_mode g = 2
  · rw [if_pos m2, if_pos m2]
    by_cases d : g.cycles.dots ≥ 80
    · rw [if_pos d, if_pos d, ppu_view_set_dots, ppu_view_set_mode, set_mode_cycles, s1, c1]
      rfl
    · rw [if_neg d, if_neg d]
  · rw [if_neg m2, if_neg m2]
    by_cases m3 : lcd_status_mode g = 3
    · rw [if_pos m3, if_pos m3]
      by_cases d : g.cycles.dots ≥ 172
      · rw [if_pos d, if_pos d, ppu_view_set_dots, ppu_view_set_mode, set_mode_cycles, s2, c2]
        rfl
      · rw [if_neg d, if_neg d]
    · rw [if_neg m3, if_neg m3]
      by_cases m0 : lcd_status_mode g = 0
      · rw [if_pos m0, if_pos m0]
        by_cases d : g.cycles.dots ≥ 204
        · rw [if_pos d, if_pos d, set_ly_ly]
          by_cases l : (lcd_ly g + 1) % 256 = 144
          · rw [if_pos l, if_pos l, ppu_view_set_dots, ppu_view_set_mode, set_mode_cycles,
              ppu_view_set_ly, set_ly_cycles]
            rfl
          · rw [if_neg l, if_neg l, ppu_view_set_dots, ppu_view_set_mode, set_mode_cycles,
              ppu_view_set_ly, set_ly_cycles]
            rfl
        · rw [if_neg d, if_neg d]
      · rw [if_neg m0, if_neg m0]
        by_cases m1 : lcd_status_mode g = 1
        · rw [if_pos m1, if_pos m1]
          by_cases d : g.cycles.dots ≥ 456
          · rw [if_pos d, if_pos d, set_ly_ly]
            by_cases l : (lcd_ly g + 1) % 256 = 154
            · rw [if_pos l, if_pos l, ppu_view_set_dots, ppu_view_set_ly, set_ly_cycles,
                ppu_view_set_mode, set_mode_cycles, ppu_view_set_ly, set_ly_cycles]
              rfl
            · rw [if_neg l, if_neg l, ppu_view_set_dots, ppu_view_set_ly, set_ly_cycles]
              rfl
          · rw [if_neg d, if_neg d]
        · rw [if_neg m1, if_neg m1]

/-- With the LCD enabled, `ppu_advance` acts on the view as `ppu_view.advance`. -/
theorem ppu_advance_view (gb : gameboy_t) (hon : lcd_enable gb = true) :
    ppu_view_of (ppu_advance gb) = (ppu_view_of gb).advance gb.op_cycles := by
  rw [ppu_advance_eq, if_pos hon, ppu_switch_view]
  rfl

theorem ppu_switch_enable (g : gameboy_t) : lcd_enable (ppu_switch g) = lcd_enable g := by
  have s1 := lcd_enable_only _ _ (scan_oam_only g)
  have s2 := lcd_enable_only _ _ (pixel_transfer_only g)
  have hdots : ∀ (a : gameboy_t) (x : Nat), lcd_enable { a with cycles.dots := x } = lcd_enable a :=
    fun _ _ => rfl
  unfold ppu_switch
  simp only
  split_ifs <;>
    simp only [hdots, lcd_enable_set_mode, lcd_enable_set_ly, s1, s2]

theorem ppu_advance_enable (gb : gameboy_t) : lcd_enable (ppu_advance gb) = lcd_enable gb := by
  rw [ppu_advance_eq]
  split_ifs
  · rw [ppu_switch_enable]; rfl
  · rfl

theorem ppu_advance_off (gb : gameboy_t) (hoff : lcd_enable gb = false) : ppu_advance gb = gb := by
  rw [ppu_advance_eq, hoff]
  rfl

/-! ## One frame of PPU passes -/

theorem frame_view_succ (i : Nat) (hi : i < 17556) :
    frame_view (i + 1) = (frame_view i).advance 4 := by
  have h1 : ¬ (i ≥ 17556) := by omega
  unfold ppu_view.advance ppu_view.switch
  rw [frame_view, frame_view, if_neg h1]
  by_cases a : i / 114 < 144
  · rw [if_pos a]
    by_cases b : i % 114 < 20
    · rw [if_pos b]
      simp only [if_true]
      split_ifs <;>
        simp only [ppu_view.mk.injEq, and_true, true_and, Nat.reduceEqDiff, Bool.true_eq_false,
          Bool.false_eq_true, and_false, false_and, eq_self_iff_true] <;>
        omega
    · rw [if_neg b]
      by_cases c : i % 114 < 63
      · rw [if_pos c]
        simp only [Nat.reduceEqDiff, if_false, if_true]
        split_ifs <;>
          simp only [ppu_view.mk.injEq, and_true, true_and, Nat.reduceEqDiff, Bool.true_eq_false,
            Bool.false_eq_true, and_false, false_and, eq_self_iff_true] <;>
          omega
      · rw [if_neg c]
        simp only [Nat.reduceEqDiff, if_false, if_true]
        split_ifs <;>
          simp only [ppu_view.mk.injEq, and_true, true_and, Nat.reduceEqDiff, Bool.true_eq_false,
            Bool.false_eq_true, and_false, false_and, eq_self_iff_true] <;>
          omega
  · rw [if_neg a]
    simp only [Nat.reduceEqDiff, if_false, if_true]
    split_ifs <;>
      simp only [ppu_view.mk.injEq, and_true, true_and, Nat.reduceEqDiff, Bool.true_eq_false,
        Bool.false_eq_true, and_false, false_and, eq_self_iff_true] <;>
      omega

theorem ppu_ticks_enable (n : Nat) (gb : gameboy_t) :
    lcd_enable (ppu_ticks n gb) = lcd_enable gb := by
  induction n with
  | zero => rfl
  | succ n ih =>
    show lcd_enable (ppu_advance { ppu_ticks n gb with op_cycles := 4 }) = _
    rw [ppu_advance_enable]
    exact ih

/-- From the start of a frame, the view after `i` passes of four cycles is `frame_view i`. -/
theorem ppu_ticks_view (gb : gameboy_t) (hon : lcd_enable gb = true)
    (h0 : ppu_view_of gb = frame_view 0) (i : Nat) (hi : i ≤ 17556) :
    ppu_view_of (ppu_ticks i gb) = frame_view i := by
  induction i with
  | zero => exact h0
  | succ n ih =>
    have hn : n < 17556 := hi
    have he : lcd_enable { ppu_ticks n gb with op_cycles := 4 } = true := by
      have := ppu_ticks_enable n gb
      rw [hon] at this
      exact this
    show ppu_view_of (ppu_advance { ppu_ticks n gb with op_cycles := 4 }) = _
    rw [ppu_advance_view _ he, frame_view_succ n hn, ← ih (Nat.le_of_lt hn)]
    rfl

theorem frame_view_vblank (i : Nat) : (frame_view i).vblank = decide (16416 ≤ i) := by
  unfold frame_view
  split_ifs <;> simp only [decide_eq_true_eq, Bool.true_eq, Bool.false_eq,
    decide_eq_false_iff_not] <;> omega

theorem frame_view_mode_one (i : Nat) : (frame_view i).mode = 1 ↔ (16416 ≤ i ∧ i < 17556) := by
  unfold frame_view
  split_ifs <;> simp only [Nat.reduceEqDiff, false_iff, true_iff, OfNat.ofNat_ne_one] <;> omega

theorem ppu_view_switch_invariant (v : ppu_view) (hly : v.ly ≤ 153)
    (hm : v.mode = 1 ↔ 144 ≤ v.ly) :
    ((ppu_view.switch v).ly ≤ 153) ∧
    ((ppu_view.switch v).mode = 1 ↔ 144 ≤ (ppu_view.switch v).ly) ∧
    ((ppu_view.switch v).ly = v.ly ∨ (ppu_view.switch v).ly = v.ly + 1 ∨
      (v.ly = 153 ∧ (ppu_view.switch v).ly = 0 ∧ (ppu_view.switch v).mode = 2)) := by
  unfold ppu_view.switch
  split_ifs <;> simp only [] <;> refine ⟨?_, ⟨?_, ?_⟩, ?_⟩ <;>
    first
    | omega
    | simp only [true_or, false_imp_iff, imp_true_iff]
    | (simp only [and_true, false_or, true_and]; omega)

/-- The four fields of the view, read off `ppu_ticks` along a frame. -/
theorem ppu_ticks_fields (gb : gameboy_t) (hon : lcd_enable gb = true)
    (h0 : ppu_view_of gb = frame_view 0) (i : Nat) (hi : i ≤ 17556) :
    lcd_ly (ppu_ticks i gb) = (frame_view i).ly ∧
    lcd_status_mode (ppu_ticks i gb) = (frame_view i).mode ∧
    (ppu_ticks i gb).cycles.dots = (frame_view i).dots ∧
    get_bit ((ppu_ticks i gb).memory 0xFF0F) 0 = (frame_view i).vblank := by
  rw [← ppu_ticks_view gb hon h0 i hi]
  exact ⟨rfl, rfl, rfl, rfl⟩

/-! ## Interrupt enable across a pass -/

theorem step_eq (gb : gameboy_t) : step gb = pass_execute (pass_dispatch gb) := rfl

theorem dma_advance_ime (gb : gameboy_t) :
    (dma_advance gb).state.ime = gb.state.ime ∧
    (dma_advance gb).state.pending_ime = gb.state.pending_ime ∧
    (dma_advance gb).registers = gb.registers := by
  unfold dma_advance
  simp only
  split_ifs <;> exact ⟨rfl, rfl, rfl⟩

theorem div_advance_ime (gb : gameboy_t) :
    (div_advance gb).state = gb.state ∧ (div_advance gb).registers = gb.registers := by
  unfold div_advance
  simp only
  split_ifs <;> exact ⟨rfl, rfl⟩

theorem timer_advance_ime (gb : gameboy_t) :
    (timer_advance gb).state = gb.state ∧ (timer_advance gb).registers = gb.registers := by
  unfold timer_advance set_mem_bit
  simp only
  split_ifs <;> exact ⟨rfl, rfl⟩

theorem ppu_switch_ime (g : gameboy_t) :
    (ppu_switch g).state.ime = g.state.ime ∧
    (ppu_switch g).state.pending_ime = g.state.pending_ime ∧
    (ppu_switch g).registers = g.registers := by
  have s1 := ppu_only_state _ _ (scan_oam_only g)
  have s2 := ppu_only_state _ _ (pixel_transfer_only g)
  have r1 := ppu_only_registers _ _ (scan_oam_only g)
  have r2 := ppu_only_registers _ _ (pixel_transfer_only g)
  unfold ppu_switch
  simp only
  split_ifs <;>
    simp only [(set_mode_ime _ _).1, (set_mode_ime _ _).2, set_mode_registers, set_ly_state,
      set_ly_registers, s1, s2, r1, r2, and_self]

theorem ppu_advance_ime (gb : gameboy_t) :
    (ppu_advance gb).state.ime = gb.state.ime ∧
    (ppu_advance gb).state.pending_ime = gb.state.pending_ime ∧
    (ppu_advance gb).registers = gb.registers := by
  rw [ppu_advance_eq]
  split_ifs
  · exact ppu_switch_ime _
  · exact ⟨rfl, rfl, rfl⟩

/-- The DMA, DIV, TIMA and PPU lines of a pass leave IME, the pending-IME latch and the CPU
registers as the instruction left them. -/
theorem pass_execute_ime (gb : gameboy_t) :
    (pass_execute gb).state.ime = (execute_op (fetch gb).1 (fetch gb).2).state.ime ∧
    (pass_execute gb).state.pending_ime =
      (execute_op (fetch gb).1 (fetch gb).2).state.pending_ime ∧
    (pass_execute gb).registers = (execute_op (fetch gb).1 (fetch gb).2).registers := by
  unfold pass_execute
  generalize execute_op (fetch gb).1 (fetch gb).2 = g
  have h1 := ppu_advance_ime (timer_advance (div_advance (dma_advance g)))
  have h2 := timer_advance_ime (div_advance (dma_advance g))
  have h3 := div_advance_ime (dma_advance g)
  have h4 := dma_advance_ime g
  rw [h1.1, h1.2.1, h1.2.2, h2.1, h2.2, h3.1, h3.2, h4.1, h4.2.1, h4.2.2]
  exact ⟨rfl, rfl, rfl⟩

theorem check_interrupt_eq (gb : gameboy_t) :
    check_interrupt gb =
      ime_promote
        (if gb.state.ime then interrupt_enter (interrupt_select gb).1 (interrupt_select gb).2
         else gb) := by
  unfold check_interrupt ime_promote interrupt_enter interrupt_select
  rfl

theorem check_interrupt_ime_off (gb : gameboy_t) (hime : gb.state.ime = false) :
    check_interrupt gb =
      if gb.state.pending_ime = true then
        { gb with state := { gb.state with ime := true, pending_ime := false } }
      else gb := by
  rw [check_interrupt_eq, hime]
  rfl

theorem ime_promote_registers (gb : gameboy_t) : (ime_promote gb).registers = gb.registers := by
  unfold ime_promote
  split_ifs <;> rfl

theorem interrupt_enter_registers (i : Nat) (gb : gameboy_t) (hi : i ≠ 0) :
    (interrupt_enter i gb).registers.pc = i ∧
    (interrupt_enter i gb).registers.sp =
      ((gb.registers.sp + 65535) % 65536 + 65535) % 65536 := by
  unfold interrupt_enter
  rw [if_pos hi]
  exact ⟨rfl, rfl⟩

theorem interrupt_select_pending (gb : gameboy_t)
    (hp : ∃ k, k ∈ [0, 1, 2, 4] ∧ get_bit (gb.memory 0xFFFF) k = true ∧
      get_bit (gb.memory 0xFF0F) k = true) :
    (interrupt_select gb).1 ∈ [0x40, 0x48, 0x50, 0x60] ∧
    (interrupt_select gb).2.registers = gb.registers := by
  obtain ⟨k, hk, he, hf⟩ := hp
  have m40 : (0x40 : Nat) ∈ [0x40, 0x48, 0x50, 0x60] := by decide
  have m48 : (0x48 : Nat) ∈ [0x40, 0x48, 0x50, 0x60] := by decide
  have m50 : (0x50 : Nat) ∈ [0x40, 0x48, 0x50, 0x60] := by decide
  have m60 : (0x60 : Nat) ∈ [0x40, 0x48, 0x50, 0x60] := by decide
  simp only [List.mem_cons, List.mem_singleton, List.not_mem_nil, or_false] at hk
  unfold interrupt_select
  by_cases b0 : (get_bit (gb.memory 0xFFFF) 0 && get_bit (gb.memory 0xFF0F) 0) = true
  · rw [if_pos b0]
    exact ⟨m40, rfl⟩
  · rw [if_neg b0]
    by_cases b1 : (get_bit (gb.memory 0xFFFF) 1 && get_bit (gb.memory 0xFF0F) 1) = true
    · rw [if_pos b1]
      exact ⟨m48, rfl⟩
    · rw [if_neg b1]
      by_cases b2 : (get_bit (gb.memory 0xFFFF) 2 && get_bit (gb.memory 0xFF0F) 2) = true
      · rw [if_pos b2]
        exact ⟨m50, rfl⟩
      · rw [if_neg b2]
        by_cases b4 : (get_bit (gb.memory 0xFFFF) 4 && get_bit (gb.memory 0xFF0F) 4) = true
        · rw [if_pos b4]
          exact ⟨m60, rfl⟩
        · exfalso
          rcases hk with rfl | rfl | rfl | rfl
          · exact b0 (by rw [he, hf]; rfl)
          · exact b1 (by rw [he, hf]; rfl)
          · exact b2 (by rw [he, hf]; rfl)
          · exact b4 (by rw [he, hf]; rfl)

/-- With IME set and one of the VBlank, STAT, timer and joypad interrupts enabled and
pending, `check_interrupt` jumps to a vector and lowers SP by two. -/
theorem check_interrupt_dispatches (gb : gameboy_t) (hime : gb.state.ime = true)
    (hp : ∃ k, k ∈ [0, 1, 2, 4] ∧ get_bit (gb.memory 0xFFFF) k = true ∧
      get_bit (gb.memory 0xFF0F) k = true) :
    (check_interrupt gb).registers.pc ∈ [0x40, 0x48, 0x50, 0x60] ∧
    (check_interrupt gb).registers.sp = (gb.registers.sp + 65534) % 65536 := by
  have h := interrupt_select_pending gb hp
  have hne : (interrupt_select gb).1 ≠ 0 := by
    intro h0
    have h1 := h.1
    rw [h0] at h1
    exact absurd h1 (by decide)
  have he := interrupt_enter_registers (interrupt_select gb).1 (interrupt_select gb).2 hne
  rw [check_interrupt_eq, ime_promote_registers, if_pos hime, he.1, he.2, h.2]
  exact ⟨h.1, by omega⟩

/-! # Claims C21 to C30 -/

/-- C21: on the loaded cartridge with IME = 1 and the serial interrupt alone enabled and pending
(IE = 0x08, IF = 0xE8), `check_interrupt` dispatches nothing: PC, SP, IME, IF and the cycle
count are as before, and PC is not 0x58. -/
theorem serial_interrupt_is_not_dispatched :
    serial_pending_example.state.ime = true ∧
    serial_pending_example.memory 0xFFFF &&& serial_pending_example.memory 0xFF0F &&& 0x1F = 0x08 ∧
    serial_pending_example.registers.pc = 0x0100 ∧
    (check_interrupt serial_pending_example).registers.pc = 0x0100 ∧
    (check_interrupt serial_pending_example).registers.sp = serial_pending_example.registers.sp ∧
    (check_interrupt serial_pending_example).state.ime = true ∧
    (check_interrupt serial_pending_example).memory 0xFF0F = 0xE8 ∧
    (check_interrupt serial_pending_example).op_cycles = serial_pending_example.op_cycles := by
  decide!

/-- C22, counterexample: after DI and EI the machine has IME = 0 and the pending-IME latch set;
`check_interrupt` then sets IME and clears the latch, so the state after the call differs
from the state before it. -/
theorem check_interrupt_promotes_pending_ime :
    ei_pending_example.state.ime = false ∧ ei_pending_example.state.pending_ime = true ∧
    (check_interrupt ei_pending_example).state.ime = true ∧
    (check_interrupt ei_pending_example).state.pending_ime = false := by
  decide!

/-- C22, amended: for every state with IME = 0, `check_interrupt` dispatches nothing; with the
pending-IME latch clear the state after the call equals the state before it, and with the
latch set the call sets IME, clears the latch and changes nothing else. -/
theorem check_interrupt_with_ime_clear (gb : gameboy_t) (hime : gb.state.ime = false) :
    (gb.state.pending_ime = false → check_interrupt gb = gb) ∧
    (gb.state.pending_ime = true →
      check_interrupt gb =
        { gb with state := { gb.state with ime := true, pending_ime := false } }) := by
  have h := check_interrupt_ime_off gb hime
  constructor
  · intro hp
    rw [h, hp]
    rfl
  · intro hp
    rw [h, if_pos hp]

/-- C22 on the loaded cartridge after DI (latch clear) and after DI and EI (latch set). -/
theorem check_interrupt_with_ime_clear_witness :
    check_interrupt (execute_op 0xF3 cart_loaded) = execute_op 0xF3 cart_loaded ∧
    check_interrupt ei_pending_example =
      { ei_pending_example with
        state := { ei_pending_example.state with ime := true, pending_ime := false } } :=
  ⟨(check_interrupt_with_ime_clear (execute_op 0xF3 cart_loaded) (by decide!)).1 (by decide!),
   (check_interrupt_with_ime_clear ei_pending_example (by decide!)).2 (by decide!)⟩

/-- C23, counterexample: with IME = 0, the latch clear, the VBlank interrupt enabled and pending
and EI the next instruction, followed by DI: after the second pass (which executes DI) IME
is 0, and the third pass dispatches nothing (PC moves on to 0x0108, SP stays). -/
theorem ei_then_di_leaves_ime_clear :
    before_ei_example.state.ime = false ∧ before_ei_example.state.pending_ime = false ∧
    before_ei_example.memory 0xFFFF &&& before_ei_example.memory 0xFF0F = 0x01 ∧
    mem_r before_ei_example.registers.pc before_ei_example = 0xFB ∧
    (run 1 before_ei_example).state.ime = false ∧
    (run 2 before_ei_example).state.ime = false ∧
    (run 2 before_ei_example).registers.pc = 0x0107 ∧
    (run 3 before_ei_example).registers.pc = 0x0108 ∧
    (run 3 before_ei_example).registers.sp = (run 2 before_ei_example).registers.sp := by
  decide!

/-- C23, amended: for every state with IME = 0 and the pending-IME latch clear in which the next
instruction is EI: the pass that executes EI dispatches nothing and leaves IME = 0 with the
latch set; the following pass dispatches nothing and sets IME before it fetches the
instruction after EI, so IME is 1 after that pass whenever that instruction leaves IME set;
and the pass after that, if IME is then 1 and a VBlank, STAT, timer or joypad interrupt is
enabled and pending, starts by jumping to a vector with SP lowered by two. -/
theorem ei_delays_interrupt_enable (gb : gameboy_t) (hime : gb.state.ime = false)
    (hpend : gb.state.pending_ime = false) (hop : mem_r gb.registers.pc gb = 0xFB) :
    pass_dispatch gb = { gb with op_cycles := 0 } ∧
    (step gb).state.ime = false ∧ (step gb).state.pending_ime = true ∧
    (step gb).registers.pc = (gb.registers.pc + 1) % 65536 ∧
    (step gb).registers.sp = gb.registers.sp ∧
    pass_dispatch (step gb) =
      { step gb with
        op_cycles := 0
        state := { (step gb).state with ime := true, pending_ime := false } } ∧
    ((execute_op (fetch (pass_dispatch (step gb))).1
        (fetch (pass_dispatch (step gb))).2).state.ime = true →
      (step (step gb)).state.ime = true) ∧
    ((step (step gb)).state.ime = true →
      (∃ k, k ∈ [0, 1, 2, 4] ∧ get_bit ((step (step gb)).memory 0xFFFF) k = true ∧
        get_bit ((step (step gb)).memory 0xFF0F) k = true) →
      (pass_dispatch (step (step gb))).registers.pc ∈ [0x40, 0x48, 0x50, 0x60] ∧
      (pass_dispatch (step (step gb))).registers.sp =
        ((step (step gb)).registers.sp + 65534) % 65536) := by
  have hA : pass_dispatch gb = { gb with op_cycles := 0 } := by
    unfold pass_dispatch
    rw [check_interrupt_ime_off { gb with op_cycles := 0 } hime]
    exact if_neg (by rw [hpend]; decide)
  have e := pass_execute_ime { gb with op_cycles := 0 }
  have hf : (fetch { gb with op_cycles := 0 }).1 = 0xFB := hop
  rw [hf] at e
  have h1 : (step gb).state.ime = false := by
    rw [step_eq, hA, e.1]; exact hime
  have h2 : (step gb).state.pending_ime = true := by
    rw [step_eq, hA, e.2.1]; rfl
  have h3 : (step gb).registers = (op_ei (fetch { gb with op_cycles := 0 }).2).registers := by
    rw [step_eq, hA, e.2.2]; rfl
  refine ⟨hA, h1, h2, ?_, ?_, ?_, ?_, ?_⟩
  · rw [h3]; rfl
  · rw [h3]; rfl
  · unfold pass_dispatch
    rw [check_interrupt_ime_off { step gb with op_cycles := 0 } h1]
    exact if_pos h2
  · intro hx
    rw [step_eq (step gb), (pass_execute_ime _).1]
    exact hx
  · intro hi hk
    exact check_interrupt_dispatches { step (step gb) with op_cycles := 0 } hi hk

/-- C23 on the program `EI; NOP; NOP` with the VBlank interrupt enabled and pending: IME is 0
after the pass of EI, 1 after the pass of the first NOP, and the third pass starts at the
vector 0x40. -/
theorem ei_delays_interrupt_enable_witness :
    (step before_ei_nop_example).state.ime = false ∧
    (step before_ei_nop_example).state.pending_ime = true ∧
    (step (step before_ei_nop_example)).state.ime = true ∧
    (pass_dispatch (step (step before_ei_nop_example))).registers.pc ∈
      [0x40, 0x48, 0x50, 0x60] := by
  have h := ei_delays_interrupt_enable before_ei_nop_example (by decide!) (by decide!)
    (by decide!)
  exact ⟨h.2.1, h.2.2.1, h.2.2.2.2.2.2.1 (by decide!),
    (h.2.2.2.2.2.2.2 (by decide!) ⟨0, by decide, by decide!, by decide!⟩).1⟩

/-- C24: with TAC = 0x05 (enabled, period 16) the third pass after `load` leaves the TIMA
accumulator at 0 and TIMA = 1; the next two passes are CALLs of 24 cycles each, 48 cycles in
all, and leave TIMA = 3 (two increments, not three) with the accumulator at 16. -/
theorem tima_lags_behind_long_instructions :
    (run 3 timer_cart_loaded).memory 0xFF07 = 0x05 ∧
    (run 3 timer_cart_loaded).cycles.tac = 0 ∧ (run 3 timer_cart_loaded).memory 0xFF05 = 1 ∧
    (run 4 timer_cart_loaded).op_cycles = 24 ∧ (run 5 timer_cart_loaded).op_cycles = 24 ∧
    (run 4 timer_cart_loaded).cycles.tac = 8 ∧ (run 4 timer_cart_loaded).memory 0xFF05 = 2 ∧
    (run 5 timer_cart_loaded).cycles.tac = 16 ∧ (run 5 timer_cart_loaded).memory 0xFF05 = 3 := by
  decide!

/-- C25: from every state with the LCD enabled, LY = 0, STAT mode 2, dots = 0 and the VBlank bit
of IF clear, 17556 PPU passes of four cycles (70224 cycles) end with LY = 0, mode 2 and
dots = 0; the VBlank bit is clear up to the pass numbered 16415 and set from then on, that
pass is the only one that enters mode 1, and it moves LY from 143 to 144. -/
theorem frame_of_70224_cycles (gb : gameboy_t) (hon : lcd_enable gb = true)
    (hly : lcd_ly gb = 0) (hmode : lcd_status_mode gb = 2) (hdots : gb.cycles.dots = 0)
    (hif : get_bit (gb.memory 0xFF0F) 0 = false) :
    lcd_ly (ppu_ticks 17556 gb) = 0 ∧ lcd_status_mode (ppu_ticks 17556 gb) = 2 ∧
    (ppu_ticks 17556 gb).cycles.dots = 0 ∧
    (∀ i, i < 17556 →
      ((get_bit ((ppu_ticks i gb).memory 0xFF0F) 0 = false ∧
          get_bit ((ppu_ticks (i + 1) gb).memory 0xFF0F) 0 = true) ↔ i = 16415)) ∧
    (∀ i, i < 17556 →
      ((lcd_status_mode (ppu_ticks i gb) ≠ 1 ∧ lcd_status_mode (ppu_ticks (i + 1) gb) = 1) ↔
        i = 16415)) ∧
    lcd_ly (ppu_ticks 16415 gb) = 143 ∧ lcd_ly (ppu_ticks 16416 gb) = 144 := by
  have h0 : ppu_view_of gb = frame_view 0 := by
    unfold ppu_view_of
    rw [hly, hmode, hdots, hif]
    rfl
  have hv := ppu_ticks_fields gb hon h0
  have e1 : (frame_view 17556).ly = 0 := by decide
  have e2 : (frame_view 17556).mode = 2 := by decide
  have e3 : (frame_view 17556).dots = 0 := by decide
  have e4 : (frame_view 16415).ly = 143 := by decide
  have e5 : (frame_view 16416).ly = 144 := by decide
  refine ⟨?_, ?_, ?_, ?_, ?_, ?_, ?_⟩
  · exact (hv 17556 (by decide)).1.trans e1
  · exact (hv 17556 (by decide)).2.1.trans e2
  · exact (hv 17556 (by decide)).2.2.1.trans e3
  · intro i hi
    rw [(hv i (Nat.le_of_lt hi)).2.2.2, (hv (i + 1) hi).2.2.2, frame_view_vblank i,
      frame_view_vblank (i + 1)]
    simp only [decide_eq_false_iff_not, decide_eq_true_eq]
    omega
  · intro i hi
    rw [(hv i (Nat.le_of_lt hi)).2.1, (hv (i + 1) hi).2.1, ne_eq, frame_view_mode_one i,
      frame_view_mode_one (i + 1)]
    omega
  · exact (hv 16415 (by decide)).1.trans e4
  · exact (hv 16416 (by decide)).1.trans e5

/-- C25 on the state with LCDC = 0x80, STAT = 0x02 and all else zero. -/
theorem frame_of_70224_cycles_witness :
    lcd_ly (ppu_ticks 17556 frame_start_example) = 0 ∧
    lcd_status_mode (ppu_ticks 17556 frame_start_example) = 2 ∧
    (ppu_ticks 17556 frame_start_example).cycles.dots = 0 ∧
    lcd_ly (ppu_ticks 16416 frame_start_example) = 144 := by
  have h := frame_of_70224_cycles frame_start_example (by decide) (by decide) (by decide)
    (by decide) (by decide)
  exact ⟨h.1, h.2.1, h.2.2.1, h.2.2.2.2.2.2⟩

/-- C26: for every state with the LCD enabled, LY at most 153 and STAT mode 1 exactly when LY is
at least 144, the same holds after the PPU lines of a pass (of any cycle count), and LY
has stayed, or grown by one, or gone from 153 to 0 with mode 2 entered. -/
theorem ly_and_vblank_mode_invariant (gb : gameboy_t) (hon : lcd_enable gb = true)
    (hly : lcd_ly gb ≤ 153) (hm : lcd_status_mode gb = 1 ↔ 144 ≤ lcd_ly gb) :
    lcd_ly (ppu_advance gb) ≤ 153 ∧
    (lcd_status_mode (ppu_advance gb) = 1 ↔ 144 ≤ lcd_ly (ppu_advance gb)) ∧
    (lcd_ly (ppu_advance gb) = lcd_ly gb ∨ lcd_ly (ppu_advance gb) = lcd_ly gb + 1 ∨
      (lcd_ly gb = 153 ∧ lcd_ly (ppu_advance gb) = 0 ∧ lcd_status_mode (ppu_advance gb) = 2)) := by
  have hv := ppu_advance_view gb hon
  have e1 : lcd_ly (ppu_advance gb) = ((ppu_view_of gb).advance gb.op_cycles).ly := by
    rw [← hv]; rfl
  have e2 : lcd_status_mode (ppu_advance gb) = ((ppu_view_of gb).advance gb.op_cycles).mode := by
    rw [← hv]; rfl
  rw [e1, e2]
  exact ppu_view_switch_invariant _ hly hm

/-- C26 on the last pass of line 153: LY = 153, mode 1, dots = 452 and a pass of four cycles;
the pass keeps the predicate and takes LY to 0. -/
theorem ly_and_vblank_mode_invariant_witness :
    lcd_ly line_153_example = 153 ∧ lcd_status_mode line_153_example = 1 ∧
    lcd_ly (ppu_advance line_153_example) ≤ 153 ∧
    (lcd_status_mode (ppu_advance line_153_example) = 1 ↔
      144 ≤ lcd_ly (ppu_advance line_153_example)) ∧
    lcd_ly (ppu_advance line_153_example) = 0 := by
  have h := ly_and_vblank_mode_invariant line_153_example (by decide) (by decide) (by decide)
  exact ⟨by decide, by decide, h.1, h.2.1, by decide⟩

/-- C27: on the loaded cartridge with the VBlank source of the STAT interrupt enabled
(STAT = 0x90) and IF = 0xE1, `set_mode(LCD_MODE_VBLANK)` clears both locks and sets the
VBlank bit of IF, and leaves the STAT bit of IF clear. -/
theorem vblank_entry_raises_no_stat_interrupt :
    get_bit (stat_vblank_example.memory 0xFF41) 4 = true ∧
    get_bit (stat_vblank_example.memory 0xFF0F) 1 = false ∧
    (set_mode lcd_mode_e.LCD_MODE_VBLANK stat_vblank_example).state.no_oam_access = false ∧
    (set_mode lcd_mode_e.LCD_MODE_VBLANK stat_vblank_example).state.no_vram_access = false ∧
    get_bit ((set_mode lcd_mode_e.LCD_MODE_VBLANK stat_vblank_example).memory 0xFF0F) 0 = true ∧
    get_bit ((set_mode lcd_mode_e.LCD_MODE_VBLANK stat_vblank_example).memory 0xFF0F) 1 = false := by
  decide!

/-- C28, counterexample: right after `load`, LY = 0 and LYC = 0 and the lyc=ly bit of STAT is
clear; `set_ly(0)` leaves it clear. -/
theorem set_ly_zero_after_reset_keeps_stale_bit :
    lcd_ly cart_loaded = 0 ∧ lcd_lyc cart_loaded = 0 ∧
    lcd_ly (set_ly 0 cart_loaded) = 0 ∧ lcd_lyc (set_ly 0 cart_loaded) = 0 ∧
    get_bit ((set_ly 0 cart_loaded).memory 0xFF41) 2 = false := by
  decide!

/-- C28, amended: for every state and every value v different from LY, after `set_ly(v)` the
register LY equals v, the lyc=ly bit of STAT equals (v == LYC), the STAT bit of IF is set
if v == LYC and the lyc_int bit of STAT is 1, and IF is unchanged otherwise; with v equal
to LY, `set_ly(v)` changes nothing. -/
theorem set_ly_on_change (v : Nat) (gb : gameboy_t) :
    (v = lcd_ly gb → set_ly v gb = gb) ∧
    (v ≠ lcd_ly gb →
      lcd_ly (set_ly v gb) = v ∧
      get_bit ((set_ly v gb).memory 0xFF41) 2 = decide (v = lcd_lyc gb) ∧
      (v = lcd_lyc gb → get_bit (gb.memory 0xFF41) 6 = true →
        get_bit ((set_ly v gb).memory 0xFF0F) 1 = true) ∧
      (¬ (v = lcd_lyc gb ∧ get_bit (gb.memory 0xFF41) 6 = true) →
        (set_ly v gb).memory 0xFF0F = gb.memory 0xFF0F)) := by
  constructor
  · intro h
    exact set_ly_of_eq v gb h.symm
  · intro h
    have hne : lcd_ly gb ≠ v := fun e => h e.symm
    refine ⟨set_ly_ly v gb, ?_, ?_, ?_⟩
    · rw [set_ly_of_ne v gb hne]
      by_cases hc : v = gb.memory 0xFF45 ∧ get_bit (gb.memory 0xFF41) 6 = true
      · simp only
        rw [if_pos hc]
        simp [store, set_bit_2_self, lcd_lyc]
      · simp only
        rw [if_neg hc]
        simp [store, set_bit_2_self, lcd_lyc]
    · intro h1 h2
      rw [set_ly_of_ne v gb hne]
      have hc : v = gb.memory 0xFF45 ∧ get_bit (gb.memory 0xFF41) 6 = true := ⟨h1, h2⟩
      simp only
      rw [if_pos hc]
      simp [store, set_bit_true_self]
    · intro h1
      rw [set_ly_of_ne v gb hne]
      have hc : ¬ (v = gb.memory 0xFF45 ∧ get_bit (gb.memory 0xFF41) 6 = true) := h1
      simp only
      rw [if_neg hc]
      simp [store]

/-- C28 on the loaded cartridge with LYC = 5 and the lyc_int bit set: `set_ly(5)` gives LY = 5,
sets the lyc=ly bit and raises the STAT interrupt; `set_ly(0)` changes nothing. -/
theorem set_ly_on_change_witness :
    set_ly 0 lyc_example = lyc_example ∧
    lcd_ly (set_ly 5 lyc_example) = 5 ∧
    get_bit ((set_ly 5 lyc_example).memory 0xFF41) 2 = true ∧
    get_bit ((set_ly 5 lyc_example).memory 0xFF0F) 1 = true := by
  have h0 := (set_ly_on_change 0 lyc_example).1 (by decide!)
  have h5 := (set_ly_on_change 5 lyc_example).2 (by decide!)
  exact ⟨h0, h5.1, h5.2.1, h5.2.2.1 (by decide!) (by decide!)⟩

/-- C29: on the loaded cartridge (LCDC = 0x91, no DMA) the write of 0x11 to 0xFF40 leaves
STAT mode 0, LY = 0 and dots = 0, and every byte of the framebuffer 0xD0: the pixels are
0xD0D0D0D0, not the palette colour 0, which is 0xFFE0F8D0. -/
theorem lcd_off_clears_to_wrong_colour :
    cart_loaded.state.dma_transfer = false ∧ lcd_enable cart_loaded = true ∧
    lcd_enable (mem_w 0xFF40 0x11 cart_loaded) = false ∧
    lcd_status_mode (mem_w 0xFF40 0x11 cart_loaded) = 0 ∧
    lcd_ly (mem_w 0xFF40 0x11 cart_loaded) = 0 ∧
    (mem_w 0xFF40 0x11 cart_loaded).cycles.dots = 0 ∧
    (mem_w 0xFF40 0x11 cart_loaded).framebuffer 0 = 0xD0D0D0D0 ∧
    (mem_w 0xFF40 0x11 cart_loaded).framebuffer (160 * 144 - 1) = 0xD0D0D0D0 ∧
    gb_colors 0 = 0xFFE0F8D0 := by
  decide!

/-- C30: on the loaded cartridge with sprite 0 at py = 10 (eight rows, lines -6..1), LY = 0 and
all other sprites at py = 0, `scan_oam` selects no sprite. -/
theorem scan_oam_misses_sprite_above_screen :
    sprite_above_example.memory 0xFE00 = 10 ∧ lcd_ly sprite_above_example = 0 ∧
    lcd_obj_size sprite_above_example = false ∧
    ((10 : Int) - 16 ≤ 0 ∧ (0 : Int) < 10 - 16 + 8) ∧
    (scan_oam sprite_above_example).num_scanline_sprites = 0 := by
  decide!

/-! ## What `reset` and `load` leave behind -/

theorem reset_eq (sav : Option host_file) (gb : gameboy_t) :
    reset sav gb =
      if gb.rom_path_set = true then
        load_nintendo_logo (load_ram sav
          { reset_core gb with
            memory := fun x => if x < 0x8000 then gb.rom x else (reset_core gb).memory x })
      else reset_core gb := rfl

/-- A cell that `reset_core` does not set holds 0. -/
theorem reset_core_memory_zero (gb : gameboy_t) (a : Nat) (ha : a ∉ reset_io_addresses) :
    (reset_core gb).memory a = 0 := by
  unfold reset_io_addresses at ha
  simp only [List.mem_cons, List.mem_singleton, List.not_mem_nil, or_false, not_or] at ha
  unfold reset_core
  simp only [List.foldl, store]
  obtain ⟨h1, h2, h3, h4, h5, h6, h7, h8, h9, h10, h11, h12, h13, h14⟩ := ha
  rw [if_neg h14, if_neg h13, if_neg h12, if_neg h11, if_neg h10, if_neg h9, if_neg h8,
    if_neg h7, if_neg h6, if_neg h5, if_neg h4, if_neg h3, if_neg h2, if_neg h1]

theorem load_some_eq (f : host_file) (sav : Option host_file) (gb : gameboy_t) :
    load (some f) sav gb =
      reset sav
        { gb with
          rom := rom_after_read f gb.rom
          rom_path_set :=
            decide (header_checksum (rom_after_read f gb.rom) = rom_after_read f gb.rom 0x14D) } := by
  by_cases h : header_checksum (rom_after_read f gb.rom) = rom_after_read f gb.rom 0x14D
  · rw [decide_eq_true h]
    have hn : ¬ (header_checksum (rom_after_read f gb.rom) ≠ rom_after_read f gb.rom 0x14D) :=
      fun hn => hn h
    show reset sav (if header_checksum (rom_after_read f gb.rom) ≠
      rom_after_read f gb.rom 0x14D then _ else _) = _
    rw [if_neg hn]
    rfl
  · rw [decide_eq_false h]
    show reset sav (if header_checksum (rom_after_read f gb.rom) ≠
      rom_after_read f gb.rom 0x14D then _ else _) = _
    rw [if_pos h]
    rfl

/-- The registers, flags, counters and cells that `reset_core` writes do not depend on the
prior state. -/
theorem reset_core_fixed (gb : gameboy_t) :
    (reset_core gb).registers = (reset_core gb_zero).registers ∧
    (reset_core gb).state = (reset_core gb_zero).state ∧
    (reset_core gb).cycles = (reset_core gb_zero).cycles ∧
    (reset_core gb).memory = (reset_core gb_zero).memory ∧
    (reset_core gb).rom_bank = 0 ∧ (reset_core gb).ram_bank = 0 ∧
    (reset_core gb).rom = gb.rom ∧ (reset_core gb).ram = gb.ram ∧
    (reset_core gb).rom_path_set = gb.rom_path_set :=
  ⟨rfl, rfl, rfl, rfl, rfl, rfl, rfl, rfl, rfl⟩

theorem COMBINE_HIGH_LOW (v : Nat) (hv : v < 65536) : COMBINE (HIGH v) (LOW v) = v := by
  rw [COMBINE_eq _ _ (LOW_lt v), HIGH_eq, LOW_eq]
  omega

/-- RET after two pushes and a jump: PC is made of the two bytes pushed and SP is back. -/
theorem ret_after_pushes (gb : gameboy_t) (hi lo n t : Nat) (hsp : gb.registers.sp < 65536)
    (hdma : gb.state.dma_transfer = false)
    (h1 : in_hram_or_wram ((gb.registers.sp + 65535) % 65536))
    (h2 : in_hram_or_wram ((gb.registers.sp + 65534) % 65536)) :
    (op_ret (add_cycles n { push8 lo (push8 hi gb) with registers.pc := t })).registers.pc =
      COMBINE hi lo ∧
    (op_ret (add_cycles n { push8 lo (push8 hi gb) with registers.pc := t })).registers.sp =
      gb.registers.sp := by
  rcases gb with ⟨⟨f, a, c, b, e, d, l, h, sp, pc⟩, st, cyc, cs, mem, rom, ram, fb, rb, rab, ss, nss, rps, kd⟩
  simp only at hsp hdma h1 h2
  have e21 : ((sp + 65535) % 65536 + 65535) % 65536 = (sp + 65534) % 65536 := by omega
  have e12 : ((sp + 65534) % 65536 + 1) % 65536 = (sp + 65535) % 65536 := by omega
  have e10 : ((sp + 65535) % 65536 + 1) % 65536 = sp := by omega
  have ne : (sp + 65535) % 65536 ≠ (sp + 65534) % 65536 := by omega
  simp only [push8]
  obtain ⟨m1, hm1, hm1p, -⟩ := mem_w_ram ((sp + 65535) % 65536) hi
    { registers := ⟨f, a, c, b, e, d, l, h, (sp + 65535) % 65536, pc⟩, state := st, op_cycles := cyc,
      cycles := cs, memory := mem, rom := rom, ram := ram, framebuffer := fb, rom_bank := rb,
      ram_bank := rab, scanline_sprites := ss, num_scanline_sprites := nss, rom_path_set := rps,
      key_down := kd } hdma h1
  rw [hm1]
  simp only [e21]
  obtain ⟨m2, hm2, hm2p, hm2q⟩ := mem_w_ram ((sp + 65534) % 65536) lo
    { registers := ⟨f, a, c, b, e, d, l, h, (sp + 65534) % 65536, pc⟩, state := st, op_cycles := cyc,
      cycles := cs, memory := m1, rom := rom, ram := ram, framebuffer := fb, rom_bank := rb,
      ram_bank := rab, scanline_sprites := ss, num_scanline_sprites := nss, rom_path_set := rps,
      key_down := kd } hdma h2
  rw [hm2]
  have hq := hm2q _ h1 ne
  simp only at hq
  simp only [op_ret, pop8, add_cycles, e12, e10]
  refine ⟨?_, trivial⟩
  rw [mem_r_ram _ _ hdma h2, mem_r_ram _ _ hdma h1]
  simp only
  rw [hq, hm1p, hm2p]

theorem execute_op_call (gb : gameboy_t) : execute_op 0xCD gb = op_call gb := rfl

theorem execute_op_ret (gb : gameboy_t) : execute_op 0xC9 gb = op_ret gb := rfl

theorem execute_op_rst (op : Nat) (gb : gameboy_t)
    (hop : op ∈ [0xC7, 0xCF, 0xD7, 0xDF, 0xE7, 0xEF, 0xF7, 0xFF]) :
    execute_op op gb = op_rst op gb := by
  simp only [List.mem_cons, List.mem_singleton, List.not_mem_nil, or_false] at hop
  rcases hop with rfl | rfl | rfl | rfl | rfl | rfl | rfl | rfl <;> rfl

theorem set_sp_pc (gb : gameboy_t) (s : Nat) :
    ({ gb with registers.sp := s } : gameboy_t).registers.pc = gb.registers.pc := rfl

theorem push8_registers (v : Nat) (gb : gameboy_t) :
    (push8 v gb).registers =
      ({ gb with registers.sp := (gb.registers.sp + 65535) % 65536 } : gameboy_t).registers :=
  mem_w_registers _ _ _

theorem push8_pc (v : Nat) (gb : gameboy_t) : (push8 v gb).registers.pc = gb.registers.pc :=
  (congrArg registers_t.pc (push8_registers v gb)).trans (set_sp_pc gb _)

/-- The case CALL u16 entered after the fetch of the opcode at `gb.registers.pc`. -/
theorem op_call_after_fetch (gb : gameboy_t) :
    op_call (fetch gb).2 =
      add_cycles 24
        { push8 (LOW ((gb.registers.pc + 3) % 65536))
            (push8 (HIGH ((gb.registers.pc + 3) % 65536))
              { gb with registers.pc := (gb.registers.pc + 3) % 65536 }) with
          registers.pc :=
            COMBINE (mem_r ((gb.registers.pc + 2) % 65536) gb)
              (mem_r ((gb.registers.pc + 1) % 65536) gb) } := by
  have e3 : (((gb.registers.pc + 1) % 65536 + 1) % 65536 + 1) % 65536 =
      (gb.registers.pc + 3) % 65536 := by omega
  have e2 : ((gb.registers.pc + 1) % 65536 + 1) % 65536 = (gb.registers.pc + 2) % 65536 := by
    omega
  unfold op_call fetch
  simp only [push8_pc]
  rw [e3, e2]
  rfl

/-- The case RST entered after the fetch of the opcode at `gb.registers.pc`. -/
theorem op_rst_after_fetch (op : Nat) (gb : gameboy_t) :
    op_rst op (fetch gb).2 =
      add_cycles 16
        { push8 (LOW ((gb.registers.pc + 1) % 65536))
            (push8 (HIGH ((gb.registers.pc + 1) % 65536))
              { gb with registers.pc := (gb.registers.pc + 1) % 65536 }) with
          registers.pc := op &&& 0x38 } := by
  unfold op_rst fetch
  simp only [push8_pc]

/-! ## The sprites that `scan_oam` selects -/

theorem sprites_memory (g : gameboy_t) (ss : Nat → sprite_attribute_t) (n : Nat) :
    ({ g with scanline_sprites := ss, num_scanline_sprites := n } : gameboy_t).memory =
      g.memory := rfl

/-- The loop of `scan_oam` keeps the count at most 10 and adds only OAM entries whose integer
range of lines contains LY, when LY is at most 153 and the OAM cells are bytes. -/
theorem scan_oam_loop_selected (m : Nat → Nat) (hm : ∀ x, m x < 256) (hly : m 0xFF44 ≤ 153)
    (n i : Nat) (g : gameboy_t) (hmem : g.memory = m) (hi : i + n ≤ 40)
    (hn : g.num_scanline_sprites < 10)
    (hs : ∀ k, k < g.num_scanline_sprites → selected_in_range m (g.scanline_sprites k)) :
    (scan_oam_loop n i g).num_scanline_sprites ≤ 10 ∧
    ∀ k, k < (scan_oam_loop n i g).num_scanline_sprites →
      selected_in_range m ((scan_oam_loop n i g).scanline_sprites k) := by
  induction n generalizing i g with
  | zero =>
    unfold scan_oam_loop
    exact ⟨Nat.le_of_lt hn, hs⟩
  | succ n ih =>
    unfold scan_oam_loop
    simp only
    by_cases hc : lcd_ly g ≥ ((oam_sprite g i).py + 256 - 16) % 256 ∧
        lcd_ly g < ((oam_sprite g i).py + 256 - 16) % 256 + (if lcd_obj_size g = true then 16 else 8)
    · rw [if_pos hc]
      have hnew : selected_in_range m (oam_sprite g i) := by
        refine ⟨i, by omega, ?_, ?_⟩
        · unfold oam_sprite
          rw [hmem]
        · have hpy := hm (0xFE00 + 4 * i)
          unfold lcd_ly lcd_obj_size oam_sprite at hc
          rw [hmem] at hc
          simp only at hc
          unfold oam_sprite
          rw [hmem]
          simp only
          by_cases hsz : get_bit (m 0xFF40) 2 = true
          · rw [if_pos hsz] at hc ⊢
            omega
          · rw [if_neg hsz] at hc ⊢
            omega
      have hs2 : ∀ k, k < (g.num_scanline_sprites + 1) % 256 →
          selected_in_range m
            (if k = g.num_scanline_sprites then oam_sprite g i else g.scanline_sprites k) := by
        intro k hk
        by_cases e : k = g.num_scanline_sprites
        · rw [if_pos e]
          exact hnew
        · rw [if_neg e]
          exact hs k (by omega)
      by_cases h10 : (g.num_scanline_sprites + 1) % 256 = 10
      · rw [if_pos h10]
        exact ⟨by simp only; omega, hs2⟩
      · rw [if_neg h10]
        exact ih (i + 1) _ hmem (by omega) (by simp only; omega) hs2
    · rw [if_neg hc]
      exact ih (i + 1) g hmem (by omega) hn hs

theorem sprite_on_line_example_bytes : ∀ x, sprite_on_line_example.memory x < 256 := by
  intro x
  unfold sprite_on_line_example
  simp only [store]
  split_ifs <;> first | decide | exact Nat.zero_lt_succ _

/-! ## Pixels written by `draw_tile_on_scanline` -/

theorem draw_tile_plain_eq (x y : Int) (line palette : Nat) (gb : gameboy_t) :
    draw_tile_on_scanline x y line palette
        { transparency := false, flip := false, prio_bg := false } gb =
      { gb with
        framebuffer :=
          ([0, 1, 2, 3, 4, 5, 6, 7] : List Nat).foldl
            (fun (fb : Nat → Nat) (i : Nat) =>
              set_pixel fb (x + (7 - (i : Int))) y
                (gb_colors (palette_color palette
                  (((LOW line >>> i) &&& 0x01) ||| (((HIGH line >>> i) &&& 0x01) <<< 1)))))
            gb.framebuffer } := by
  unfold draw_tile_on_scanline
  simp only [List.foldl, true_or, and_self, if_true, Bool.false_eq_true, if_false]

theorem set_pixel_apply (fb : Nat → Nat) (x y : Int) (c p : Nat) :
    set_pixel fb x y c p =
      if (0 ≤ x ∧ x < 160 ∧ 0 ≤ y ∧ y < 144) ∧ p = (y * 160 + x).toNat then c else fb p := by
  unfold set_pixel SCREEN_W SCREEN_H
  by_cases h : 0 ≤ x ∧ x < ((160 : Nat) : Int) ∧ 0 ≤ y ∧ y < ((144 : Nat) : Int)
  · rw [if_pos h]
    unfold store
    have h2 : 0 ≤ x ∧ x < 160 ∧ 0 ≤ y ∧ y < 144 := h
    simp only [h2, true_and, and_self, Nat.cast_ofNat]
  · rw [if_neg h]
    have h2 : ¬ (0 ≤ x ∧ x < 160 ∧ 0 ≤ y ∧ y < 144) := h
    rw [if_neg (fun hh => h2 hh.1)]

theorem get_pixel_set_pixel (fb : Nat → Nat) (x y qx qy : Int) (c : Nat)
    (hq : 0 ≤ qx ∧ qx < 160 ∧ 0 ≤ qy ∧ qy < 144) :
    get_pixel (set_pixel fb x y c) qx qy =
      if x = qx ∧ y = qy then c else get_pixel fb qx qy := by
  have hq2 : 0 ≤ qx ∧ qx < ((SCREEN_W : Nat) : Int) ∧ 0 ≤ qy ∧ qy < ((SCREEN_H : Nat) : Int) := hq
  unfold get_pixel
  rw [if_pos hq2, if_pos hq2, set_pixel_apply]
  by_cases e : x = qx ∧ y = qy
  · rw [if_pos e, if_pos]
    obtain ⟨e1, e2⟩ := e
    subst e1 e2
    exact ⟨hq, rfl⟩
  · rw [if_neg e, if_neg]
    intro hh
    apply e
    obtain ⟨⟨a1, a2, a3, a4⟩, hidx⟩ := hh
    obtain ⟨b1, b2, b3, b4⟩ := hq
    have hidx2 : ((SCREEN_W : Nat) : Int) = 160 := rfl
    rw [hidx2] at hidx
    omega

theorem set_pixel_outside (fb : Nat → Nat) (x y : Int) (c : Nat)
    (h : ¬ (0 ≤ x ∧ x < 160 ∧ 0 ≤ y ∧ y < 144)) : set_pixel fb x y c = fb := by
  have h2 : ¬ (0 ≤ x ∧ x < ((SCREEN_W : Nat) : Int) ∧ 0 ≤ y ∧ y < ((SCREEN_H : Nat) : Int)) := h
  unfold set_pixel
  rw [if_neg h2]

theorem set_pixel_far (fb : Nat → Nat) (x y : Int) (c p : Nat) (hp : 160 * 144 ≤ p) :
    set_pixel fb x y c p = fb p := by
  rw [set_pixel_apply, if_neg]
  intro hh
  obtain ⟨⟨a1, a2, a3, a4⟩, hidx⟩ := hh
  omega

/-- The pixel at an on-screen position after a tile line is drawn with no flip, transparency
or priority: the eight columns from `x` on in row `y` take their colours, bit 7 leftmost. -/
theorem draw_tile_plain_pixel (x y : Int) (line palette : Nat) (gb : gameboy_t) (qx qy : Int)
    (hq : 0 ≤ qx ∧ qx < 160 ∧ 0 ≤ qy ∧ qy < 144) :
    get_pixel (draw_tile_on_scanline x y line palette
        { transparency := false, flip := false, prio_bg := false } gb).framebuffer qx qy =
      if qy = y ∧ x ≤ qx ∧ qx ≤ x + 7 then
        gb_colors (palette_color palette
          (((LOW line >>> (x + 7 - qx).toNat) &&& 0x01) |||
            (((HIGH line >>> (x + 7 - qx).toNat) &&& 0x01) <<< 1)))
      else get_pixel gb.framebuffer qx qy := by
  rw [draw_tile_plain_eq]
  simp only [List.foldl, get_pixel_set_pixel _ _ _ _ _ _ hq, Nat.cast_ofNat, Nat.cast_zero,
    Nat.cast_one]
  by_cases hy : qy = y
  · by_cases h7 : x + (7 - 7) = qx
    · have e : (x + 7 - qx).toNat = 7 := by omega
      rw [if_pos ⟨h7, hy.symm⟩, if_pos ⟨hy, by omega, by omega⟩, e]
    rw [if_neg (fun hh => h7 hh.1)]
    by_cases h6 : x + (7 - 6) = qx
    · have e : (x + 7 - qx).toNat = 6 := by omega
      rw [if_pos ⟨h6, hy.symm⟩, if_pos ⟨hy, by omega, by omega⟩, e]
    rw [if_neg (fun hh => h6 hh.1)]
    by_cases h5 : x + (7 - 5) = qx
    · have e : (x + 7 - qx).toNat = 5 := by omega
      rw [if_pos ⟨h5, hy.symm⟩, if_pos ⟨hy, by omega, by omega⟩, e]
    rw [if_neg (fun hh => h5 hh.1)]
    by_cases h4 : x + (7 - 4) = qx
    · have e : (x + 7 - qx).toNat = 4 := by omega
      rw [if_pos ⟨h4, hy.symm⟩, if_pos ⟨hy, by omega, by omega⟩, e]
    rw [if_neg (fun hh => h4 hh.1)]
    by_cases h3 : x + (7 - 3) = qx
    · have e : (x + 7 - qx).toNat = 3 := by omega
      rw [if_pos ⟨h3, hy.symm⟩, if_pos ⟨hy, by omega, by omega⟩, e]
    rw [if_neg (fun hh => h3 hh.1)]
    by_cases h2 : x + (7 - 2) = qx
    · have e : (x + 7 - qx).toNat = 2 := by omega
      rw [if_pos ⟨h2, hy.symm⟩, if_pos ⟨hy, by omega, by omega⟩, e]
    rw [if_neg (fun hh => h2 hh.1)]
    by_cases h1 : x + (7 - 1) = qx
    · have e : (x + 7 - qx).toNat = 1 := by omega
      rw [if_pos ⟨h1, hy.symm⟩, if_pos ⟨hy, by omega, by omega⟩, e]
    rw [if_neg (fun hh => h1 hh.1)]
    by_cases h0 : x + (7 - 0) = qx
    · have e : (x + 7 - qx).toNat = 0 := by omega
      rw [if_pos ⟨h0, hy.symm⟩, if_pos ⟨hy, by omega, by omega⟩, e]
    rw [if_neg (fun hh => h0 hh.1), if_neg (fun hh => by omega)]
  · have n : ∀ (a : Int), ¬ (a = qx ∧ y = qy) := fun a hh => hy hh.2.symm
    rw [if_neg (n _), if_neg (n _), if_neg (n _), if_neg (n _), if_neg (n _), if_neg (n _),
      if_neg (n _), if_neg (n _), if_neg (fun hh => hy hh.1)]

/-- Cells of the framebuffer array past the 160x144 pixels are never written. -/
theorem draw_tile_plain_far (x y : Int) (line palette : Nat) (gb : gameboy_t) (p : Nat)
    (hp : 160 * 144 ≤ p) :
    (draw_tile_on_scanline x y line palette
        { transparency := false, flip := false, prio_bg := false } gb).framebuffer p =
      gb.framebuffer p := by
  rw [draw_tile_plain_eq]
  simp only [List.foldl, set_pixel_far _ _ _ _ p hp]

/-- A tile line drawn at or right of column 160 changes nothing. -/
theorem draw_tile_offscreen (x y : Int) (line palette : Nat) (gb : gameboy_t) (hx : 160 ≤ x) :
    draw_tile_on_scanline x y line palette
        { transparency := false, flip := false, prio_bg := false } gb = gb := by
  rw [draw_tile_plain_eq]
  have n : ∀ (i : Int) (fb : Nat → Nat) (c : Nat), 0 ≤ i → set_pixel fb (x + i) y c = fb :=
    fun i fb c hi => set_pixel_outside _ _ _ _ (by omega)
  simp only [List.foldl, Nat.cast_ofNat, Nat.cast_zero, Nat.cast_one]
  rw [n _ _ _ (by decide), n _ _ _ (by decide), n _ _ _ (by decide), n _ _ _ (by decide),
    n _ _ _ (by decide), n _ _ _ (by decide), n _ _ _ (by decide), n _ _ _ (by decide)]

/-! ## The background loop of `pixel_transfer` -/

theorem bg_loop_succ (fuel i e : Nat) (x : Int) (gb : gameboy_t) :
    bg_loop (fuel + 1) i e x gb =
      if i ≠ e then bg_loop fuel ((i + 1) % 256) e (x + 8) (bg_tile i x gb) else gb := rfl

theorem bg_tile_mod (i : Nat) (x : Int) (gb : gameboy_t) :
    bg_tile i x gb = bg_tile (i % 32) x gb := by
  unfold bg_tile
  rw [Nat.mod_mod]

theorem bg_tile_offscreen (i : Nat) (x : Int) (gb : gameboy_t) (hx : 160 ≤ x) :
    bg_tile i x gb = gb := by
  unfold bg_tile
  exact draw_tile_offscreen _ _ _ _ _ hx

/-- The loop from counter `i` whose counter first equals `e` after `n` increments, with more
fuel than that: it draws `n` tiles, eight columns apart, and stops. -/
theorem bg_loop_unroll (e : Nat) (n : Nat) :
    ∀ (fuel i : Nat) (x : Int) (gb : gameboy_t), n < fuel → i < 256 →
      (∀ m, m < n → (i + m) % 256 ≠ e) → (i + n) % 256 = e →
      bg_loop fuel i e x gb =
        (List.range n).foldl (fun g k => bg_tile ((i + k) % 256) (x + 8 * (k : Int)) g) gb := by
  induction n with
  | zero =>
    intro fuel i x gb hf hi _ he
    obtain ⟨f, rfl⟩ : ∃ f, fuel = f + 1 := ⟨fuel - 1, by omega⟩
    have hie : ¬ (i ≠ e) := by
      intro h
      apply h
      omega
    rw [bg_loop_succ, if_neg hie]
    rfl
  | succ n ih =>
    intro fuel i x gb hf hi hne he
    obtain ⟨f, rfl⟩ : ∃ f, fuel = f + 1 := ⟨fuel - 1, by omega⟩
    have hie : i ≠ e := by
      have h0 := hne 0 (by omega)
      omega
    rw [bg_loop_succ, if_pos hie,
      ih f ((i + 1) % 256) (x + 8) (bg_tile i x gb) (by omega) (by omega)
        (fun m hm => by have h := hne (m + 1) (by omega); omega) (by omega),
      List.range_succ_eq_map, List.foldl_cons, List.foldl_map]
    have e0 : bg_tile ((i + 0) % 256) (x + 8 * ((0 : Nat) : Int)) gb = bg_tile i x gb := by
      rw [Nat.add_zero, Nat.mod_eq_of_lt hi]
      simp only [Nat.cast_zero, mul_zero, add_zero]
    rw [e0]
    apply List.foldl_ext
    intro g k _
    have e1 : ((i + 1) % 256 + k) % 256 = (i + k.succ) % 256 := by omega
    have e2 : x + 8 + 8 * (k : Int) = x + 8 * ((k.succ : Nat) : Int) := by
      push_cast
      ring
    rw [e1, e2]

/-- A fold over `range n` whose steps from 21 on change nothing is the fold over `range 21`. -/
theorem foldl_range_21 (F : gameboy_t → Nat → gameboy_t) (hF : ∀ g k, 21 ≤ k → F g k = g)
    (n : Nat) (hn : 21 ≤ n) (gb : gameboy_t) :
    (List.range n).foldl F gb = (List.range 21).foldl F gb := by
  induction n with
  | zero => omega
  | succ n ih =>
    by_cases h : n = 20
    · rw [h]
    · rw [List.range_succ, List.foldl_append, ih (by omega)]
      simp only [List.foldl]
      exact hF _ n (by omega)

/-- The loop started at the tile column `s mod 32` and a screen column of at least -7, with
more than 245 units of fuel: it stops, and what it has drawn is 21 tiles. -/
theorem bg_loop_row_aux (gb : gameboy_t) (s : Nat) (x : Int) (hx : -7 ≤ x) (fuel : Nat)
    (hf : 245 < fuel) :
    bg_loop fuel (s % 32) ((s % 32 + 21) % 32) x gb =
      (List.range 21).foldl (fun g k => bg_tile ((s + k) % 32) (x + 8 * (k : Int)) g) gb := by
  have hnoop : ∀ (g : gameboy_t) (k : Nat), 21 ≤ k →
      bg_tile ((s % 32 + k) % 256) (x + 8 * (k : Int)) g = g :=
    fun g k hk => bg_tile_offscreen _ _ _ (by omega)
  have hspec : (List.range 21).foldl
      (fun g k => bg_tile ((s % 32 + k) % 256) (x + 8 * (k : Int)) g) gb =
      (List.range 21).foldl (fun g k => bg_tile ((s + k) % 32) (x + 8 * (k : Int)) g) gb := by
    apply List.foldl_ext
    intro g k hk
    have hk2 := List.mem_range.mp hk
    rw [bg_tile_mod]
    have e : (s % 32 + k) % 256 % 32 = (s + k) % 32 := by omega
    rw [e]
  by_cases hs : s % 32 ≤ 10
  · rw [bg_loop_unroll _ 21 fuel (s % 32) x gb (by omega) (by omega) (fun m hm => by omega)
      (by omega), hspec]
  · rw [bg_loop_unroll _ 245 fuel (s % 32) x gb hf (by omega) (fun m hm => by omega) (by omega),
      foldl_range_21 _ hnoop 245 (by decide), hspec]

/-- The counter of the background loop reaches its end value after 21 increments, or after 245
when `start + 21` passes 32, and not before. -/
theorem bg_loop_counter (s : Nat) :
    ∃ n, (n = 21 ∨ n = 245) ∧ (s % 32 + n) % 256 = (s % 32 + 21) % 32 ∧
      ∀ m, m < n → (s % 32 + m) % 256 ≠ (s % 32 + 21) % 32 := by
  by_cases hs : s % 32 ≤ 10
  · exact ⟨21, Or.inl rfl, by omega, fun m hm => by omega⟩
  · exact ⟨245, Or.inr rfl, by omega, fun m hm => by omega⟩

/-! # Claims C31 to C40 -/

/-- C31: for every state whose memory cells are bytes and whose LY is at most 153, and both
sprite sizes, after `scan_oam` the count of selected sprites is at most 10 and every
selected sprite is an OAM entry with py - 16 <= LY < py - 16 + size over the integers. -/
theorem scan_oam_selects_sprites_on_the_line (gb : gameboy_t) (hm : ∀ x, gb.memory x < 256)
    (hly : lcd_ly gb ≤ 153) :
    (scan_oam gb).num_scanline_sprites ≤ 10 ∧
    ∀ k, k < (scan_oam gb).num_scanline_sprites →
      (∃ j, j < 40 ∧ (scan_oam gb).scanline_sprites k = oam_sprite gb j) ∧
      (((scan_oam gb).scanline_sprites k).py : Int) - 16 ≤ (lcd_ly gb : Int) ∧
      (lcd_ly gb : Int) < (((scan_oam gb).scanline_sprites k).py : Int) - 16 +
        (if lcd_obj_size gb then 16 else 8) := by
  have h := scan_oam_loop_selected gb.memory hm hly 40 0 { gb with num_scanline_sprites := 0 }
    rfl (by decide) (Nat.zero_lt_succ 9) (fun k hk => absurd hk (Nat.not_lt_zero k))
  refine ⟨h.1, ?_⟩
  intro k hk
  obtain ⟨j, hj, e, h1, h2⟩ := h.2 k hk
  exact ⟨⟨j, hj, e⟩, h1, h2⟩

/-- C31 on the loaded cartridge with sprite 0 at py = 16 (lines 0..7) and LY = 0: one sprite
is selected, and it is on the line. -/
theorem scan_oam_selects_sprites_on_the_line_witness :
    (scan_oam sprite_on_line_example).num_scanline_sprites = 1 ∧
    (((scan_oam sprite_on_line_example).scanline_sprites 0).py : Int) - 16 ≤
      (lcd_ly sprite_on_line_example : Int) := by
  have h := scan_oam_selects_sprites_on_the_line sprite_on_line_example
    sprite_on_line_example_bytes (by decide!)
  exact ⟨by decide!, (h.2 0 (by decide!)).2.1⟩

/-- C32: with one 8x16 sprite of tile number 1 at the top left and FlipY = 0, the row of line 0
(top half) is drawn from tile 1, colour 1, not from tile 1 & 0xFE = 0, colour 3; and the
row of line 8 (bottom half) from tile 2, colour 2, not from tile 1 | 0x01 = 1, colour 1. -/
theorem tall_sprite_uses_tile_and_next :
    lcd_obj_size tall_sprite_example = true ∧ lcd_ly tall_sprite_example = 0 ∧
    (scan_oam tall_sprite_example).num_scanline_sprites = 1 ∧
    ((scan_oam tall_sprite_example).scanline_sprites 0).tile = 1 ∧
    get_bit ((scan_oam tall_sprite_example).scanline_sprites 0).flags 6 = false ∧
    tile_line tall_sprite_example 0x8000 0 0 = 0xFFFF ∧
    tile_line tall_sprite_example 0x8000 1 0 = 0x00FF ∧
    tile_line tall_sprite_example 0x8000 2 0 = 0xFF00 ∧
    (pixel_transfer (scan_oam tall_sprite_example)).framebuffer 0 = gb_colors 1 ∧
    lcd_ly tall_sprite_line_8_example = 8 ∧
    (pixel_transfer (scan_oam tall_sprite_line_8_example)).framebuffer (8 * 160) =
      gb_colors 2 := by
  decide!

/-- C33: for every tile line with plane bytes `low` and `high`, every palette, every screen
position and every state, `draw_tile_on_scanline` without flip, transparency or priority
stores, for each i in 0..7 whose column x + (7 - i) is on the screen (and with row y on the
screen), the colour `gb_colors[(palette >> 2*idx) & 3]` with
idx = ((low >> i) & 1) | (((high >> i) & 1) << 1) at that column of row y; every other
on-screen pixel, every cell past the 160x144 pixels and everything outside the framebuffer
stay as they were. -/
theorem tile_line_pixels (x y : Int) (low high palette : Nat) (hl : low < 256) (hh : high < 256)
    (gb : gameboy_t) :
    (∀ i : Nat, i < 8 → 0 ≤ x + (7 - (i : Int)) → x + (7 - (i : Int)) < 160 → 0 ≤ y → y < 144 →
      (draw_tile_on_scanline x y (COMBINE high low) palette
          { transparency := false, flip := false, prio_bg := false } gb).framebuffer
          (y * 160 + (x + (7 - (i : Int)))).toNat =
        gb_colors ((palette >>> (2 * (((low >>> i) &&& 1) ||| (((high >>> i) &&& 1) <<< 1))))
          &&& 3)) ∧
    (∀ qx qy : Int, 0 ≤ qx → qx < 160 → 0 ≤ qy → qy < 144 → ¬ (qy = y ∧ x ≤ qx ∧ qx ≤ x + 7) →
      (draw_tile_on_scanline x y (COMBINE high low) palette
          { transparency := false, flip := false, prio_bg := false } gb).framebuffer
          (qy * 160 + qx).toNat = gb.framebuffer (qy * 160 + qx).toNat) ∧
    (∀ p, 160 * 144 ≤ p →
      (draw_tile_on_scanline x y (COMBINE high low) palette
          { transparency := false, flip := false, prio_bg := false } gb).framebuffer p =
        gb.framebuffer p) ∧
    draw_tile_on_scanline x y (COMBINE high low) palette
        { transparency := false, flip := false, prio_bg := false } gb =
      { gb with
        framebuffer :=
          (draw_tile_on_scanline x y (COMBINE high low) palette
            { transparency := false, flip := false, prio_bg := false } gb).framebuffer } := by
  have hg : ∀ (fb : Nat → Nat) (qx qy : Int), 0 ≤ qx ∧ qx < 160 ∧ 0 ≤ qy ∧ qy < 144 →
      get_pixel fb qx qy = fb (qy * 160 + qx).toNat := by
    intro fb qx qy hq
    have hq2 : 0 ≤ qx ∧ qx < ((SCREEN_W : Nat) : Int) ∧ 0 ≤ qy ∧ qy < ((SCREEN_H : Nat) : Int) :=
      hq
    unfold get_pixel
    rw [if_pos hq2]
    rfl
  have hpc : ∀ idx, palette_color palette idx = (palette >>> (2 * idx)) &&& 3 := by
    intro idx
    unfold palette_color
    rw [and_03]
    omega
  refine ⟨?_, ?_, ?_, ?_⟩
  · intro i hi h0 h1 h2 h3
    have hq : 0 ≤ x + (7 - (i : Int)) ∧ x + (7 - (i : Int)) < 160 ∧ 0 ≤ y ∧ y < 144 :=
      ⟨h0, h1, h2, h3⟩
    have e : (x + 7 - (x + (7 - (i : Int)))).toNat = i := by omega
    rw [← hg (draw_tile_on_scanline x y (COMBINE high low) palette
        { transparency := false, flip := false, prio_bg := false } gb).framebuffer _ _ hq,
      draw_tile_plain_pixel _ _ _ _ _ _ _ hq, if_pos ⟨rfl, by omega, by omega⟩,
      e, hpc, LOW_COMBINE _ _ hl, HIGH_COMBINE _ _ hh hl]
  · intro qx qy h0 h1 h2 h3 hn
    have hq : 0 ≤ qx ∧ qx < 160 ∧ 0 ≤ qy ∧ qy < 144 := ⟨h0, h1, h2, h3⟩
    rw [← hg (draw_tile_on_scanline x y (COMBINE high low) palette
        { transparency := false, flip := false, prio_bg := false } gb).framebuffer _ _ hq,
      ← hg gb.framebuffer _ _ hq, draw_tile_plain_pixel _ _ _ _ _ _ _ hq, if_neg hn]
  · intro p hp
    exact draw_tile_plain_far _ _ _ _ _ p hp
  · rw [draw_tile_plain_eq]

/-- C33 on the line with low = 0xA5, high = 0x0F drawn with the palette 0xE4 at x = -3, y = 5
on the empty machine: bit 4 lands in column 0 of row 5 with colour index 0, bit 0 in
column 4 with colour index 3. -/
theorem tile_line_pixels_witness :
    (draw_tile_on_scanline (-3) 5 (COMBINE 0x0F 0xA5) 0xE4
        { transparency := false, flip := false, prio_bg := false } gb_zero).framebuffer
        (5 * 160 + 0) = gb_colors 0 ∧
    (draw_tile_on_scanline (-3) 5 (COMBINE 0x0F 0xA5) 0xE4
        { transparency := false, flip := false, prio_bg := false } gb_zero).framebuffer
        (5 * 160 + 4) = gb_colors 3 := by
  have h := (tile_line_pixels (-3) 5 0xA5 0x0F 0xE4 (by decide) (by decide) gb_zero).1
  exact ⟨h 4 (by decide) (by decide) (by decide) (by decide) (by decide),
    h 0 (by decide) (by decide) (by decide) (by decide) (by decide)⟩

/-- C34: after `reset` with no ROM (as `main` calls it first) and after `load` of a cartridge,
the first and the last pixel of the framebuffer hold 0xD0D0D0D0, the low byte 0xD0 of
`gb_colors[0]` = 0xFFE0F8D0 repeated, not palette colour 0. -/
theorem reset_fills_framebuffer_with_one_byte :
    (reset none gb_zero).framebuffer 0 = 0xD0D0D0D0 ∧
    (reset none gb_zero).framebuffer (160 * 144 - 1) = 0xD0D0D0D0 ∧
    cart_loaded.framebuffer 0 = 0xD0D0D0D0 ∧
    cart_loaded.framebuffer (160 * 144 - 1) = 0xD0D0D0D0 ∧
    gb_colors 0 = 0xFFE0F8D0 := by
  decide!

/-- C37, counterexample: two passes after `load` of the cartridge (PC = 0x0105, A = 5, ROM
bank 5, 0x3E at 0x0100 of the memory image and of the ROM buffer), the load of a file of
zero bytes, whose checksum does not match, leaves PC = 0x0100, A = 1, ROM bank 0 and 0 at
0x0100 of the memory image and of the ROM buffer. -/
theorem rejected_load_resets_the_machine :
    header_checksum (rom_after_read zero_rom_file (run 2 cart_loaded).rom) ≠
      rom_after_read zero_rom_file (run 2 cart_loaded).rom 0x14D ∧
    (run 2 cart_loaded).registers.pc = 0x0105 ∧
    (load (some zero_rom_file) none (run 2 cart_loaded)).registers.pc = 0x0100 ∧
    (run 2 cart_loaded).registers.a = 5 ∧
    (load (some zero_rom_file) none (run 2 cart_loaded)).registers.a = 1 ∧
    (run 2 cart_loaded).rom_bank = 5 ∧
    (load (some zero_rom_file) none (run 2 cart_loaded)).rom_bank = 0 ∧
    (run 2 cart_loaded).memory 0x0100 = 0x3E ∧
    (load (some zero_rom_file) none (run 2 cart_loaded)).memory 0x0100 = 0 ∧
    (run 2 cart_loaded).rom 0x0100 = 0x3E ∧
    (load (some zero_rom_file) none (run 2 cart_loaded)).rom 0x0100 = 0 := by
  decide!

/-- C37, amended: for every file that fits the ROM buffer and whose header checksum does not
match, every save file and every prior state, `load` drops the ROM path and resets the machine as with no ROM: the
state is that of `reset` on the prior state with the file read over `gb.rom`, so the
registers hold their post-boot values, both bank registers are 0, and every cell of
`memory` is 0 but for the I/O cells that `reset` sets. -/
theorem load_rejected_resets_without_rom (f : host_file) (_hsize : f.size ≤ MAX_ROM_SIZE)
    (sav : Option host_file) (gb : gameboy_t)
    (hbad : header_checksum (rom_after_read f gb.rom) ≠ rom_after_read f gb.rom 0x14D) :
    load (some f) sav gb =
      reset none { gb with rom := rom_after_read f gb.rom, rom_path_set := false } ∧
    (load (some f) sav gb).rom_path_set = false ∧
    (load (some f) sav gb).rom = rom_after_read f gb.rom ∧
    (load (some f) sav gb).ram = gb.ram ∧
    (load (some f) sav gb).registers.af = 0x01B0 ∧ (load (some f) sav gb).registers.bc = 0x0013 ∧
    (load (some f) sav gb).registers.de = 0x00D8 ∧ (load (some f) sav gb).registers.hl = 0x014D ∧
    (load (some f) sav gb).registers.sp = 0xFFFE ∧ (load (some f) sav gb).registers.pc = 0x0100 ∧
    (load (some f) sav gb).rom_bank = 0 ∧ (load (some f) sav gb).ram_bank = 0 ∧
    (∀ a, a ∉ reset_io_addresses → (load (some f) sav gb).memory a = 0) := by
  have hd : decide (header_checksum (rom_after_read f gb.rom) = rom_after_read f gb.rom 0x14D) =
      false := decide_eq_false hbad
  have h0 : load (some f) sav gb =
      reset_core { gb with rom := rom_after_read f gb.rom, rom_path_set := false } := by
    rw [load_some_eq, hd, reset_eq]
    rfl
  have h1 : reset none { gb with rom := rom_after_read f gb.rom, rom_path_set := false } =
      reset_core { gb with rom := rom_after_read f gb.rom, rom_path_set := false } := by
    rw [reset_eq]
    rfl
  have hf := reset_core_fixed { gb with rom := rom_after_read f gb.rom, rom_path_set := false }
  rw [h1, h0, hf.1]
  refine ⟨rfl, rfl, rfl, rfl, by decide, by decide, by decide, by decide, by decide, by decide,
    rfl, rfl, ?_⟩
  intro a ha
  exact reset_core_memory_zero _ a ha

/-- C37 on the load of the file of zero bytes two passes after the load of the cartridge. -/
theorem load_rejected_resets_without_rom_witness :
    (load (some zero_rom_file) none (run 2 cart_loaded)).rom_path_set = false ∧
    (load (some zero_rom_file) none (run 2 cart_loaded)).registers.pc = 0x0100 ∧
    (load (some zero_rom_file) none (run 2 cart_loaded)).rom_bank = 0 ∧
    (load (some zero_rom_file) none (run 2 cart_loaded)).memory 0x0100 = 0 := by
  have h := load_rejected_resets_without_rom zero_rom_file (by decide) none (run 2 cart_loaded)
    (by decide!)
  exact ⟨h.2.1, h.2.2.2.2.2.2.2.2.2.1, h.2.2.2.2.2.2.2.2.2.2.1,
    h.2.2.2.2.2.2.2.2.2.2.2.2 0x0100 (by decide)⟩

/-- C39: for every state (every SCX, SCY, LY and VRAM content) the counter of the background
loop of `pixel_transfer` reaches its end value after 21 increments, or after 245 when
`start + 21` passes 32, and the loop run with more fuel than that returns the state that
drawing exactly 21 tiles, with tile columns (SCX/8 + k) mod 32 at screen columns
-(SCX mod 8) + 8k for k = 0..20, produces; with the 256 units that `pixel_transfer`
gives it in particular. -/
theorem background_loop_draws_21_tiles (gb : gameboy_t) (fuel : Nat) (hf : 245 < fuel) :
    (∃ n, (n = 21 ∨ n = 245) ∧
      ((gb.memory 0xFF43 / 8) % 32 + n) % 256 = ((gb.memory 0xFF43 / 8) % 32 + 21) % 32 ∧
      ∀ m, m < n →
        ((gb.memory 0xFF43 / 8) % 32 + m) % 256 ≠ ((gb.memory 0xFF43 / 8) % 32 + 21) % 32) ∧
    bg_loop fuel ((gb.memory 0xFF43 / 8) % 32) (((gb.memory 0xFF43 / 8) % 32 + 21) % 32)
      (-((gb.memory 0xFF43 % 8 : Nat) : Int)) gb = bg_row_spec gb ∧
    bg_loop 256 ((gb.memory 0xFF43 / 8) % 32) (((gb.memory 0xFF43 / 8) % 32 + 21) % 32)
      (-((gb.memory 0xFF43 % 8 : Nat) : Int)) gb = bg_row_spec gb := by
  have hx : -7 ≤ -((gb.memory 0xFF43 % 8 : Nat) : Int) := by omega
  exact ⟨bg_loop_counter _, bg_loop_row_aux gb _ _ hx fuel hf,
    bg_loop_row_aux gb _ _ hx 256 (by decide)⟩

/-- C39 on the loaded cartridge with SCX = 0x63 (start column 12, so the counter runs past 32):
the loop with 246 units of fuel draws the row of the specification. -/
theorem background_loop_draws_21_tiles_witness :
    bg_loop 246 ((scx_example.memory 0xFF43 / 8) % 32)
      (((scx_example.memory 0xFF43 / 8) % 32 + 21) % 32)
      (-((scx_example.memory 0xFF43 % 8 : Nat) : Int)) scx_example = bg_row_spec scx_example :=
  (background_loop_draws_21_tiles scx_example 246 (by decide)).2.1

/-- C40: for every state with no DMA in progress whose SP-1 and SP-2 lie in HRAM or WRAM, with
PC = p at the opcode: CALL u16 jumps to the address made of the two operand bytes, and RET
after it leaves PC = (p + 3) mod 65536 and SP as before the CALL; each RST n jumps to
`op & 0x38`, and RET after it leaves PC = (p + 1) mod 65536 and SP as before. -/
theorem call_and_rst_return (gb : gameboy_t) (hsp : gb.registers.sp < 65536)
    (hdma : gb.state.dma_transfer = false)
    (h1 : in_hram_or_wram ((gb.registers.sp + 65535) % 65536))
    (h2 : in_hram_or_wram ((gb.registers.sp + 65534) % 65536)) :
    (execute_op 0xCD (fetch gb).2).registers.pc =
      COMBINE (mem_r ((gb.registers.pc + 2) % 65536) gb) (mem_r ((gb.registers.pc + 1) % 65536) gb) ∧
    (execute_op 0xC9 (execute_op 0xCD (fetch gb).2)).registers.pc =
      (gb.registers.pc + 3) % 65536 ∧
    (execute_op 0xC9 (execute_op 0xCD (fetch gb).2)).registers.sp = gb.registers.sp ∧
    (∀ op, op ∈ [0xC7, 0xCF, 0xD7, 0xDF, 0xE7, 0xEF, 0xF7, 0xFF] →
      (execute_op op (fetch gb).2).registers.pc = op &&& 0x38 ∧
      (execute_op 0xC9 (execute_op op (fetch gb).2)).registers.pc =
        (gb.registers.pc + 1) % 65536 ∧
      (execute_op 0xC9 (execute_op op (fetch gb).2)).registers.sp = gb.registers.sp) := by
  have hc := ret_after_pushes { gb with registers.pc := (gb.registers.pc + 3) % 65536 }
    (HIGH ((gb.registers.pc + 3) % 65536)) (LOW ((gb.registers.pc + 3) % 65536)) 24
    (COMBINE (mem_r ((gb.registers.pc + 2) % 65536) gb)
      (mem_r ((gb.registers.pc + 1) % 65536) gb)) hsp hdma h1 h2
  rw [COMBINE_HIGH_LOW _ (by omega)] at hc
  rw [execute_op_ret, execute_op_call, op_call_after_fetch]
  refine ⟨rfl, hc.1, hc.2, ?_⟩
  · intro op hop
    have h := ret_after_pushes
      { gb with registers.pc := (gb.registers.pc + 1) % 65536 }
      (HIGH ((gb.registers.pc + 1) % 65536)) (LOW ((gb.registers.pc + 1) % 65536)) 16
      (op &&& 0x38) hsp hdma h1 h2
    rw [COMBINE_HIGH_LOW _ (by omega)] at h
    rw [execute_op_ret, execute_op_rst op _ hop, op_rst_after_fetch]
    exact ⟨rfl, h.1, h.2⟩

/-- C40 on a state with SP = 0xD000 and PC = 0x0150. -/
theorem call_and_rst_return_witness :
    (execute_op 0xC9 (execute_op 0xCD (fetch call_example).2)).registers.pc = 0x0153 ∧
    (execute_op 0xC9 (execute_op 0xCD (fetch call_example).2)).registers.sp = 0xD000 ∧
    (execute_op 0xEF (fetch call_example).2).registers.pc = 0x28 ∧
    (execute_op 0xC9 (execute_op 0xEF (fetch call_example).2)).registers.pc = 0x0151 := by
  have h := call_and_rst_return call_example (by decide) (by decide) (by decide) (by decide)
  exact ⟨h.2.1, h.2.2.1, (h.2.2.2 0xEF (by decide)).1, (h.2.2.2 0xEF (by decide)).2.1⟩

end TinyGB
